import Mathlib

/-!
# Washing-machine control core

A shallow embedding of the control core of the washing-machine simulator
(`StateMachine`, `EventEngine`, `DoorSystem`, `WaterSystem`, `MotorSystem`,
`WashMode`, `ConfigManager`, `WashingMachine`) and theorems about it.

Conventions of the embedding

* C++ `float` values that are numbers are modelled as rationals (`ℚ`); the
  rounding of an operation to `float` is modelled (`roundFloat`) where it shows
  in an `int` or in the order of results: the ramp amount of the motor, the
  load-adjusted water level, the remaining seconds.  `int` values are modelled
  as integers (`Int`), with `fitsInt` saying which of them are values of the
  type.  `static_cast<int>` of a float is truncation towards zero, defined if
  the result satisfies `fitsInt`.
* `std::map` is modelled as an association list with `find` / `operator[]`
  semantics (`mapFind`, `mapAssign`); `std::vector` and `std::queue` as lists.
* Text written to `std::cout`, event timestamps and the threading of the
  simulation loop are not modelled: an execution is a sequence of whole
  operator calls and whole ticks.
* A `std::function<void(State, State)>` observer is a function on the program
  state `W` that the closure captures; the two callback maps of a
  `StateMachine` are kept next to the program state (`CallbackMaps`), so an
  observer cannot register further observers while it runs.
-/

namespace Washer

/-! ## Types.hpp -/

/-- The `State` enumeration of `Types.hpp`. -/
inductive State
  | Idle
  | DoorOpen
  | Ready
  | Filling
  | Washing
  | Rinsing
  | Spinning
  | Draining
  | Completed
  | Paused
  | EmergencyStop
  | Fault
deriving DecidableEq, Repr, Fintype

/-- The `EventType` enumeration of `Types.hpp`. -/
inductive EventType
  | CMD_OPEN_DOOR
  | CMD_CLOSE_DOOR
  | CMD_SELECT_MODE
  | CMD_START
  | CMD_PAUSE
  | CMD_RESUME
  | CMD_STOP
  | CMD_EMERGENCY
  | CMD_SET_LOAD
  | SYS_WATER_LEVEL_REACHED
  | SYS_WASH_COMPLETE
  | SYS_RINSE_COMPLETE
  | SYS_SPIN_COMPLETE
  | SYS_DRAIN_COMPLETE
  | SYS_CYCLE_COMPLETE
  | TIMER_TICK
  | TIMER_TIMEOUT
  | FAULT_WATER_UNAVAILABLE
  | FAULT_OVERLOAD
  | FAULT_DOOR
  | FAULT_MOTOR
  | FAULT_CLEARED
deriving DecidableEq, Repr, Fintype

/-- The `DoorStatus` enumeration of `Types.hpp`. -/
inductive DoorStatus
  | Open
  | ClosedUnlocked
  | ClosedLocked
deriving DecidableEq, Repr

/-- The `Direction` enumeration of `Types.hpp`. -/
inductive Direction
  | Clockwise
  | CounterClockwise
  | Stopped
deriving DecidableEq, Repr

/-- The `FaultCode` enumeration of `Types.hpp`. -/
inductive FaultCode
  | None
  | WaterUnavailable
  | Overload
  | DoorFault
  | MotorFault
  | Timeout
deriving DecidableEq, Repr

/-! ## `std::map` as an association list -/

/-- `m.find(k)`: the value stored under `k`, if any. -/
def mapFind {κ α : Type} [DecidableEq κ] : List (κ × α) → κ → Option α
  | [], _ => none
  | (k', v) :: rest, k => if k' = k then some v else mapFind rest k

/-- `m[k] = v`: overwrite the value under `k`, or insert the key. -/
def mapAssign {κ α : Type} [DecidableEq κ] : List (κ × α) → κ → α → List (κ × α)
  | [], k, v => [(k, v)]
  | (k', v') :: rest, k, v =>
    if k' = k then (k', v) :: rest else (k', v') :: mapAssign rest k v

/-! ## StateMachine.cpp -/

/-- `std::map<State, std::map<EventType, State>>`. -/
abbrev TransitionTable := List (State × List (EventType × State))

/-- One statement `transitionTable[s][e] = d`. -/
def tableSet (t : TransitionTable) (s : State) (e : EventType) (d : State) :
    TransitionTable :=
  mapAssign t s (mapAssign ((mapFind t s).getD []) e d)

/-- The assignments of `StateMachine::initializeTransitions`, in source order:
`(s, e, d)` stands for `transitionTable[s][e] = d`. -/
def transitionEntries : List (State × EventType × State) :=
  [ (.Idle, .CMD_OPEN_DOOR, .DoorOpen),
    (.Idle, .CMD_SELECT_MODE, .Ready),
    (.DoorOpen, .CMD_CLOSE_DOOR, .Idle),
    (.Ready, .CMD_OPEN_DOOR, .DoorOpen),
    (.Ready, .CMD_START, .Filling),
    (.Ready, .CMD_STOP, .Idle),
    (.Ready, .CMD_SELECT_MODE, .Ready),
    (.Filling, .SYS_WATER_LEVEL_REACHED, .Washing),
    (.Filling, .CMD_PAUSE, .Paused),
    (.Filling, .CMD_EMERGENCY, .EmergencyStop),
    (.Filling, .FAULT_WATER_UNAVAILABLE, .Fault),
    (.Filling, .CMD_STOP, .Draining),
    (.Washing, .SYS_WASH_COMPLETE, .Rinsing),
    (.Washing, .CMD_PAUSE, .Paused),
    (.Washing, .CMD_EMERGENCY, .EmergencyStop),
    (.Washing, .CMD_STOP, .Draining),
    (.Rinsing, .SYS_RINSE_COMPLETE, .Spinning),
    (.Rinsing, .CMD_PAUSE, .Paused),
    (.Rinsing, .CMD_EMERGENCY, .EmergencyStop),
    (.Rinsing, .CMD_STOP, .Draining),
    (.Spinning, .SYS_SPIN_COMPLETE, .Draining),
    (.Spinning, .CMD_PAUSE, .Paused),
    (.Spinning, .CMD_EMERGENCY, .EmergencyStop),
    (.Spinning, .CMD_STOP, .Draining),
    (.Draining, .SYS_DRAIN_COMPLETE, .Completed),
    (.Draining, .CMD_EMERGENCY, .EmergencyStop),
    (.Completed, .CMD_OPEN_DOOR, .DoorOpen),
    (.Completed, .CMD_STOP, .Idle),
    (.Completed, .CMD_SELECT_MODE, .Ready),
    (.Paused, .CMD_RESUME, .Filling),
    (.Paused, .CMD_STOP, .Draining),
    (.Paused, .CMD_EMERGENCY, .EmergencyStop),
    (.EmergencyStop, .CMD_STOP, .Idle),
    (.EmergencyStop, .SYS_DRAIN_COMPLETE, .Idle),
    (.Fault, .FAULT_CLEARED, .Idle),
    (.Fault, .CMD_STOP, .Idle) ]

/-- `StateMachine::initializeTransitions`: the table after running the
assignments on the empty map. -/
def initializeTransitions : TransitionTable :=
  transitionEntries.foldl (fun t x => tableSet t x.1 x.2.1 x.2.2) []

/-- The member `transitionTable`.  It is private, filled once by the
constructor and never written again, so it is a constant of the model. -/
def transitionTable : TransitionTable := initializeTransitions

/-- `transitionTable.at(s).at(e)` as an option (`none` where `at` would throw). -/
def tableLookup (s : State) (e : EventType) : Option State :=
  match mapFind transitionTable s with
  | none => none
  | some row => mapFind row e

/-- The data members `currentState`, `previousState`, `pausedFromState` of
`StateMachine`. -/
structure StateMachine where
  currentState : State
  previousState : State
  pausedFromState : State
deriving DecidableEq, Repr

/-- `StateMachine::StateMachine()`. -/
def StateMachine.new : StateMachine :=
  { currentState := .Idle, previousState := .Idle, pausedFromState := .Idle }

/-- `StateMachine::getCurrentState`. -/
def StateMachine.getCurrentState (sm : StateMachine) : State := sm.currentState

/-- `StateMachine::getPreviousState`. -/
def StateMachine.getPreviousState (sm : StateMachine) : State := sm.previousState

/-- `StateMachine::getPausedFromState`. -/
def StateMachine.getPausedFromState (sm : StateMachine) : State := sm.pausedFromState

/-- `StateMachine::setPausedFromState`. -/
def StateMachine.setPausedFromState (sm : StateMachine) (state : State) : StateMachine :=
  { sm with pausedFromState := state }

/-- `StateMachine::canTransition`. -/
def StateMachine.canTransition (sm : StateMachine) (event : EventType) : Bool :=
  match mapFind transitionTable sm.currentState with
  | none => false
  | some row => (mapFind row event).isSome

/-- `StateMachine::isActiveState`. -/
def StateMachine.isActiveState (sm : StateMachine) : Bool :=
  sm.currentState == State.Filling ||
  sm.currentState == State.Washing ||
  sm.currentState == State.Rinsing ||
  sm.currentState == State.Spinning ||
  sm.currentState == State.Draining

/-- `StateMachine::isSafeToOpenDoor`. -/
def StateMachine.isSafeToOpenDoor (sm : StateMachine) : Bool :=
  sm.currentState == State.Idle ||
  sm.currentState == State.DoorOpen ||
  sm.currentState == State.Ready ||
  sm.currentState == State.Completed

/-- `StateMachine::reset`. -/
def StateMachine.reset (_sm : StateMachine) : StateMachine :=
  { currentState := .Idle, previousState := .Idle, pausedFromState := .Idle }

/-- `StateMachine::StateCallback`, acting on the program state `W` its closure
captures; the two arguments are the ones the state machine passes. -/
abbrev StateCallback (W : Type) := State → State → W → W

/-- The members `onEnterCallbacks` and `onExitCallbacks`. -/
structure CallbackMaps (W : Type) where
  onEnterCallbacks : List (State × List (StateCallback W))
  onExitCallbacks : List (State × List (StateCallback W))

/-- The callback maps of a freshly constructed `StateMachine`. -/
def CallbackMaps.empty {W : Type} : CallbackMaps W :=
  { onEnterCallbacks := [], onExitCallbacks := [] }

/-- `StateMachine::registerOnEnter`: `onEnterCallbacks[state].push_back(callback)`. -/
def registerOnEnter {W : Type} (cbs : CallbackMaps W) (state : State)
    (callback : StateCallback W) : CallbackMaps W :=
  let callbacks := (mapFind cbs.onEnterCallbacks state).getD []
  { cbs with onEnterCallbacks := mapAssign cbs.onEnterCallbacks state (callbacks ++ [callback]) }

/-- `StateMachine::registerOnExit`: `onExitCallbacks[state].push_back(callback)`. -/
def registerOnExit {W : Type} (cbs : CallbackMaps W) (state : State)
    (callback : StateCallback W) : CallbackMaps W :=
  let callbacks := (mapFind cbs.onExitCallbacks state).getD []
  { cbs with onExitCallbacks := mapAssign cbs.onExitCallbacks state (callbacks ++ [callback]) }

/-- Where a program state `W` keeps its `StateMachine` object. -/
structure Host (W : Type) where
  stateMachine : W → StateMachine
  setStateMachine : StateMachine → W → W
  get_set : ∀ sm w, stateMachine (setStateMachine sm w) = sm

/-- The loop `for (const auto& callback : it->second) callback(a, b);` guarded
by `it != map.end()`. -/
def runCallbacks {W : Type} (m : List (State × List (StateCallback W))) (key : State)
    (a b : State) (w : W) : W :=
  match mapFind m key with
  | none => w
  | some callbacks => callbacks.foldl (fun acc callback => callback a b acc) w

/-- `StateMachine::transition`.  The result is the returned `bool` and the
program state after the call. -/
def transition {W : Type} (h : Host W) (cbs : CallbackMaps W) (event : EventType)
    (w : W) : Bool × W :=
  if !(h.stateMachine w).canTransition event then
    (false, w)
  else
    let oldState := (h.stateMachine w).currentState
    match tableLookup oldState event with
    | none => (false, w)
    | some newState =>
      let w1 := runCallbacks cbs.onExitCallbacks oldState oldState newState w
      let sm1 := h.stateMachine w1
      let w2 := h.setStateMachine
        { sm1 with previousState := sm1.currentState, currentState := newState } w1
      let w3 := runCallbacks cbs.onEnterCallbacks newState newState oldState w2
      (true, w3)

/-- `StateMachine::forceState`. -/
def forceState {W : Type} (h : Host W) (cbs : CallbackMaps W) (state : State)
    (w : W) : W :=
  let oldState := (h.stateMachine w).currentState
  let w1 := runCallbacks cbs.onExitCallbacks oldState oldState state w
  let sm1 := h.stateMachine w1
  let w2 := h.setStateMachine
    { sm1 with previousState := sm1.currentState, currentState := state } w1
  runCallbacks cbs.onEnterCallbacks state state oldState w2

/-! ## Event.hpp, EventEngine.cpp -/

/-- The payload `std::variant<std::monostate, int, float, std::string>`. -/
inductive EventData
  | none
  | int (value : Int)
  | float (value : ℚ)
  | string (value : String)
deriving DecidableEq, Repr

/-- Class `Event` without its timestamp. -/
structure Event where
  type : EventType
  data : EventData
deriving DecidableEq, Repr

/-- `Event::getType`. -/
def Event.getType (e : Event) : EventType := e.type

/-- `Event::hasData`. -/
def Event.hasData (e : Event) : Bool :=
  match e.data with
  | .none => false
  | _ => true

/-- `Event::getData<int>`; `none` stands for `std::bad_variant_access`. -/
def Event.getDataInt (e : Event) : Option Int :=
  match e.data with
  | .int v => some v
  | _ => none

/-- `Event::getData<float>`; `none` stands for `std::bad_variant_access`. -/
def Event.getDataFloat (e : Event) : Option ℚ :=
  match e.data with
  | .float v => some v
  | _ => none

/-- The members `eventQueue` and `running` of `EventEngine`. -/
structure EventEngine where
  eventQueue : List Event
  running : Bool
deriving DecidableEq, Repr

/-- `EventEngine::EventEngine()`. -/
def EventEngine.new : EventEngine := { eventQueue := [], running := false }

/-- `EventEngine::pushEvent(const Event&)`. -/
def EventEngine.pushEvent (ee : EventEngine) (event : Event) : EventEngine :=
  { ee with eventQueue := ee.eventQueue ++ [event] }

/-- `EventEngine::pushEvent(EventType)`. -/
def EventEngine.pushEventType (ee : EventEngine) (type : EventType) : EventEngine :=
  ee.pushEvent { type := type, data := .none }

/-- `EventEngine::pushEvent(EventType, int)`. -/
def EventEngine.pushEventInt (ee : EventEngine) (type : EventType) (data : Int) :
    EventEngine :=
  ee.pushEvent { type := type, data := .int data }

/-- `EventEngine::pushEvent(EventType, float)`. -/
def EventEngine.pushEventFloat (ee : EventEngine) (type : EventType) (data : ℚ) :
    EventEngine :=
  ee.pushEvent { type := type, data := .float data }

/-- `EventEngine::popEvent`. -/
def EventEngine.popEvent (ee : EventEngine) : Option Event × EventEngine :=
  match ee.eventQueue with
  | [] => (none, ee)
  | event :: rest => (some event, { ee with eventQueue := rest })

/-- `EventEngine::hasEvents`. -/
def EventEngine.hasEvents (ee : EventEngine) : Bool := !ee.eventQueue.isEmpty

/-- `EventEngine::getQueueSize`. -/
def EventEngine.getQueueSize (ee : EventEngine) : Nat := ee.eventQueue.length

/-- `EventEngine::clear`. -/
def EventEngine.clear (ee : EventEngine) : EventEngine := { ee with eventQueue := [] }

/-- `EventEngine::start`. -/
def EventEngine.start (ee : EventEngine) : EventEngine := { ee with running := true }

/-- `EventEngine::stop`. -/
def EventEngine.stop (ee : EventEngine) : EventEngine := { ee with running := false }

/-! ## DoorSystem.cpp

A subsystem's `eventCallback` member is modelled by a flag telling whether it
is non-null; an operation returns, next to the new subsystem state, the list of
event types it passed to the callback, in call order. -/

/-- Class `DoorSystem`; `opened` is the member `open`. -/
structure DoorSystem where
  opened : Bool
  locked : Bool
  eventCallback : Bool
deriving DecidableEq, Repr

/-- `DoorSystem::DoorSystem()`. -/
def DoorSystem.new : DoorSystem := { opened := true, locked := false, eventCallback := false }

/-- `DoorSystem::openDoor`: the returned `bool`, the door afterwards and the
events passed to the callback. -/
def DoorSystem.openDoor (d : DoorSystem) : Bool × DoorSystem × List EventType :=
  if d.locked then
    (false, d, [])
  else if !d.opened then
    (true, { d with opened := true }, if d.eventCallback then [.CMD_OPEN_DOOR] else [])
  else
    (true, d, [])

/-- `DoorSystem::closeDoor`. -/
def DoorSystem.closeDoor (d : DoorSystem) : Bool × DoorSystem × List EventType :=
  if d.opened then
    (true, { d with opened := false }, if d.eventCallback then [.CMD_CLOSE_DOOR] else [])
  else
    (true, d, [])

/-- `DoorSystem::lock`. -/
def DoorSystem.lock (d : DoorSystem) : DoorSystem :=
  if !d.opened then { d with locked := true } else d

/-- `DoorSystem::unlock`. -/
def DoorSystem.unlock (d : DoorSystem) : DoorSystem := { d with locked := false }

/-- `DoorSystem::isOpen`. -/
def DoorSystem.isOpen (d : DoorSystem) : Bool := d.opened

/-- `DoorSystem::isLocked`. -/
def DoorSystem.isLocked (d : DoorSystem) : Bool := d.locked

/-- `DoorSystem::canOpen`. -/
def DoorSystem.canOpen (d : DoorSystem) : Bool := !d.locked

/-- `DoorSystem::getStatus`. -/
def DoorSystem.getStatus (d : DoorSystem) : DoorStatus :=
  if d.opened then .Open
  else if d.locked then .ClosedLocked else .ClosedUnlocked

/-- `DoorSystem::reset`. -/
def DoorSystem.reset (d : DoorSystem) : DoorSystem :=
  { d with opened := true, locked := false }

/-! ## WaterSystem.cpp -/

/-- Class `WaterSystem`. -/
structure WaterSystem where
  currentLevel : ℚ
  targetLevel : ℚ
  reservoirLevel : ℚ
  maxReservoir : ℚ
  fillRate : ℚ
  drainRate : ℚ
  inletValveOpen : Bool
  drainValveOpen : Bool
  lowThreshold : ℚ
  eventCallback : Bool
deriving DecidableEq, Repr

/-- `WaterSystem::WaterSystem()`. -/
def WaterSystem.new : WaterSystem :=
  { currentLevel := 0, targetLevel := 0, reservoirLevel := 100, maxReservoir := 100,
    fillRate := 10, drainRate := 15, inletValveOpen := false, drainValveOpen := false,
    lowThreshold := 10, eventCallback := false }

/-- `WaterSystem::setEventCallback`; `callback` tells whether the function
given is non-null. -/
def WaterSystem.setEventCallback (w : WaterSystem) (callback : Bool) : WaterSystem :=
  { w with eventCallback := callback }

/-- `WaterSystem::autoReplenish`. -/
def WaterSystem.autoReplenish (w : WaterSystem) : Bool × WaterSystem :=
  (true, { w with reservoirLevel := w.maxReservoir })

/-- `WaterSystem::startFilling`. -/
def WaterSystem.startFilling (w : WaterSystem) (targetLiters : ℚ) :
    WaterSystem × List EventType :=
  let fill := fun (x : WaterSystem) =>
    { x with targetLevel := targetLiters, inletValveOpen := true, drainValveOpen := false }
  if w.reservoirLevel < w.lowThreshold then
    let r := w.autoReplenish
    if !r.1 then
      (r.2, if w.eventCallback then [.FAULT_WATER_UNAVAILABLE] else [])
    else
      (fill r.2, [])
  else
    (fill w, [])

/-- `WaterSystem::stopFilling`. -/
def WaterSystem.stopFilling (w : WaterSystem) : WaterSystem :=
  { w with inletValveOpen := false }

/-- `WaterSystem::startDraining`. -/
def WaterSystem.startDraining (w : WaterSystem) : WaterSystem :=
  { w with drainValveOpen := true, inletValveOpen := false }

/-- `WaterSystem::stopDraining`. -/
def WaterSystem.stopDraining (w : WaterSystem) : WaterSystem :=
  { w with drainValveOpen := false }

/-- The first `if` block of `WaterSystem::update` (filling). -/
def WaterSystem.updateFill (w : WaterSystem) (deltaTimeSeconds : ℚ) :
    WaterSystem × List EventType :=
  if w.inletValveOpen && decide (w.currentLevel < w.targetLevel) then
    let fillAmount0 := w.fillRate * deltaTimeSeconds
    let available := w.reservoirLevel
    let fillAmount := if fillAmount0 > available then available else fillAmount0
    let w1 := { w with currentLevel := w.currentLevel + fillAmount,
                       reservoirLevel := w.reservoirLevel - fillAmount }
    let r2 : WaterSystem × List EventType :=
      if w1.currentLevel ≥ w1.targetLevel then
        ({ w1 with currentLevel := w1.targetLevel, inletValveOpen := false },
          if w1.eventCallback then [.SYS_WATER_LEVEL_REACHED] else [])
      else
        (w1, [])
    let w3 := if r2.1.reservoirLevel < r2.1.lowThreshold then r2.1.autoReplenish.2 else r2.1
    (w3, r2.2)
  else
    (w, [])

/-- The second `if` block of `WaterSystem::update` (draining). -/
def WaterSystem.updateDrain (w : WaterSystem) (deltaTimeSeconds : ℚ) :
    WaterSystem × List EventType :=
  if w.drainValveOpen && decide (w.currentLevel > 0) then
    let drainAmount := w.drainRate * deltaTimeSeconds
    let w1 := { w with currentLevel := w.currentLevel - drainAmount }
    if w1.currentLevel ≤ 0 then
      ({ w1 with currentLevel := 0, drainValveOpen := false },
        if w1.eventCallback then [.SYS_DRAIN_COMPLETE] else [])
    else
      (w1, [])
  else
    (w, [])

/-- `WaterSystem::update`. -/
def WaterSystem.update (w : WaterSystem) (deltaTimeSeconds : ℚ) :
    WaterSystem × List EventType :=
  let r1 := w.updateFill deltaTimeSeconds
  let r2 := r1.1.updateDrain deltaTimeSeconds
  (r2.1, r1.2 ++ r2.2)

/-- `WaterSystem::checkReservoir`. -/
def WaterSystem.checkReservoir (w : WaterSystem) : Bool :=
  decide (w.reservoirLevel ≥ w.lowThreshold)

/-- `WaterSystem::getCurrentLevel`. -/
def WaterSystem.getCurrentLevel (w : WaterSystem) : ℚ := w.currentLevel

/-- `WaterSystem::getTargetLevel`. -/
def WaterSystem.getTargetLevel (w : WaterSystem) : ℚ := w.targetLevel

/-- `WaterSystem::isFilling`. -/
def WaterSystem.isFilling (w : WaterSystem) : Bool := w.inletValveOpen

/-- `WaterSystem::isDraining`. -/
def WaterSystem.isDraining (w : WaterSystem) : Bool := w.drainValveOpen

/-- `WaterSystem::setReservoirLevel`. -/
def WaterSystem.setReservoirLevel (w : WaterSystem) (level : ℚ) : WaterSystem :=
  let w1 := { w with reservoirLevel := level }
  let w2 := if w1.reservoirLevel > w1.maxReservoir then
    { w1 with reservoirLevel := w1.maxReservoir } else w1
  if w2.reservoirLevel < 0 then { w2 with reservoirLevel := 0 } else w2

/-- `WaterSystem::reset`. -/
def WaterSystem.reset (w : WaterSystem) : WaterSystem :=
  { w with currentLevel := 0, targetLevel := 0, inletValveOpen := false,
           drainValveOpen := false, reservoirLevel := w.maxReservoir }

/-! ## Arithmetic of `float` and `int`

A `float` that is a number is modelled by the rational it stands for; where
the source rounds the result of an operation and the rounding can be seen in
an `int` or in an order between results, the operation is followed by
`roundFloat`.  NaN and the infinities are no rationals: a `float` parameter of
the model ranges over numbers only.  An `int` is modelled by an integer; the
source's value is the model's as long as every `int` computed on the way
satisfies `fitsInt`. -/

/-- The largest value of type `int`. -/
def INT_MAX : Int := 2147483647

/-- The smallest value of type `int`. -/
def INT_MIN : Int := -2147483648

/-- Whether an integer is a value of type `int`. -/
def fitsInt (n : Int) : Prop := INT_MIN ≤ n ∧ n ≤ INT_MAX

instance fitsInt.decidable (n : Int) : Decidable (fitsInt n) := by
  unfold fitsInt; infer_instance

/-- The nearest integer, the even one of two equally near. -/
def roundHalfEven (q : ℚ) : Int :=
  let f := ⌊q⌋
  if q - f < 1 / 2 then f
  else if 1 / 2 < q - f then f + 1
  else if f % 2 = 0 then f else f + 1

/-- The position of the leading binary digit of a positive natural number,
found by halving at most `fuel` times. -/
def log2Fuel : Nat → Nat → Nat
  | 0, _ => 0
  | fuel + 1, n => if n < 2 then 0 else log2Fuel fuel (n / 2) + 1

/-- The binary exponent of a positive number `x`: the `e` with
`2 ^ e ≤ x < 2 ^ (e + 1)`. -/
def floatExponent (x : ℚ) : Int :=
  let d : Int := (log2Fuel x.num.natAbs x.num.natAbs : Int) - (log2Fuel x.den x.den : Int)
  if (2 : ℚ) ^ d ≤ x then d else d - 1

/-- The `float` (IEEE binary32) nearest to a number, the one with even
significand of two equally near: 24 significant binary digits, smallest
exponent -126.  The exponent is not bounded above: where the value is beyond
`FLT_MAX` the source has an infinity instead. -/
def roundFloat (x : ℚ) : ℚ :=
  if x = 0 then 0
  else
    let e := max (floatExponent |x|) (-126)
    let ulp : ℚ := 2 ^ (e - 23)
    (roundHalfEven (x / ulp) : ℚ) * ulp

/-- The largest finite `float`, `(2^24 - 1) * 2^104`.  The result of an
operation whose value `roundFloat` puts beyond it is an infinity in the
source. -/
def FLT_MAX : ℚ := 340282346638528859811704183484516925440

/-- `static_cast<int>` of a float: truncation towards zero.  The source's
conversion is defined only if the truncated value satisfies `fitsInt`. -/
def truncToInt (x : ℚ) : Int := Int.tdiv x.num x.den

/-- `static_cast<int>` of a float, `none` where the conversion is undefined
because the truncated value is no `int`. -/
def castToInt (x : ℚ) : Option Int :=
  if fitsInt (truncToInt x) then some (truncToInt x) else none

/-! ## MotorSystem.cpp -/

/-- Class `MotorSystem`. -/
structure MotorSystem where
  currentRPM : Int
  targetRPM : Int
  running : Bool
  direction : Direction
  rampRate : Int
  eventCallback : Bool
deriving DecidableEq, Repr

/-- `MotorSystem::MotorSystem()`. -/
def MotorSystem.new : MotorSystem :=
  { currentRPM := 0, targetRPM := 0, running := false, direction := .Stopped,
    rampRate := 200, eventCallback := false }

/-- `MotorSystem::start`. -/
def MotorSystem.start (m : MotorSystem) (rpm : Int) (dir : Direction) : MotorSystem :=
  { m with targetRPM := rpm, direction := dir, running := true }

/-- `MotorSystem::stop`. -/
def MotorSystem.stop (m : MotorSystem) : MotorSystem :=
  { m with targetRPM := 0, running := false }

/-- `MotorSystem::setSpeed`. -/
def MotorSystem.setSpeed (m : MotorSystem) (rpm : Int) : MotorSystem :=
  let m1 := { m with targetRPM := rpm }
  if decide (rpm > 0) && !m1.running then { m1 with running := true } else m1

/-- `MotorSystem::setDirection`. -/
def MotorSystem.setDirection (m : MotorSystem) (dir : Direction) : MotorSystem :=
  { m with direction := dir }

/-- The local `rampAmount` of `MotorSystem::update`,
`static_cast<int>(rampRate * deltaTimeSeconds)`: the `int` is converted to
`float` and the product is rounded to `float` before the conversion to `int`. -/
def MotorSystem.rampAmount (m : MotorSystem) (deltaTimeSeconds : ℚ) : Int :=
  truncToInt (roundFloat (roundFloat (m.rampRate : ℚ) * deltaTimeSeconds))

/-- `MotorSystem::update`. -/
def MotorSystem.update (m : MotorSystem) (deltaTimeSeconds : ℚ) : MotorSystem :=
  if !m.running && m.currentRPM == 0 then
    { m with direction := .Stopped }
  else
    let rampAmount := m.rampAmount deltaTimeSeconds
    let m1 :=
      if m.currentRPM < m.targetRPM then
        let c := m.currentRPM + rampAmount
        { m with currentRPM := if c > m.targetRPM then m.targetRPM else c }
      else if m.currentRPM > m.targetRPM then
        let c := m.currentRPM - rampAmount
        { m with currentRPM := if c < m.targetRPM then m.targetRPM else c }
      else m
    if !m1.running && m1.currentRPM == 0 then { m1 with direction := .Stopped } else m1

/-- `MotorSystem::getCurrentRPM`. -/
def MotorSystem.getCurrentRPM (m : MotorSystem) : Int := m.currentRPM

/-- `MotorSystem::getTargetRPM`. -/
def MotorSystem.getTargetRPM (m : MotorSystem) : Int := m.targetRPM

/-- `MotorSystem::isRunning`. -/
def MotorSystem.isRunning (m : MotorSystem) : Bool := m.running || decide (m.currentRPM > 0)

/-- `MotorSystem::emergencyStop`. -/
def MotorSystem.emergencyStop (m : MotorSystem) : MotorSystem :=
  { m with running := false, targetRPM := 0, currentRPM := 0, direction := .Stopped }

/-- `MotorSystem::reset`. -/
def MotorSystem.reset (m : MotorSystem) : MotorSystem :=
  { m with currentRPM := 0, targetRPM := 0, running := false, direction := .Stopped }

/-! ## WashMode.hpp, ConfigManager.cpp -/

/-- Struct `WashMode`. -/
structure WashMode where
  name : String
  durationMinutes : Int
  spinSpeedRPM : Int
  waterLevelLiters : ℚ
  temperatureCelsius : Int
deriving DecidableEq, Repr

/-- `WashMode::WashMode()`. -/
def WashMode.new : WashMode :=
  { name := "Default", durationMinutes := 30, spinSpeedRPM := 800,
    waterLevelLiters := 30, temperatureCelsius := 40 }

/-- `WashMode::getAdjustedDuration`.  Doubling a `float` is exact, so the
product `loadKg * 2` needs no rounding. -/
def WashMode.getAdjustedDuration (m : WashMode) (loadKg : ℚ) : Int :=
  m.durationMinutes + truncToInt (loadKg * 2)

/-- `WashMode::getAdjustedWaterLevel`.  The product and the sum are each
rounded to `float`. -/
def WashMode.getAdjustedWaterLevel (m : WashMode) (loadKg : ℚ) : ℚ :=
  let adjusted := roundFloat (m.waterLevelLiters + roundFloat (loadKg * 3))
  if adjusted > 50 then 50 else adjusted

/-- The member `modes` of `ConfigManager`. -/
structure ConfigManager where
  modes : List WashMode
deriving DecidableEq, Repr

/-- `ConfigManager::loadDefaultConfig`. -/
def ConfigManager.loadDefaultConfig (_c : ConfigManager) : ConfigManager :=
  { modes :=
      [ { name := "Quick Wash", durationMinutes := 15, spinSpeedRPM := 800,
          waterLevelLiters := 20, temperatureCelsius := 30 },
        { name := "Normal", durationMinutes := 45, spinSpeedRPM := 1000,
          waterLevelLiters := 35, temperatureCelsius := 40 },
        { name := "Heavy", durationMinutes := 60, spinSpeedRPM := 1200,
          waterLevelLiters := 45, temperatureCelsius := 60 },
        { name := "Delicate", durationMinutes := 30, spinSpeedRPM := 400,
          waterLevelLiters := 30, temperatureCelsius := 30 } ] }

/-- `ConfigManager::ConfigManager()`. -/
def ConfigManager.new : ConfigManager := ConfigManager.loadDefaultConfig { modes := [] }

/-- `ConfigManager::loadConfig`.  Reading and scanning the file is not
modelled: `parsed` is what `parseJsonFile` leaves in `modes` when the file can
be opened, and `none` when it cannot (then `modes` is not touched). -/
def ConfigManager.loadConfig (c : ConfigManager) (parsed : Option (List WashMode)) :
    Bool × ConfigManager :=
  match parsed with
  | none => (false, c.loadDefaultConfig)
  | some ms =>
    if !ms.isEmpty then (true, { modes := ms })
    else (false, ConfigManager.loadDefaultConfig { modes := ms })

/-- `ConfigManager::getModeCount`. -/
def ConfigManager.getModeCount (c : ConfigManager) : Int := (c.modes.length : Int)

/-- `ConfigManager::getMode`.  On an empty list the source reads `modes[0]` of
an empty vector; the model returns a default-constructed mode there. -/
def ConfigManager.getMode (c : ConfigManager) (index : Int) : WashMode :=
  if index < 0 ∨ index ≥ (c.modes.length : Int) then
    c.modes.getD 0 WashMode.new
  else
    c.modes.getD index.toNat WashMode.new

/-! ## WashingMachine.cpp

The model describes a `WashingMachine` on which `initialize` has been called
once: the entry observers of `setupCallbacks` are registered and the water and
motor callbacks push into the event queue. -/

/-- Struct `SystemStatus`.  The member `remainingSeconds` is `none` where the
conversion that computes it is undefined. -/
structure SystemStatus where
  state : State
  doorStatus : DoorStatus
  waterLevel : ℚ
  targetWaterLevel : ℚ
  motorRPM : Int
  loadKg : ℚ
  modeIndex : Int
  modeName : String
  progressPercent : ℚ
  remainingSeconds : Option Int
  fault : FaultCode
deriving DecidableEq, Repr

/-- Class `WashingMachine` (without the simulation thread). -/
structure WashingMachine where
  stateMachine : StateMachine
  eventEngine : EventEngine
  door : DoorSystem
  water : WaterSystem
  motor : MotorSystem
  config : ConfigManager
  currentModeIndex : Int
  loadWeight : ℚ
  cycleProgress : ℚ
  cycleTimeElapsed : ℚ
  totalCycleTime : ℚ
  phaseTimeElapsed : ℚ
  currentPhaseTime : ℚ
  currentFault : FaultCode
  running : Bool
  simulationRunning : Bool
deriving DecidableEq, Repr

namespace WashingMachine

/-- `WashingMachine::WashingMachine()`. -/
def new : WashingMachine :=
  { stateMachine := StateMachine.new, eventEngine := EventEngine.new,
    door := DoorSystem.new, water := WaterSystem.new, motor := MotorSystem.new,
    config := ConfigManager.new,
    currentModeIndex := 0, loadWeight := 0, cycleProgress := 0, cycleTimeElapsed := 0,
    totalCycleTime := 0, phaseTimeElapsed := 0, currentPhaseTime := 0,
    currentFault := .None, running := false, simulationRunning := false }

/-- The state machine lives in the member `stateMachine`. -/
def host : Host WashingMachine :=
  { stateMachine := fun wm => wm.stateMachine
    setStateMachine := fun sm wm => { wm with stateMachine := sm }
    get_set := fun _ _ => rfl }

/-- The callback given to `water.setEventCallback` and `motor.setEventCallback`
in `initialize`, applied to each event type a subsystem operation reported. -/
def pushEvents (wm : WashingMachine) (types : List EventType) : WashingMachine :=
  { wm with eventEngine := types.foldl (fun ee t => ee.pushEventType t) wm.eventEngine }

/-- `WashingMachine::getCurrentMode`. -/
def getCurrentMode (wm : WashingMachine) : WashMode := wm.config.getMode wm.currentModeIndex

/-- `WashingMachine::calculateFillTime`. -/
def calculateFillTime (wm : WashingMachine) : ℚ :=
  let waterNeeded := wm.getCurrentMode.getAdjustedWaterLevel wm.loadWeight
  waterNeeded / 10

/-- `WashingMachine::calculateWashTime`. -/
def calculateWashTime (wm : WashingMachine) : ℚ :=
  (wm.getCurrentMode.getAdjustedDuration wm.loadWeight : ℚ) * (1 / 2) * 60

/-- `WashingMachine::calculateRinseTime`. -/
def calculateRinseTime (wm : WashingMachine) : ℚ :=
  (wm.getCurrentMode.getAdjustedDuration wm.loadWeight : ℚ) * (1 / 4) * 60

/-- `WashingMachine::calculateSpinTime`. -/
def calculateSpinTime (wm : WashingMachine) : ℚ :=
  (wm.getCurrentMode.getAdjustedDuration wm.loadWeight : ℚ) * (3 / 20) * 60

/-- `WashingMachine::calculateDrainTime`. -/
def calculateDrainTime (wm : WashingMachine) : ℚ := wm.water.getCurrentLevel / 15

/-- `WashingMachine::calculateTotalCycleTime`. -/
def calculateTotalCycleTime (wm : WashingMachine) : ℚ :=
  wm.calculateFillTime + wm.calculateWashTime + wm.calculateRinseTime +
    wm.calculateSpinTime + wm.calculateDrainTime

/-- `WashingMachine::startFillPhase`. -/
def startFillPhase (wm : WashingMachine) : WashingMachine :=
  let targetWater := wm.getCurrentMode.getAdjustedWaterLevel wm.loadWeight
  let r := wm.water.startFilling targetWater
  let wm1 := pushEvents { wm with water := r.1 } r.2
  let wm2 := { wm1 with currentPhaseTime := wm1.calculateFillTime }
  let wm3 := { wm2 with phaseTimeElapsed := 0 }
  { wm3 with door := wm3.door.lock }

/-- `WashingMachine::startWashPhase`. -/
def startWashPhase (wm : WashingMachine) : WashingMachine :=
  let wm1 := { wm with
    motor := wm.motor.start (Int.tdiv wm.getCurrentMode.spinSpeedRPM 2) .Clockwise }
  let wm2 := { wm1 with currentPhaseTime := wm1.calculateWashTime }
  { wm2 with phaseTimeElapsed := 0 }

/-- `WashingMachine::startRinsePhase`. -/
def startRinsePhase (wm : WashingMachine) : WashingMachine :=
  let wm1 := { wm with motor := wm.motor.start 400 .CounterClockwise }
  let wm2 := { wm1 with currentPhaseTime := wm1.calculateRinseTime }
  { wm2 with phaseTimeElapsed := 0 }

/-- `WashingMachine::startSpinPhase`. -/
def startSpinPhase (wm : WashingMachine) : WashingMachine :=
  let wm1 := { wm with motor := wm.motor.start wm.getCurrentMode.spinSpeedRPM .Clockwise }
  let wm2 := { wm1 with currentPhaseTime := wm1.calculateSpinTime }
  { wm2 with phaseTimeElapsed := 0 }

/-- `WashingMachine::startDrainPhase`. -/
def startDrainPhase (wm : WashingMachine) : WashingMachine :=
  let wm1 := { wm with motor := wm.motor.stop }
  let wm2 := { wm1 with water := wm1.water.startDraining }
  let wm3 := { wm2 with currentPhaseTime := wm2.calculateDrainTime }
  { wm3 with phaseTimeElapsed := 0 }

/-- `WashingMachine::executeEmergencyStop`. -/
def executeEmergencyStop (wm : WashingMachine) : WashingMachine :=
  let wm1 := { wm with motor := wm.motor.emergencyStop }
  let wm2 := { wm1 with water := wm1.water.stopFilling }
  { wm2 with water := wm2.water.startDraining }

/-- `WashingMachine::onStateEnter`. -/
def onStateEnter (newState oldState : State) (wm : WashingMachine) : WashingMachine :=
  match newState with
  | .Filling => wm.startFillPhase
  | .Washing => wm.startWashPhase
  | .Rinsing => wm.startRinsePhase
  | .Spinning => wm.startSpinPhase
  | .Draining => wm.startDrainPhase
  | .Completed =>
    let wm1 := { wm with motor := wm.motor.stop }
    { wm1 with door := wm1.door.unlock }
  | .EmergencyStop => wm.executeEmergencyStop
  | .Paused =>
    let wm1 := { wm with stateMachine := wm.stateMachine.setPausedFromState oldState }
    let wm2 := { wm1 with motor := wm1.motor.stop }
    { wm2 with water := wm2.water.stopFilling }
  | _ => wm

/-- `WashingMachine::setupCallbacks`: the lambda registered for each state
calls `onStateEnter(newState, oldState)`. -/
def setupCallbacks (cbs : CallbackMaps WashingMachine) : CallbackMaps WashingMachine :=
  let lambda : StateCallback WashingMachine :=
    fun newState oldState wm => onStateEnter newState oldState wm
  let c1 := registerOnEnter cbs .Filling lambda
  let c2 := registerOnEnter c1 .Washing lambda
  let c3 := registerOnEnter c2 .Rinsing lambda
  let c4 := registerOnEnter c3 .Spinning lambda
  let c5 := registerOnEnter c4 .Draining lambda
  let c6 := registerOnEnter c5 .Completed lambda
  let c7 := registerOnEnter c6 .EmergencyStop lambda
  registerOnEnter c7 .Paused lambda

/-- The callback maps of `stateMachine` after `initialize`. -/
def callbacks : CallbackMaps WashingMachine := setupCallbacks CallbackMaps.empty

/-- `WashingMachine::initialize`.  `configFile` is `none` for an empty path
and otherwise what opening and scanning the file gives (see
`ConfigManager.loadConfig`). -/
def init (wm : WashingMachine) (configFile : Option (Option (List WashMode))) :
    WashingMachine :=
  let wm1 := match configFile with
    | none => wm
    | some parsed => { wm with config := (wm.config.loadConfig parsed).2 }
  let wm2 := { wm1 with water := { wm1.water with eventCallback := true } }
  let wm3 := { wm2 with motor := { wm2.motor with eventCallback := true } }
  let wm4 := { wm3 with eventEngine := wm3.eventEngine.start }
  { wm4 with running := true }

/-- `stateMachine.transition(event)` called from a member function. -/
def smTransition (wm : WashingMachine) (event : EventType) : Bool × WashingMachine :=
  transition host callbacks event wm

/-- `stateMachine.forceState(state)` called from a member function. -/
def smForceState (wm : WashingMachine) (state : State) : WashingMachine :=
  forceState host callbacks state wm

/-- `WashingMachine::validateStart`. -/
def validateStart (wm : WashingMachine) : Bool :=
  if wm.door.isOpen then false
  else if wm.loadWeight ≤ 0 then false
  else if wm.loadWeight > 6 then false
  else if !wm.water.checkReservoir then false
  else true

/-- `WashingMachine::handleEvent`; `none` when `getData` throws. -/
def handleEvent (wm : WashingMachine) (event : Event) : Option WashingMachine :=
  let type := event.getType
  let r1 : Option WashingMachine :=
    if type = .CMD_SELECT_MODE ∧ event.hasData = true then
      event.getDataInt.map (fun i => { wm with currentModeIndex := i })
    else some wm
  r1.bind fun wm1 =>
    let r2 : Option WashingMachine :=
      if type = .CMD_SET_LOAD ∧ event.hasData = true then
        event.getDataFloat.map (fun x => { wm1 with loadWeight := x })
      else some wm1
    r2.map fun wm2 => (wm2.smTransition type).2

/-- The loop of `WashingMachine::processEvents`, unrolled at most `fuel` times. -/
def processEventsLoop : Nat → WashingMachine → Option WashingMachine
  | 0, wm => some wm
  | fuel + 1, wm =>
    if wm.eventEngine.hasEvents then
      let r := wm.eventEngine.popEvent
      let wm1 := { wm with eventEngine := r.2 }
      match r.1 with
      | some event => (wm1.handleEvent event).bind (processEventsLoop fuel)
      | none => processEventsLoop fuel wm1
    else some wm

/-- `WashingMachine::processEvents`.  Handling an event never adds one to the
queue, so as many iterations as there are queued events empty the queue. -/
def processEvents (wm : WashingMachine) : Option WashingMachine :=
  processEventsLoop wm.eventEngine.eventQueue.length wm

/-- `WashingMachine::updateSimulation`. -/
def updateSimulation (wm : WashingMachine) (deltaTime : ℚ) : WashingMachine :=
  let state := wm.stateMachine.getCurrentState
  let wmA :=
    if wm.stateMachine.isActiveState then
      let rw := wm.water.update deltaTime
      let wm1 := pushEvents { wm with water := rw.1 } rw.2
      let wm2 := { wm1 with motor := wm1.motor.update deltaTime }
      let wm3 := { wm2 with cycleTimeElapsed := wm2.cycleTimeElapsed + deltaTime }
      let wm4 := { wm3 with phaseTimeElapsed := wm3.phaseTimeElapsed + deltaTime }
      let wm5 :=
        if wm4.totalCycleTime > 0 then
          let p := (wm4.cycleTimeElapsed / wm4.totalCycleTime) * 100
          { wm4 with cycleProgress := if p > 100 then 100 else p }
        else wm4
      match state with
      | .Washing =>
        if wm5.phaseTimeElapsed ≥ wm5.currentPhaseTime then
          { wm5 with eventEngine := wm5.eventEngine.pushEventType .SYS_WASH_COMPLETE }
        else wm5
      | .Rinsing =>
        if wm5.phaseTimeElapsed ≥ wm5.currentPhaseTime then
          { wm5 with eventEngine := wm5.eventEngine.pushEventType .SYS_RINSE_COMPLETE }
        else wm5
      | .Spinning =>
        if wm5.phaseTimeElapsed ≥ wm5.currentPhaseTime then
          { wm5 with eventEngine := wm5.eventEngine.pushEventType .SYS_SPIN_COMPLETE }
        else wm5
      | _ => wm5
    else wm
  let wmB :=
    if state = .Paused then { wmA with motor := wmA.motor.update deltaTime } else wmA
  if state = .EmergencyStop then
    let rw := wmB.water.update deltaTime
    let wm1 := pushEvents { wmB with water := rw.1 } rw.2
    if wm1.water.getCurrentLevel ≤ 0 ∧ wm1.motor.getCurrentRPM = 0 then
      { wm1 with door := wm1.door.unlock }
    else wm1
  else wmB

/-- `WashingMachine::openDoor`.  The door's callback is never set, so its
`openDoor` reports no event. -/
def openDoor (wm : WashingMachine) : WashingMachine :=
  if wm.door.canOpen then
    let wm1 := { wm with door := wm.door.openDoor.2.1 }
    (wm1.smTransition .CMD_OPEN_DOOR).2
  else wm

/-- `WashingMachine::closeDoor`. -/
def closeDoor (wm : WashingMachine) : WashingMachine :=
  let wm1 := { wm with door := wm.door.closeDoor.2.1 }
  (wm1.smTransition .CMD_CLOSE_DOOR).2

/-- `WashingMachine::selectMode`. -/
def selectMode (wm : WashingMachine) (modeIndex : Int) : WashingMachine :=
  if modeIndex < 0 ∨ modeIndex ≥ wm.config.getModeCount then wm
  else if wm.stateMachine.isActiveState then wm
  else
    let wm1 := { wm with currentModeIndex := modeIndex }
    { wm1 with eventEngine := wm1.eventEngine.pushEventInt .CMD_SELECT_MODE modeIndex }

/-- `WashingMachine::setLoad`. -/
def setLoad (wm : WashingMachine) (kg : ℚ) : WashingMachine :=
  if wm.stateMachine.isActiveState then wm
  else if kg < 0 then wm
  else
    let wm1 := { wm with loadWeight := kg }
    { wm1 with eventEngine := wm1.eventEngine.pushEventFloat .CMD_SET_LOAD kg }

/-- `WashingMachine::start`. -/
def start (wm : WashingMachine) : WashingMachine :=
  if !wm.validateStart then wm
  else
    let wm1 := { wm with totalCycleTime := wm.calculateTotalCycleTime }
    let wm2 := { wm1 with cycleTimeElapsed := 0 }
    let wm3 := { wm2 with cycleProgress := 0 }
    { wm3 with eventEngine := wm3.eventEngine.pushEventType .CMD_START }

/-- `WashingMachine::pause`. -/
def pause (wm : WashingMachine) : WashingMachine :=
  if wm.stateMachine.isActiveState then
    { wm with eventEngine := wm.eventEngine.pushEventType .CMD_PAUSE }
  else wm

/-- `WashingMachine::resume`. -/
def resume (wm : WashingMachine) : WashingMachine :=
  if wm.stateMachine.getCurrentState = .Paused then
    let resumeState := wm.stateMachine.getPausedFromState
    let wm1 := wm.smForceState resumeState
    match resumeState with
    | .Filling => wm1.startFillPhase
    | .Washing => wm1.startWashPhase
    | .Rinsing => wm1.startRinsePhase
    | .Spinning => wm1.startSpinPhase
    | _ => wm1
  else wm

/-- `WashingMachine::stop`. -/
def stop (wm : WashingMachine) : WashingMachine :=
  let state := wm.stateMachine.getCurrentState
  if state = .Idle ∨ state = .DoorOpen then wm
  else if wm.stateMachine.isActiveState = true ∨ state = .Paused then
    let wm1 := { wm with motor := wm.motor.stop }
    let wm2 := { wm1 with water := wm1.water.stopFilling }
    if wm2.water.getCurrentLevel > 0 then
      let wm3 := { wm2 with water := wm2.water.startDraining }
      wm3.smForceState .Draining
    else
      let wm3 := { wm2 with door := wm2.door.unlock }
      wm3.smForceState .Idle
  else
    { wm with eventEngine := wm.eventEngine.pushEventType .CMD_STOP }

/-- `WashingMachine::emergencyStop`. -/
def emergencyStop (wm : WashingMachine) : WashingMachine :=
  { wm with eventEngine := wm.eventEngine.pushEventType .CMD_EMERGENCY }

/-- `WashingMachine::clearFault`. -/
def clearFault (wm : WashingMachine) : WashingMachine :=
  if wm.stateMachine.getCurrentState = .Fault then
    let wm1 := { wm with currentFault := .None }
    { wm1 with eventEngine := wm1.eventEngine.pushEventType .FAULT_CLEARED }
  else wm

/-- `WashingMachine::getStatus`.  The difference `remaining` is rounded to
`float` before the conversion to `int`. -/
def getStatus (wm : WashingMachine) : SystemStatus :=
  let remaining := roundFloat (wm.totalCycleTime - wm.cycleTimeElapsed)
  { state := wm.stateMachine.getCurrentState
    doorStatus := wm.door.getStatus
    waterLevel := wm.water.getCurrentLevel
    targetWaterLevel := wm.water.getTargetLevel
    motorRPM := wm.motor.getCurrentRPM
    loadKg := wm.loadWeight
    modeIndex := wm.currentModeIndex
    modeName := (wm.config.getMode wm.currentModeIndex).name
    progressPercent := wm.cycleProgress
    remainingSeconds := if remaining > 0 then castToInt remaining else some 0
    fault := wm.currentFault }

/-- `WashingMachine::getCurrentState`. -/
def getCurrentState (wm : WashingMachine) : State := wm.stateMachine.getCurrentState

end WashingMachine

/-- What can happen to an initialized machine: a call of one of the
operator-facing member functions, or one iteration of `simulationLoop`
(`processEvents` followed by `updateSimulation(deltaTime)`). -/
inductive Action
  | openDoor
  | closeDoor
  | selectMode (modeIndex : Int)
  | setLoad (kg : ℚ)
  | start
  | pause
  | resume
  | stop
  | emergencyStop
  | clearFault
  | tick (deltaTime : ℚ)
deriving DecidableEq, Repr

/-- One action; `none` when the action ends in an uncaught exception. -/
def WashingMachine.step (wm : WashingMachine) : Action → Option WashingMachine
  | .openDoor => some wm.openDoor
  | .closeDoor => some wm.closeDoor
  | .selectMode i => some (wm.selectMode i)
  | .setLoad kg => some (wm.setLoad kg)
  | .start => some wm.start
  | .pause => some wm.pause
  | .resume => some wm.resume
  | .stop => some wm.stop
  | .emergencyStop => some wm.emergencyStop
  | .clearFault => some wm.clearFault
  | .tick deltaTime => wm.processEvents.map (fun wm1 => wm1.updateSimulation deltaTime)

/-- A sequence of actions, performed one after the other. -/
def WashingMachine.run (wm : WashingMachine) : List Action → Option WashingMachine
  | [] => some wm
  | a :: rest => (wm.step a).bind (fun wm1 => WashingMachine.run wm1 rest)

/-! ## Reference tables and test fixtures -/

/-- The table rows written out for the states `Idle` to `EmergencyStop`
(34 entries): every row of the specification's table except the `fault` row. -/
def listedTable : State → EventType → Option State
  | .Idle, .CMD_OPEN_DOOR => some .DoorOpen
  | .Idle, .CMD_SELECT_MODE => some .Ready
  | .DoorOpen, .CMD_CLOSE_DOOR => some .Idle
  | .Ready, .CMD_OPEN_DOOR => some .DoorOpen
  | .Ready, .CMD_START => some .Filling
  | .Ready, .CMD_STOP => some .Idle
  | .Ready, .CMD_SELECT_MODE => some .Ready
  | .Filling, .SYS_WATER_LEVEL_REACHED => some .Washing
  | .Filling, .CMD_PAUSE => some .Paused
  | .Filling, .CMD_EMERGENCY => some .EmergencyStop
  | .Filling, .FAULT_WATER_UNAVAILABLE => some .Fault
  | .Filling, .CMD_STOP => some .Draining
  | .Washing, .SYS_WASH_COMPLETE => some .Rinsing
  | .Washing, .CMD_PAUSE => some .Paused
  | .Washing, .CMD_EMERGENCY => some .EmergencyStop
  | .Washing, .CMD_STOP => some .Draining
  | .Rinsing, .SYS_RINSE_COMPLETE => some .Spinning
  | .Rinsing, .CMD_PAUSE => some .Paused
  | .Rinsing, .CMD_EMERGENCY => some .EmergencyStop
  | .Rinsing, .CMD_STOP => some .Draining
  | .Spinning, .SYS_SPIN_COMPLETE => some .Draining
  | .Spinning, .CMD_PAUSE => some .Paused
  | .Spinning, .CMD_EMERGENCY => some .EmergencyStop
  | .Spinning, .CMD_STOP => some .Draining
  | .Draining, .SYS_DRAIN_COMPLETE => some .Completed
  | .Draining, .CMD_EMERGENCY => some .EmergencyStop
  | .Completed, .CMD_OPEN_DOOR => some .DoorOpen
  | .Completed, .CMD_STOP => some .Idle
  | .Completed, .CMD_SELECT_MODE => some .Ready
  | .Paused, .CMD_RESUME => some .Filling
  | .Paused, .CMD_STOP => some .Draining
  | .Paused, .CMD_EMERGENCY => some .EmergencyStop
  | .EmergencyStop, .CMD_STOP => some .Idle
  | .EmergencyStop, .SYS_DRAIN_COMPLETE => some .Idle
  | _, _ => none

/-- The full transition table of the specification: the listed rows and the
row `fault | fault-cleared / stop | idle / idle` (36 entries). -/
def specTable : State → EventType → Option State
  | .Fault, .FAULT_CLEARED => some .Idle
  | .Fault, .CMD_STOP => some .Idle
  | s, e => listedTable s e

/-- A `StateMachine` object on its own, with no surrounding program state (the
fixture of the unit tests). -/
def bareHost : Host StateMachine :=
  { stateMachine := fun sm => sm
    setStateMachine := fun sm _ => sm
    get_set := fun _ _ => rfl }

/-- Observers leave the machine's current state alone: no observer in either
callback map calls `transition`, `forceState` or `reset` on the machine that is
notifying it. -/
def NonReentrant {W : Type} (h : Host W) (cbs : CallbackMaps W) : Prop :=
  ∀ (s : State) (l : List (StateCallback W)),
    (mapFind cbs.onEnterCallbacks s = some l ∨ mapFind cbs.onExitCallbacks s = some l) →
    ∀ cb ∈ l, ∀ (a b : State) (w : W),
      (h.stateMachine (cb a b w)).currentState = (h.stateMachine w).currentState

/-- The returned `bool` and the current state after each `transition` call of
a sequence of events fed to the machine one after the other. -/
def feedEvents {W : Type} (h : Host W) (cbs : CallbackMaps W) :
    List EventType → W → List (Bool × State)
  | [], _ => []
  | e :: rest, w =>
    let r := transition h cbs e w
    (r.1, (h.stateMachine r.2).currentState) :: feedEvents h cbs rest r.2

/-- What a recording observer notes when it is called: which observer it is,
the two arguments it was given, and the machine's current and previous state
at that moment. -/
structure ObserverCall where
  observer : Nat
  arg1 : State
  arg2 : State
  currentState : State
  previousState : State
deriving DecidableEq, Repr

/-- A state machine together with the log its recording observers write. -/
structure Probe where
  stateMachine : StateMachine
  calls : List ObserverCall
deriving DecidableEq, Repr

/-- The state machine of a `Probe`. -/
def Probe.host : Host Probe :=
  { stateMachine := fun p => p.stateMachine
    setStateMachine := fun sm p => { p with stateMachine := sm }
    get_set := fun _ _ => rfl }

/-- The recording observer number `id`. -/
def Probe.observer (id : Nat) : StateCallback Probe :=
  fun a b p =>
    { p with calls := p.calls ++
        [{ observer := id, arg1 := a, arg2 := b,
           currentState := p.stateMachine.currentState,
           previousState := p.stateMachine.previousState }] }

/-- A call `registerOnEnter(state, observer id)` or
`registerOnExit(state, observer id)`. -/
inductive Registration
  | onEnter (state : State) (id : Nat)
  | onExit (state : State) (id : Nat)
deriving DecidableEq, Repr

/-- The callback maps after a sequence of registrations on a fresh machine. -/
def Probe.register (regs : List Registration) (cbs : CallbackMaps Probe) :
    CallbackMaps Probe :=
  regs.foldl (fun acc r =>
    match r with
    | .onEnter s id => registerOnEnter acc s (Probe.observer id)
    | .onExit s id => registerOnExit acc s (Probe.observer id)) cbs

/-- The observers registered for entry into `s`, in registration order. -/
def enterIds (regs : List Registration) (s : State) : List Nat :=
  regs.filterMap (fun r =>
    match r with
    | .onEnter s1 id => if s1 = s then some id else none
    | .onExit _ _ => none)

/-- The observers registered for exit from `s`, in registration order. -/
def exitIds (regs : List Registration) (s : State) : List Nat :=
  regs.filterMap (fun r =>
    match r with
    | .onExit s1 id => if s1 = s then some id else none
    | .onEnter _ _ => none)

/-- The log entries of observers `ids` called with `(a, b)` while the machine
has current state `cur` and previous state `prev`. -/
def callsOf (ids : List Nat) (a b cur prev : State) : List ObserverCall :=
  ids.map (fun id =>
    { observer := id, arg1 := a, arg2 := b, currentState := cur, previousState := prev })

/-- A command sequence: load and program are set with the door closed, a
cycle is started and stopped by the emergency command; then, before the next
tick, a program is selected, `start` is issued and the (unlocked) door is opened. -/
def interlockTrace : List Action :=
  [ .closeDoor, .setLoad 3, .selectMode 0, .tick (1 / 2),
    .start, .tick (1 / 2),
    .emergencyStop, .tick (1 / 2),
    .selectMode 0, .start, .openDoor, .tick (1 / 2) ]

/-! ## Fixtures for the door and the orchestrator -/

/-- A call of one of the state-changing member functions of `DoorSystem`. -/
inductive DoorOp
  | openDoor
  | closeDoor
  | lock
  | unlock
  | reset
deriving DecidableEq, Repr

/-- The door after one call. -/
def DoorSystem.applyOp (d : DoorSystem) : DoorOp → DoorSystem
  | .openDoor => d.openDoor.2.1
  | .closeDoor => d.closeDoor.2.1
  | .lock => d.lock
  | .unlock => d.unlock
  | .reset => d.reset

/-- The door after a sequence of calls. -/
def DoorSystem.runOps (d : DoorSystem) (ops : List DoorOp) : DoorSystem :=
  ops.foldl DoorSystem.applyOp d

/-- A tick advances time by a non-negative amount. -/
def Action.nonNegative : Action → Prop
  | .tick deltaTime => 0 ≤ deltaTime
  | _ => True

/-- The orchestrator states that operator commands and ticks with non-negative
delta can produce from a freshly initialized machine, whatever the
configuration file held. -/
def Reachable (wm : WashingMachine) : Prop :=
  ∃ (configFile : Option (Option (List WashMode))) (actions : List Action),
    (∀ a ∈ actions, a.nonNegative) ∧
    (WashingMachine.new.init configFile).run actions = some wm

/-- The `switch (resumeState)` of `WashingMachine::resume`: the start logic
of a phase. -/
def WashingMachine.startPhase (wm : WashingMachine) : State → WashingMachine
  | .Filling => wm.startFillPhase
  | .Washing => wm.startWashPhase
  | .Rinsing => wm.startRinsePhase
  | .Spinning => wm.startSpinPhase
  | _ => wm

/-- The estimated duration `startPhase` stores for a phase. -/
def WashingMachine.phaseEstimate (wm : WashingMachine) : State → ℚ
  | .Filling => wm.calculateFillTime
  | .Washing => wm.calculateWashTime
  | .Rinsing => wm.calculateRinseTime
  | .Spinning => wm.calculateSpinTime
  | _ => wm.currentPhaseTime

/-- A cycle with load 3 kg and program 0 is started and filled (3 s at 10 l/s
reach the target of 29 l), which brings the machine to `Washing`. -/
def washingTrace : List Action :=
  [ .closeDoor, .setLoad 3, .selectMode 0, .start, .tick 3, .tick 0 ]

/-- The machine is brought to `Filling` with an empty drum (a tick of 0 s). -/
def fillingTrace : List Action :=
  [ .closeDoor, .setLoad 3, .selectMode 0, .start, .tick 0 ]

/-- The first eight actions of `interlockTrace` leave the machine in
`EmergencyStop`, drained, motor at rest, door unlocked; the operator then
selects a program and issues `start`, both of which are queued. -/
def emergencyPendingTrace : List Action :=
  interlockTrace.take 8 ++ [ .selectMode 0, .start ]

/-- The machine is brought to `Washing`; a tick of 630 s, the whole wash
estimate, then queues `SYS_WASH_COMPLETE`. -/
def washCompletePendingTrace : List Action :=
  washingTrace ++ [ .tick 630 ]

/-- Facts kept by every step of the orchestrator: in `DoorOpen` the door is
open; no `CMD_OPEN_DOOR` is ever queued; the remembered paused-from state is
`Idle` (never paused yet) or one of the four pausable phases; the fault code is
`None`. -/
structure WashingMachine.Consistent (wm : WashingMachine) : Prop where
  doorOpenState : wm.stateMachine.currentState = .DoorOpen → wm.door.opened = true
  noDoorEvents : ∀ e ∈ wm.eventEngine.eventQueue, e.type ≠ .CMD_OPEN_DOOR
  pausedFrom : wm.stateMachine.pausedFromState ∈
    [State.Idle, .Filling, .Washing, .Rinsing, .Spinning]
  noFault : wm.currentFault = .None

/-- In `EmergencyStop`, once the drum is empty and the motor at rest, the door
is unlocked. -/
def WashingMachine.EmergencyUnlocked (wm : WashingMachine) : Prop :=
  wm.stateMachine.currentState = .EmergencyStop → wm.water.currentLevel ≤ 0 →
    wm.motor.currentRPM = 0 → wm.door.locked = false

/-- The machine after `washingTrace`: in `Washing`, drum filled to 29 l, door
locked, queue empty. -/
def washingMachine : WashingMachine :=
  ((WashingMachine.new.init none).run washingTrace).getD WashingMachine.new

/-- The machine after `closeDoor`, `setLoad(3)`, `selectMode(0)` and a tick:
in `Ready`, door closed and unlocked, queue empty. -/
def readyMachine : WashingMachine :=
  ((WashingMachine.new.init none).run
    [.closeDoor, .setLoad 3, .selectMode 0, .tick 0]).getD WashingMachine.new

/-- The first part of the block `if (stateMachine.isActiveState())` of
`updateSimulation`: water and motor advance, elapsed times grow, progress is
recomputed. -/
def WashingMachine.advanceCycle (wm : WashingMachine) (deltaTime : ℚ) : WashingMachine :=
  let rw := wm.water.update deltaTime
  let wm1 := WashingMachine.pushEvents { wm with water := rw.1 } rw.2
  let wm2 := { wm1 with motor := wm1.motor.update deltaTime }
  let wm3 := { wm2 with cycleTimeElapsed := wm2.cycleTimeElapsed + deltaTime }
  let wm4 := { wm3 with phaseTimeElapsed := wm3.phaseTimeElapsed + deltaTime }
  if wm4.totalCycleTime > 0 then
    let p := (wm4.cycleTimeElapsed / wm4.totalCycleTime) * 100
    { wm4 with cycleProgress := if p > 100 then 100 else p }
  else wm4

/-- The `switch (state)` that ends the block `if (stateMachine.isActiveState())`
of `updateSimulation`. -/
def WashingMachine.raisePhaseComplete (wm : WashingMachine) (state : State) :
    WashingMachine :=
  match state with
  | .Washing =>
    if wm.phaseTimeElapsed ≥ wm.currentPhaseTime then
      { wm with eventEngine := wm.eventEngine.pushEventType .SYS_WASH_COMPLETE }
    else wm
  | .Rinsing =>
    if wm.phaseTimeElapsed ≥ wm.currentPhaseTime then
      { wm with eventEngine := wm.eventEngine.pushEventType .SYS_RINSE_COMPLETE }
    else wm
  | .Spinning =>
    if wm.phaseTimeElapsed ≥ wm.currentPhaseTime then
      { wm with eventEngine := wm.eventEngine.pushEventType .SYS_SPIN_COMPLETE }
    else wm
  | _ => wm

/-- The block `if (state == State::EmergencyStop)` of `updateSimulation`. -/
def WashingMachine.drainInEmergency (wm : WashingMachine) (deltaTime : ℚ) :
    WashingMachine :=
  let rw := wm.water.update deltaTime
  let wm1 := WashingMachine.pushEvents { wm with water := rw.1 } rw.2
  if wm1.water.getCurrentLevel ≤ 0 ∧ wm1.motor.getCurrentRPM = 0 then
    { wm1 with door := wm1.door.unlock }
  else wm1

/-- The machine is brought to `Filling` with an empty drum and stopped by the
emergency command; the tick that consumes it finds the drum empty. -/
def emergencyTrace : List Action :=
  fillingTrace ++ [ .emergencyStop, .tick 0 ]

/-- The machine after `emergencyTrace`: in `EmergencyStop`, drum empty, motor
at rest, door unlocked, queue empty. -/
def emergencyMachine : WashingMachine :=
  ((WashingMachine.new.init none).run emergencyTrace).getD WashingMachine.new

/-- Whether an action is a tick with negative delta can be computed. -/
instance Action.decidableNonNegative (a : Action) : Decidable a.nonNegative := by
  cases a <;> unfold Action.nonNegative <;> infer_instance

/-! ## Fixtures for the water system and the motor -/

/-- A call of one of the commands of `WaterSystem`, or of `update`. -/
inductive WaterOp
  | startFilling (targetLiters : ℚ)
  | stopFilling
  | startDraining
  | stopDraining
  | update (deltaTimeSeconds : ℚ)
deriving DecidableEq, Repr

/-- The water system after one call, with the events the call reported. -/
def WaterSystem.applyOp (w : WaterSystem) : WaterOp → WaterSystem × List EventType
  | .startFilling targetLiters => w.startFilling targetLiters
  | .stopFilling => (w.stopFilling, [])
  | .startDraining => (w.startDraining, [])
  | .stopDraining => (w.stopDraining, [])
  | .update deltaTimeSeconds => w.update deltaTimeSeconds

/-- The water system after a sequence of calls. -/
def WaterSystem.runOps (w : WaterSystem) (ops : List WaterOp) : WaterSystem :=
  ops.foldl (fun x op => (x.applyOp op).1) w

/-- An `update` advances time by a non-negative amount. -/
def WaterOp.nonNegative : WaterOp → Prop
  | .update deltaTimeSeconds => 0 ≤ deltaTimeSeconds
  | _ => True

instance WaterOp.decidableNonNegative (op : WaterOp) : Decidable op.nonNegative := by
  cases op <;> unfold WaterOp.nonNegative <;> infer_instance

/-- Every `startFilling` of the sequence asks for a target that is not below
the level the tub has at the time of the call. -/
def WaterSystem.fillsUpward (w : WaterSystem) : List WaterOp → Bool
  | [] => true
  | op :: rest =>
    (match op with
      | .startFilling targetLiters => decide (w.currentLevel ≤ targetLiters)
      | _ => true) && WaterSystem.fillsUpward (w.applyOp op).1 rest

/-- A run of `update` calls (a fill or drain cycle after its start command):
the final state and all events reported, in order. -/
def WaterSystem.updates (w : WaterSystem) : List ℚ → WaterSystem × List EventType
  | [] => (w, [])
  | deltaTimeSeconds :: rest =>
    let r := w.update deltaTimeSeconds
    let r2 := WaterSystem.updates r.1 rest
    (r2.1, r.2 ++ r2.2)

/-- The reset state of the test fixture: a constructed water system after
`setEventCallback` and `reset()`. -/
def WaterSystem.fresh (callback : Bool) : WaterSystem :=
  (WaterSystem.new.setEventCallback callback).reset

/-- What the constructor fixes and every member function keeps: the rates and
thresholds, a reservoir at or above the low threshold, a level that is not
negative, and at most one valve open. -/
structure WaterSystem.Sound (w : WaterSystem) : Prop where
  fillRate : w.fillRate = 10
  drainRate : w.drainRate = 15
  lowThreshold : w.lowThreshold = 10
  maxReservoir : w.maxReservoir = 100
  reservoir : 10 ≤ w.reservoirLevel
  level : 0 ≤ w.currentLevel
  valves : w.inletValveOpen = false ∨ w.drainValveOpen = false

/-- A run of `update` calls of the motor. -/
def MotorSystem.updates (m : MotorSystem) (ds : List ℚ) : MotorSystem :=
  ds.foldl MotorSystem.update m

/-- The water-system states that commands and `update` calls with non-negative
delta produce from the reset state. -/
def WaterSystem.Reachable (w : WaterSystem) : Prop :=
  ∃ (callback : Bool) (ops : List WaterOp),
    (∀ op ∈ ops, op.nonNegative) ∧ (WaterSystem.fresh callback).runOps ops = w

/-- The states of a fill cycle with target `T` (after `startFilling(T)`, while
only `update` is called) of a water system that has a callback: the target is
`T`, the drain valve is closed, and the inlet valve is open as long as the
level is below `T`. -/
structure WaterSystem.FillCycle (w : WaterSystem) (T : ℚ) : Prop where
  sound : w.Sound
  target : w.targetLevel = T
  drainClosed : w.drainValveOpen = false
  callback : w.eventCallback = true
  inletOpen : w.currentLevel < T → w.inletValveOpen = true

/-- The states of a drain cycle (after `startDraining()`, while only `update`
is called) of a water system that has a callback: the inlet valve is closed,
and the drain valve is open as long as there is water in the tub. -/
structure WaterSystem.DrainCycle (w : WaterSystem) : Prop where
  sound : w.Sound
  inletClosed : w.inletValveOpen = false
  callback : w.eventCallback = true
  drainOpen : 0 < w.currentLevel → w.drainValveOpen = true

/-! ## Fixtures for the event channel -/

/-- A call of `pushEvent(const Event&)` or of `popEvent()`. -/
inductive QueueOp
  | push (event : Event)
  | pop
deriving DecidableEq, Repr

/-- The event engine after a sequence of calls, with the events that the
successful `popEvent` calls returned, in call order. -/
def EventEngine.runOps (ee : EventEngine) : List QueueOp → EventEngine × List Event
  | [] => (ee, [])
  | .push event :: rest => EventEngine.runOps (ee.pushEvent event) rest
  | .pop :: rest =>
    let r := ee.popEvent
    let r2 := EventEngine.runOps r.2 rest
    (r2.1, r.1.toList ++ r2.2)

/-- The events handed to `pushEvent` by a sequence of calls, in call order. -/
def QueueOp.pushed : List QueueOp → List Event
  | [] => []
  | .push event :: rest => event :: QueueOp.pushed rest
  | .pop :: rest => QueueOp.pushed rest

/-! ## Fixtures for the simulation tick -/

/-- The event that reports the end of a timed phase: `SYS_WASH_COMPLETE` for
`Washing`, `SYS_RINSE_COMPLETE` for `Rinsing`, `SYS_SPIN_COMPLETE` for
`Spinning`; the other states have none. -/
def phaseCompleteEvent : State → Option EventType
  | .Washing => some .SYS_WASH_COMPLETE
  | .Rinsing => some .SYS_RINSE_COMPLETE
  | .Spinning => some .SYS_SPIN_COMPLETE
  | _ => none

/-- The machine after `washingTrace`, `pause()` and a tick: in `Paused`
(paused from `Washing`), 3 s of cycle time elapsed, queue empty. -/
def pausedMachine : WashingMachine :=
  ((WashingMachine.new.init none).run (washingTrace ++ [.pause, .tick 0])).getD
    WashingMachine.new

/-! ## Invariants of the reachable orchestrator states -/

/-- The fault events of the table: the four `FAULT_*` reports and
`TIMER_TIMEOUT`. -/
def faultEvents : List EventType :=
  [.FAULT_WATER_UNAVAILABLE, .FAULT_OVERLOAD, .FAULT_DOOR, .FAULT_MOTOR, .TIMER_TIMEOUT]

/-- More facts kept by every step of the orchestrator: cycle time and progress
stay in range; the water system is sound and has its callback; in
`EmergencyStop` the water is draining and the motor is at rest; the state is
never `Fault` and no fault event is queued. -/
structure WashingMachine.Steady (wm : WashingMachine) : Prop where
  elapsed : 0 ≤ wm.cycleTimeElapsed
  progress : 0 ≤ wm.cycleProgress ∧ wm.cycleProgress ≤ 100
  water : wm.water.Sound
  callback : wm.water.eventCallback = true
  emergency : wm.stateMachine.currentState = .EmergencyStop →
    wm.water.DrainCycle ∧ wm.motor.currentRPM = 0
  notFault : wm.stateMachine.currentState ≠ .Fault
  noFaultEvents : ∀ e ∈ wm.eventEngine.eventQueue, e.type ∉ faultEvents

/-- The machine is stopped by the emergency command after 1 s of filling; the
tick that consumes the command drains for 0.05 s. -/
def drainingEmergencyTrace : List Action :=
  fillingTrace ++ [ .tick 1, .emergencyStop, .tick (1 / 20) ]

/-- The machine after `drainingEmergencyTrace`: in `EmergencyStop`, 9.25 l in
the drum, drain valve open, door locked, queue empty. -/
def drainingEmergencyMachine : WashingMachine :=
  ((WashingMachine.new.init none).run drainingEmergencyTrace).getD WashingMachine.new

/-- The operator answers the emergency stop with `stop()` while there is still
water in the drum; the next tick consumes `CMD_STOP`. -/
def lockedIdleTrace : List Action :=
  drainingEmergencyTrace ++ [ .stop, .tick (1 / 20) ]

/-- A program of 100000000 minutes, as a configuration file may define it. -/
def longProgram : WashMode :=
  { name := "Long", durationMinutes := 100000000, spinSpeedRPM := 800,
    waterLevelLiters := 30, temperatureCelsius := 40 }

/-- Load and program are set with the door closed and `start()` is called. -/
def longCycleTrace : List Action :=
  [ .closeDoor, .setLoad 3, .selectMode 0, .start ]

/-- The machine after `longCycleTrace`, configured with `longProgram` alone. -/
def longCycleMachine : WashingMachine :=
  ((WashingMachine.new.init (some (some [longProgram]))).run longCycleTrace).getD
    WashingMachine.new

/-- The command events: what the operator-facing member functions stand for in
the event channel. -/
def operatorCommands : List EventType :=
  [.CMD_OPEN_DOOR, .CMD_CLOSE_DOOR, .CMD_SELECT_MODE, .CMD_START, .CMD_PAUSE, .CMD_RESUME,
    .CMD_STOP, .CMD_EMERGENCY, .CMD_SET_LOAD]

/-- The emergency stop of `drainingEmergencyTrace` is followed by a tick of 1 s,
which drains the drum and queues `SYS_DRAIN_COMPLETE`. -/
def drainedEmergencyTrace : List Action :=
  drainingEmergencyTrace ++ [ .tick 1 ]

/-- The machine after `drainedEmergencyTrace`: in `EmergencyStop`, drum empty,
motor at rest, door unlocked, `SYS_DRAIN_COMPLETE` queued. -/
def drainedEmergencyMachine : WashingMachine :=
  ((WashingMachine.new.init none).run drainedEmergencyTrace).getD WashingMachine.new

/-! ## A load that is not a number -/

/-- A value of type `float` as the comparison operators see it: a number, or
NaN (which `std::stof` returns for the text `nan`). -/
inductive FloatValue
  | number (x : ℚ)
  | nan
deriving DecidableEq, Repr

/-- The comparison `a < b` of a `float` with a constant: false if `a` is NaN. -/
def FloatValue.lt (a : FloatValue) (b : ℚ) : Bool :=
  match a with
  | .number x => decide (x < b)
  | .nan => false

/-- The comparison `a <= b` of a `float` with a constant: false if `a` is NaN. -/
def FloatValue.le (a : FloatValue) (b : ℚ) : Bool :=
  match a with
  | .number x => decide (x ≤ b)
  | .nan => false

/-- The comparison `a > b` of a `float` with a constant: false if `a` is NaN. -/
def FloatValue.gt (a : FloatValue) (b : ℚ) : Bool :=
  match a with
  | .number x => decide (x > b)
  | .nan => false

/-- The guards of `WashingMachine::setLoad` for an argument that may be NaN:
whether the call stores the load (and queues `CMD_SET_LOAD`). -/
def WashingMachine.setLoadStores (wm : WashingMachine) (kg : FloatValue) : Bool :=
  if wm.stateMachine.isActiveState then false
  else if kg.lt 0 then false
  else true

/-- `WashingMachine::validateStart` for a stored load that may be NaN. -/
def WashingMachine.validateStartFor (wm : WashingMachine) (loadWeight : FloatValue) : Bool :=
  if wm.door.isOpen then false
  else if loadWeight.le 0 then false
  else if loadWeight.gt 6 then false
  else if !wm.water.checkReservoir then false
  else true

/-- The event queue after `WashingMachine::start` for a stored load that may
be NaN (the times that `start` computes from the load are left out). -/
def WashingMachine.startQueueFor (wm : WashingMachine) (loadWeight : FloatValue) :
    List Event :=
  if !wm.validateStartFor loadWeight then wm.eventEngine.eventQueue
  else (wm.eventEngine.pushEventType .CMD_START).eventQueue

/-! ## Lemmas on maps and observers -/

theorem mapFind_mapAssign {κ α : Type} [DecidableEq κ] (m : List (κ × α)) (k k1 : κ)
    (v : α) :
    mapFind (mapAssign m k v) k1 = if k = k1 then some v else mapFind m k1 := by
  induction m with
  | nil =>
    by_cases hk : k = k1 <;> simp [mapAssign, mapFind, hk]
  | cons p rest ih =>
    obtain ⟨k2, v2⟩ := p
    by_cases h2 : k2 = k
    · subst h2
      by_cases hk : k2 = k1 <;> simp [mapAssign, mapFind, hk]
    · by_cases hk : k = k1
      · subst hk
        simp [mapAssign, mapFind, h2, ih]
      · by_cases h3 : k2 = k1
        · subst h3
          simp [mapAssign, mapFind, h2, hk]
        · simp [mapAssign, mapFind, h2, h3, ih, hk]

/-- The code's table is the specification's table. -/
theorem tableLookup_eq_specTable (s : State) (e : EventType) :
    tableLookup s e = specTable s e := by
  cases s <;> cases e <;> rfl

/-- Every assignment of `initializeTransitions` is a row of the specification's
table. -/
theorem entries_in_specTable :
    ∀ p ∈ transitionEntries, specTable p.1 p.2.1 = some p.2.2 := by
  have hall : transitionEntries.all (fun p => specTable p.1 p.2.1 == some p.2.2) = true := by
    rfl
  intro p hp
  have hp2 := List.all_eq_true.mp hall p hp
  exact eq_of_beq hp2

/-- Every row of the specification's table is an assignment of
`initializeTransitions`. -/
theorem specTable_in_entries (s : State) (x : EventType) (d : State)
    (hd : specTable s x = some d) : (s, x, d) ∈ transitionEntries := by
  have hall : (match specTable s x with
      | some t => transitionEntries.elem (s, x, t)
      | none => true) = true := by
    cases s <;> cases x <;> rfl
  rw [hd] at hall
  exact List.mem_of_elem_eq_true hall

theorem canTransition_eq (sm : StateMachine) (e : EventType) :
    sm.canTransition e = (tableLookup sm.currentState e).isSome := by
  unfold StateMachine.canTransition tableLookup
  cases mapFind transitionTable sm.currentState <;> rfl

/-- Calling the observers stored under `key` is a left fold over the stored
vector, or nothing when the key is absent. -/
theorem runCallbacks_eq {W : Type} (m : List (State × List (StateCallback W)))
    (key a b : State) (w : W) :
    runCallbacks m key a b w =
      ((mapFind m key).getD []).foldl (fun acc callback => callback a b acc) w := by
  unfold runCallbacks
  cases mapFind m key <;> rfl

theorem runCallbacks_currentState {W : Type} (h : Host W)
    (m : List (State × List (StateCallback W))) (key a b : State)
    (hq : ∀ l, mapFind m key = some l → ∀ cb ∈ l, ∀ (x y : State) (w : W),
      (h.stateMachine (cb x y w)).currentState = (h.stateMachine w).currentState)
    (w : W) :
    (h.stateMachine (runCallbacks m key a b w)).currentState =
      (h.stateMachine w).currentState := by
  unfold runCallbacks
  cases hm : mapFind m key with
  | none => rfl
  | some l =>
    have hl := hq l hm
    clear hm hq
    induction l generalizing w with
    | nil => rfl
    | cons cb rest ih =>
      simp only [List.foldl_cons]
      rw [ih _ (fun c hc => hl c (List.mem_cons_of_mem _ hc))]
      exact hl cb (List.mem_cons_self _ _) a b w

/-- `transition` is the table lookup followed, when an entry is found, by the
steps of `forceState` towards the destination. -/
theorem transition_eq {W : Type} (h : Host W) (cbs : CallbackMaps W) (e : EventType)
    (w : W) :
    transition h cbs e w =
      match tableLookup (h.stateMachine w).currentState e with
      | none => (false, w)
      | some d => (true, forceState h cbs d w) := by
  cases hl : tableLookup (h.stateMachine w).currentState e <;>
    simp [transition, canTransition_eq, hl, forceState]

/-- The outcome of `transition` in terms of the specification's table, for
observers that do not re-enter the machine. -/
theorem transition_spec {W : Type} (h : Host W) (cbs : CallbackMaps W)
    (hq : NonReentrant h cbs) (w : W) (e : EventType) :
    (transition h cbs e w).1 = (specTable (h.stateMachine w).currentState e).isSome ∧
    (h.stateMachine (transition h cbs e w).2).currentState =
      (specTable (h.stateMachine w).currentState e).getD (h.stateMachine w).currentState ∧
    (specTable (h.stateMachine w).currentState e = none → (transition h cbs e w).2 = w) := by
  cases hs : specTable (h.stateMachine w).currentState e with
  | none => simp [transition, canTransition_eq, tableLookup_eq_specTable, hs]
  | some d =>
    simp only [transition, canTransition_eq, tableLookup_eq_specTable, hs,
      Option.isSome_some, Bool.not_true, Bool.false_eq_true, if_false,
      Option.getD_some, true_and]
    refine ⟨?_, fun hc => by cases hc⟩
    rw [runCallbacks_currentState h _ _ _ _ (fun l hl => hq d l (Or.inl hl)), h.get_set]

/-- The entry observer of the orchestrator leaves the current state alone. -/
theorem onStateEnter_currentState (a b : State) (wm : WashingMachine) :
    (WashingMachine.onStateEnter a b wm).stateMachine.currentState =
      wm.stateMachine.currentState := by
  cases a <;> rfl

/-- The observers registered by `setupCallbacks` do not re-enter the machine. -/
theorem callbacks_nonReentrant : NonReentrant WashingMachine.host WashingMachine.callbacks := by
  intro s l hl cb hcb a b w
  have hcb2 : cb = fun n o wm => WashingMachine.onStateEnter n o wm := by
    rcases hl with hl | hl
    · cases s <;>
        simp [WashingMachine.callbacks, WashingMachine.setupCallbacks, registerOnEnter,
          mapAssign, mapFind, CallbackMaps.empty] at hl <;>
        (subst hl; simpa using hcb)
    · simp [WashingMachine.callbacks, WashingMachine.setupCallbacks, registerOnEnter,
        mapFind, CallbackMaps.empty] at hl
  subst hcb2
  exact onStateEnter_currentState a b w

/-! ## The transition table -/

/-- C2, as stated, fails: the enumerated rows end with `EmergencyStop` and so
reject every event in `Fault`, but on a fresh machine driven into `Fault` the
event `FAULT_CLEARED` is accepted and leads to `Idle`. -/
theorem listed_rows_miss_fault_cleared :
    listedTable .Fault .FAULT_CLEARED = none ∧
    feedEvents bareHost CallbackMaps.empty
        [.CMD_SELECT_MODE, .CMD_START, .FAULT_WATER_UNAVAILABLE, .FAULT_CLEARED]
        StateMachine.new =
      [(true, .Ready), (true, .Filling), (true, .Fault), (true, .Idle)] := by
  decide

/-- C2 (amended): with the two rows `Fault: FAULT_CLEARED -> Idle, CMD_STOP -> Idle`
added to the enumeration, `transition` equals the table: from every state `S`
and for every event `E`, the call succeeds and ends in `D` when the table maps
`(S, E)` to `D`, and it is rejected, changing nothing, for every other pair;
the table has exactly 36 entries, the 34 enumerated ones and the two of `Fault`. -/
theorem transition_equals_specTable {W : Type} (h : Host W) (cbs : CallbackMaps W)
    (hq : NonReentrant h cbs) (w : W) (e : EventType) :
    (∀ d, specTable (h.stateMachine w).currentState e = some d →
      (transition h cbs e w).1 = true ∧
      (h.stateMachine (transition h cbs e w).2).currentState = d) ∧
    (specTable (h.stateMachine w).currentState e = none →
      (transition h cbs e w).1 = false ∧ (transition h cbs e w).2 = w) ∧
    (∀ s x, specTable s x = tableLookup s x) ∧
    (∀ s x, specTable s x = listedTable s x ∨
      (s = .Fault ∧ (x = .FAULT_CLEARED ∨ x = .CMD_STOP) ∧ specTable s x = some .Idle)) ∧
    transitionEntries.length = 36 ∧
    (∀ s x d, (s, x, d) ∈ transitionEntries → specTable s x = some d) := by
  obtain ⟨h1, h2, h3⟩ := transition_spec h cbs hq w e
  refine ⟨?_, ?_, ?_, ?_, rfl, ?_⟩
  · intro d hd
    rw [h1, h2, hd]
    exact ⟨rfl, rfl⟩
  · intro hn
    refine ⟨?_, h3 hn⟩
    rw [h1, hn]
    rfl
  · intro s x
    exact (tableLookup_eq_specTable s x).symm
  · intro s x
    cases s <;> cases x <;>
      first
      | exact Or.inl rfl
      | exact Or.inr ⟨rfl, Or.inl rfl, rfl⟩
      | exact Or.inr ⟨rfl, Or.inr rfl, rfl⟩
  · intro s x d hmem
    exact entries_in_specTable (s, x, d) hmem

/-- A concrete instance of `transition_equals_specTable`: the orchestrator in
its initial state (`Idle`) and the event `CMD_SELECT_MODE`. -/
theorem transition_equals_specTable_witness :
    NonReentrant WashingMachine.host WashingMachine.callbacks ∧
    specTable (WashingMachine.new.init none).stateMachine.currentState .CMD_SELECT_MODE =
      some .Ready ∧
    (transition WashingMachine.host WashingMachine.callbacks .CMD_SELECT_MODE
      (WashingMachine.new.init none)).1 = true ∧
    (transition WashingMachine.host WashingMachine.callbacks .CMD_SELECT_MODE
      (WashingMachine.new.init none)).2.stateMachine.currentState = .Ready :=
  ⟨callbacks_nonReentrant, rfl,
    (transition_equals_specTable WashingMachine.host WashingMachine.callbacks
      callbacks_nonReentrant (WashingMachine.new.init none) .CMD_SELECT_MODE).1 .Ready rfl⟩

/-- C3: `canTransition(E)` in state `S` is true iff `initializeTransitions`
assigns an entry for `(S, E)`, and it is a pure function of the machine (it
returns nothing but the `bool`); `transition(E)` returns exactly what
`canTransition(E)` returned before the call; and when `transition(E)` returns
false the whole program state is unchanged: current, previous and paused-from
state are as before and no observer has run, whatever observers are registered. -/
theorem canTransition_iff_entry_and_rejection {W : Type} (h : Host W)
    (cbs : CallbackMaps W) (w : W) (e : EventType) :
    ((h.stateMachine w).canTransition e = true ↔
      ∃ d, ((h.stateMachine w).currentState, e, d) ∈ transitionEntries) ∧
    ((transition h cbs e w).1 = true ↔ (h.stateMachine w).canTransition e = true) ∧
    ((transition h cbs e w).1 = false →
      (transition h cbs e w).2 = w ∧
      h.stateMachine (transition h cbs e w).2 = h.stateMachine w) := by
  have hcan : ∀ (s : State) (x : EventType),
      (tableLookup s x).isSome = true ↔ ∃ d, (s, x, d) ∈ transitionEntries := by
    intro s x
    constructor
    · intro hs
      obtain ⟨d, hd⟩ := Option.isSome_iff_exists.mp hs
      rw [tableLookup_eq_specTable] at hd
      exact ⟨d, specTable_in_entries s x d hd⟩
    · rintro ⟨d, hd⟩
      rw [tableLookup_eq_specTable, entries_in_specTable (s, x, d) hd]
      rfl
  have hret : (transition h cbs e w).1 = (h.stateMachine w).canTransition e := by
    rw [canTransition_eq, transition_eq]
    cases hl : tableLookup (h.stateMachine w).currentState e <;> rfl
  refine ⟨?_, ?_, ?_⟩
  · rw [canTransition_eq]
    exact hcan _ _
  · rw [hret]
  · intro hf
    have hw : (transition h cbs e w).2 = w := by
      rw [transition_eq] at hf ⊢
      cases hl : tableLookup (h.stateMachine w).currentState e with
      | none => rfl
      | some d => rw [hl] at hf; cases hf
    exact ⟨hw, by rw [hw]⟩

/-- A concrete instance of `canTransition_iff_entry_and_rejection`: `CMD_START`
is rejected on a fresh recording machine with two registered observers, and the
log stays empty. -/
theorem canTransition_iff_entry_and_rejection_witness :
    (transition Probe.host
        (Probe.register [.onExit .Idle 1, .onEnter .Filling 2] CallbackMaps.empty)
        .CMD_START { stateMachine := StateMachine.new, calls := [] }).1 = false ∧
    (transition Probe.host
        (Probe.register [.onExit .Idle 1, .onEnter .Filling 2] CallbackMaps.empty)
        .CMD_START { stateMachine := StateMachine.new, calls := [] }).2 =
      { stateMachine := StateMachine.new, calls := [] } :=
  ⟨by decide,
    ((canTransition_iff_entry_and_rejection Probe.host
      (Probe.register [.onExit .Idle 1, .onEnter .Filling 2] CallbackMaps.empty)
      { stateMachine := StateMachine.new, calls := [] } .CMD_START).2.2 (by decide)).1⟩

/-- C4, as stated, fails: in `Ready` the event `CMD_SELECT_MODE` is legal
(`canTransition` is true, `transition` returns true) and the current state after
the call is `Ready` again. -/
theorem ready_select_mode_is_legal_self_loop :
    ({ currentState := .Ready, previousState := .Idle,
       pausedFromState := .Idle } : StateMachine).canTransition .CMD_SELECT_MODE = true ∧
    feedEvents bareHost CallbackMaps.empty [.CMD_SELECT_MODE, .CMD_SELECT_MODE]
        StateMachine.new =
      [(true, .Ready), (true, .Ready)] := by
  decide

/-- The table's only self-loop is `(Ready, CMD_SELECT_MODE)`. -/
theorem specTable_loop (s : State) (x : EventType) :
    ((specTable s x).getD s ≠ s ↔
      ((specTable s x).isSome = true ∧ ¬(s = .Ready ∧ x = .CMD_SELECT_MODE))) := by
  cases s <;> cases x <;> decide

/-- C4 (amended): the current state after `transition(E)` differs from the
state `S` before it iff `canTransition(E)` was true in `S` and `(S, E)` is not
the table's self-loop `(Ready, CMD_SELECT_MODE)`; in particular a changed state
implies that `canTransition` was true. -/
theorem state_changes_iff_legal_and_not_self_loop {W : Type} (h : Host W)
    (cbs : CallbackMaps W) (hq : NonReentrant h cbs) (w : W) (e : EventType) :
    (h.stateMachine (transition h cbs e w).2).currentState ≠ (h.stateMachine w).currentState ↔
      ((h.stateMachine w).canTransition e = true ∧
        ¬((h.stateMachine w).currentState = .Ready ∧ e = .CMD_SELECT_MODE)) := by
  rw [(transition_spec h cbs hq w e).2.1, canTransition_eq, tableLookup_eq_specTable]
  exact specTable_loop _ _

/-- A concrete instance of `state_changes_iff_legal_and_not_self_loop`: the
initial orchestrator and `CMD_SELECT_MODE`, which changes `Idle` to `Ready`. -/
theorem state_changes_iff_legal_and_not_self_loop_witness :
    NonReentrant WashingMachine.host WashingMachine.callbacks ∧
    (transition WashingMachine.host WashingMachine.callbacks .CMD_SELECT_MODE
      (WashingMachine.new.init none)).2.stateMachine.currentState ≠
      (WashingMachine.new.init none).stateMachine.currentState :=
  ⟨callbacks_nonReentrant,
    (state_changes_iff_legal_and_not_self_loop WashingMachine.host WashingMachine.callbacks
      callbacks_nonReentrant (WashingMachine.new.init none) .CMD_SELECT_MODE).2
      ⟨by decide, by decide⟩⟩

/-! ## Active and safe states -/

/-- C7: `isActiveState` holds iff the current state is one of `Filling`,
`Washing`, `Rinsing`, `Spinning`, `Draining`; `isSafeToOpenDoor` holds iff it is
one of `Idle`, `DoorOpen`, `Ready`, `Completed`; no state satisfies both. -/
theorem active_and_safe_states (sm : StateMachine) :
    (sm.isActiveState = true ↔
      sm.currentState ∈ [State.Filling, .Washing, .Rinsing, .Spinning, .Draining]) ∧
    (sm.isSafeToOpenDoor = true ↔
      sm.currentState ∈ [State.Idle, .DoorOpen, .Ready, .Completed]) ∧
    ¬(sm.isActiveState = true ∧ sm.isSafeToOpenDoor = true) := by
  obtain ⟨c, p, q⟩ := sm
  cases c <;> simp [StateMachine.isActiveState, StateMachine.isSafeToOpenDoor]

/-! ## Event sequences -/

/-- One legal step of `feedEvents`. -/
theorem feedEvents_cons_legal {W : Type} (h : Host W) (cbs : CallbackMaps W)
    (hq : NonReentrant h cbs) (w : W) (e : EventType) (rest : List EventType) (d : State)
    (hs : specTable (h.stateMachine w).currentState e = some d) :
    feedEvents h cbs (e :: rest) w =
        (true, d) :: feedEvents h cbs rest (transition h cbs e w).2 ∧
      (h.stateMachine (transition h cbs e w).2).currentState = d := by
  obtain ⟨h1, h2, _⟩ := transition_spec h cbs hq w e
  rw [hs] at h1 h2
  refine ⟨?_, h2⟩
  show (_, _) :: _ = _
  rw [h1, h2]
  rfl

/-- C8: starting in `Idle`, the events `CMD_SELECT_MODE`, `CMD_START`,
`SYS_WATER_LEVEL_REACHED`, `SYS_WASH_COMPLETE`, `SYS_RINSE_COMPLETE`,
`SYS_SPIN_COMPLETE`, `SYS_DRAIN_COMPLETE` are all accepted and the states after
them are `Ready`, `Filling`, `Washing`, `Rinsing`, `Spinning`, `Draining`,
`Completed`, in that order: none skipped, none repeated. -/
theorem full_cycle_round_trip {W : Type} (h : Host W) (cbs : CallbackMaps W)
    (hq : NonReentrant h cbs) (w : W)
    (hidle : (h.stateMachine w).currentState = .Idle) :
    feedEvents h cbs
        [.CMD_SELECT_MODE, .CMD_START, .SYS_WATER_LEVEL_REACHED, .SYS_WASH_COMPLETE,
          .SYS_RINSE_COMPLETE, .SYS_SPIN_COMPLETE, .SYS_DRAIN_COMPLETE] w =
      [(true, .Ready), (true, .Filling), (true, .Washing), (true, .Rinsing),
        (true, .Spinning), (true, .Draining), (true, .Completed)] ∧
    [State.Ready, .Filling, .Washing, .Rinsing, .Spinning, .Draining, .Completed].Nodup := by
  refine ⟨?_, by decide⟩
  obtain ⟨e1, c1⟩ := feedEvents_cons_legal h cbs hq w .CMD_SELECT_MODE
    [.CMD_START, .SYS_WATER_LEVEL_REACHED, .SYS_WASH_COMPLETE,
      .SYS_RINSE_COMPLETE, .SYS_SPIN_COMPLETE, .SYS_DRAIN_COMPLETE] .Ready (by rw [hidle]; rfl)
  obtain ⟨e2, c2⟩ := feedEvents_cons_legal h cbs hq _ .CMD_START
    [.SYS_WATER_LEVEL_REACHED, .SYS_WASH_COMPLETE,
      .SYS_RINSE_COMPLETE, .SYS_SPIN_COMPLETE, .SYS_DRAIN_COMPLETE] .Filling (by rw [c1]; rfl)
  obtain ⟨e3, c3⟩ := feedEvents_cons_legal h cbs hq _ .SYS_WATER_LEVEL_REACHED
    [.SYS_WASH_COMPLETE, .SYS_RINSE_COMPLETE, .SYS_SPIN_COMPLETE, .SYS_DRAIN_COMPLETE]
    .Washing (by rw [c2]; rfl)
  obtain ⟨e4, c4⟩ := feedEvents_cons_legal h cbs hq _ .SYS_WASH_COMPLETE
    [.SYS_RINSE_COMPLETE, .SYS_SPIN_COMPLETE, .SYS_DRAIN_COMPLETE] .Rinsing (by rw [c3]; rfl)
  obtain ⟨e5, c5⟩ := feedEvents_cons_legal h cbs hq _ .SYS_RINSE_COMPLETE
    [.SYS_SPIN_COMPLETE, .SYS_DRAIN_COMPLETE] .Spinning (by rw [c4]; rfl)
  obtain ⟨e6, c6⟩ := feedEvents_cons_legal h cbs hq _ .SYS_SPIN_COMPLETE
    [.SYS_DRAIN_COMPLETE] .Draining (by rw [c5]; rfl)
  obtain ⟨e7, _⟩ := feedEvents_cons_legal h cbs hq _ .SYS_DRAIN_COMPLETE
    [] .Completed (by rw [c6]; rfl)
  rw [e1, e2, e3, e4, e5, e6, e7]
  rfl

/-- A concrete instance of `full_cycle_round_trip`: the initialized
orchestrator, whose entry observers start the phases. -/
theorem full_cycle_round_trip_witness :
    NonReentrant WashingMachine.host WashingMachine.callbacks ∧
    (WashingMachine.new.init none).stateMachine.currentState = .Idle ∧
    feedEvents WashingMachine.host WashingMachine.callbacks
        [.CMD_SELECT_MODE, .CMD_START, .SYS_WATER_LEVEL_REACHED, .SYS_WASH_COMPLETE,
          .SYS_RINSE_COMPLETE, .SYS_SPIN_COMPLETE, .SYS_DRAIN_COMPLETE]
        (WashingMachine.new.init none) =
      [(true, .Ready), (true, .Filling), (true, .Washing), (true, .Rinsing),
        (true, .Spinning), (true, .Draining), (true, .Completed)] :=
  ⟨callbacks_nonReentrant, rfl,
    (full_cycle_round_trip WashingMachine.host WashingMachine.callbacks
      callbacks_nonReentrant (WashingMachine.new.init none) rfl).1⟩

/-! ## Emergency and fault edges -/

/-- An accepted event, in terms of the specification's table. -/
theorem transition_accepted {W : Type} (h : Host W) (cbs : CallbackMaps W)
    (hq : NonReentrant h cbs) (w : W) (e : EventType) (d : State)
    (hs : specTable (h.stateMachine w).currentState e = some d) :
    (transition h cbs e w).1 = true ∧
      (h.stateMachine (transition h cbs e w).2).currentState = d := by
  obtain ⟨h1, h2, _⟩ := transition_spec h cbs hq w e
  rw [hs] at h1 h2
  exact ⟨h1, h2⟩

/-- A rejected event, in terms of the specification's table. -/
theorem transition_rejected {W : Type} (h : Host W) (cbs : CallbackMaps W)
    (hq : NonReentrant h cbs) (w : W) (e : EventType)
    (hs : specTable (h.stateMachine w).currentState e = none) :
    (transition h cbs e w).1 = false ∧ (transition h cbs e w).2 = w := by
  obtain ⟨h1, _, h3⟩ := transition_spec h cbs hq w e
  rw [hs] at h1
  exact ⟨h1, h3 hs⟩

/-- C9: from each of `Filling`, `Washing`, `Rinsing`, `Spinning`, `Draining`
and `Paused`, `transition(CMD_EMERGENCY)` succeeds and yields `EmergencyStop`;
from `EmergencyStop`, `transition(CMD_STOP)` succeeds and yields `Idle`, while
`CMD_START` and `CMD_OPEN_DOOR` are rejected and leave everything, the state
`EmergencyStop` included, as it was. -/
theorem emergency_override {W : Type} (h : Host W) (cbs : CallbackMaps W)
    (hq : NonReentrant h cbs) (w : W) :
    ((h.stateMachine w).currentState ∈
        [State.Filling, .Washing, .Rinsing, .Spinning, .Draining, .Paused] →
      (transition h cbs .CMD_EMERGENCY w).1 = true ∧
      (h.stateMachine (transition h cbs .CMD_EMERGENCY w).2).currentState = .EmergencyStop) ∧
    ((h.stateMachine w).currentState = .EmergencyStop →
      ((transition h cbs .CMD_STOP w).1 = true ∧
        (h.stateMachine (transition h cbs .CMD_STOP w).2).currentState = .Idle) ∧
      ((transition h cbs .CMD_START w).1 = false ∧
        (transition h cbs .CMD_START w).2 = w ∧
        (h.stateMachine (transition h cbs .CMD_START w).2).currentState = .EmergencyStop) ∧
      ((transition h cbs .CMD_OPEN_DOOR w).1 = false ∧
        (transition h cbs .CMD_OPEN_DOOR w).2 = w ∧
        (h.stateMachine (transition h cbs .CMD_OPEN_DOOR w).2).currentState =
          .EmergencyStop)) := by
  constructor
  · intro hmem
    apply transition_accepted h cbs hq
    simp only [List.mem_cons, List.mem_singleton, List.mem_nil_iff, or_false] at hmem
    rcases hmem with hc | hc | hc | hc | hc | hc <;> rw [hc] <;> rfl
  · intro hc
    refine ⟨transition_accepted h cbs hq w _ _ (by rw [hc]; rfl), ?_, ?_⟩
    · obtain ⟨r1, r2⟩ := transition_rejected h cbs hq w .CMD_START (by rw [hc]; rfl)
      exact ⟨r1, r2, by rw [r2, hc]⟩
    · obtain ⟨r1, r2⟩ := transition_rejected h cbs hq w .CMD_OPEN_DOOR (by rw [hc]; rfl)
      exact ⟨r1, r2, by rw [r2, hc]⟩

/-- A concrete instance of `emergency_override`: a state machine without
observers in `Washing` accepts `CMD_EMERGENCY`. -/
theorem emergency_override_witness :
    NonReentrant bareHost CallbackMaps.empty ∧
    (transition bareHost CallbackMaps.empty .CMD_EMERGENCY
      { currentState := .Washing, previousState := .Filling, pausedFromState := .Idle }).1 =
      true ∧
    (transition bareHost CallbackMaps.empty .CMD_EMERGENCY
      { currentState := .Washing, previousState := .Filling,
        pausedFromState := .Idle }).2.currentState = .EmergencyStop :=
  have hq : NonReentrant bareHost CallbackMaps.empty := by
    intro s l hl
    rcases hl with hl | hl <;> cases hl
  ⟨hq, (emergency_override bareHost CallbackMaps.empty hq
    { currentState := .Washing, previousState := .Filling, pausedFromState := .Idle }).1
    (by decide)⟩

/-- C10, as stated, fails: on a fresh machine driven into `Washing`, the event
`FAULT_MOTOR` is rejected and the machine stays in `Washing`, not in `Fault`. -/
theorem fault_motor_ignored_while_washing :
    feedEvents bareHost CallbackMaps.empty
        [.CMD_SELECT_MODE, .CMD_START, .SYS_WATER_LEVEL_REACHED, .FAULT_MOTOR]
        StateMachine.new =
      [(true, .Ready), (true, .Filling), (true, .Washing), (false, .Washing)] := by
  decide

/-- The only table row that leads to `Fault`. -/
theorem specTable_fault (s : State) (x : EventType) :
    specTable s x = some .Fault ↔ (s = .Filling ∧ x = .FAULT_WATER_UNAVAILABLE) := by
  cases s <;> cases x <;> decide

/-- The rows of `Fault`. -/
theorem specTable_from_fault (x : EventType) :
    specTable .Fault x = if x = .FAULT_CLEARED ∨ x = .CMD_STOP then some .Idle else none := by
  cases x <;> rfl

/-- C10 (amended): the only fault edge of the table is
`Filling: FAULT_WATER_UNAVAILABLE -> Fault`.  Observed in an active state, a
fault event (`FAULT_WATER_UNAVAILABLE`, `FAULT_OVERLOAD`, `FAULT_DOOR`,
`FAULT_MOTOR`, `TIMER_TIMEOUT`) leads to `Fault` when the state is `Filling` and
the event `FAULT_WATER_UNAVAILABLE`, and is otherwise rejected with nothing
changed; no `transition` call enters `Fault` in any other way; and `Fault` is
left only by `FAULT_CLEARED` or `CMD_STOP`, both to `Idle`, every other event
being rejected there. -/
theorem fault_edges {W : Type} (h : Host W) (cbs : CallbackMaps W)
    (hq : NonReentrant h cbs) (w : W) (e : EventType) :
    ((h.stateMachine w).currentState ∈
        [State.Filling, .Washing, .Rinsing, .Spinning, .Draining] →
      e ∈ [EventType.FAULT_WATER_UNAVAILABLE, .FAULT_OVERLOAD, .FAULT_DOOR, .FAULT_MOTOR,
        .TIMER_TIMEOUT] →
      if (h.stateMachine w).currentState = .Filling ∧ e = .FAULT_WATER_UNAVAILABLE then
        (transition h cbs e w).1 = true ∧
        (h.stateMachine (transition h cbs e w).2).currentState = .Fault
      else
        (transition h cbs e w).1 = false ∧ (transition h cbs e w).2 = w) ∧
    ((h.stateMachine (transition h cbs e w).2).currentState = .Fault →
      (h.stateMachine w).currentState = .Fault ∨
        ((h.stateMachine w).currentState = .Filling ∧ e = .FAULT_WATER_UNAVAILABLE)) ∧
    ((h.stateMachine w).currentState = .Fault →
      if e = .FAULT_CLEARED ∨ e = .CMD_STOP then
        (transition h cbs e w).1 = true ∧
        (h.stateMachine (transition h cbs e w).2).currentState = .Idle
      else
        (transition h cbs e w).1 = false ∧ (transition h cbs e w).2 = w) := by
  refine ⟨?_, ?_, ?_⟩
  · intro hact hev
    split
    · rename_i hc
      exact transition_accepted h cbs hq w e .Fault (by rw [hc.1, hc.2]; rfl)
    · rename_i hc
      apply transition_rejected h cbs hq w e
      generalize (h.stateMachine w).currentState = s at hact hc
      revert hact hev hc
      cases s <;> cases e <;> decide
  · intro hf
    rw [(transition_spec h cbs hq w e).2.1] at hf
    cases hs : specTable (h.stateMachine w).currentState e with
    | none =>
      rw [hs] at hf
      exact Or.inl hf
    | some d =>
      rw [hs] at hf
      have hd : d = .Fault := hf
      rw [hd] at hs
      exact Or.inr ((specTable_fault _ _).mp hs)
  · intro hc
    have hrow := specTable_from_fault e
    rw [← hc] at hrow
    split
    · rename_i he
      rw [if_pos he] at hrow
      exact transition_accepted h cbs hq w e .Idle hrow
    · rename_i he
      rw [if_neg he] at hrow
      exact transition_rejected h cbs hq w e hrow

/-- A concrete instance of `fault_edges`: a machine in `Filling` that observes
`FAULT_WATER_UNAVAILABLE` ends in `Fault`. -/
theorem fault_edges_witness :
    NonReentrant WashingMachine.host WashingMachine.callbacks ∧
    (transition WashingMachine.host WashingMachine.callbacks .FAULT_WATER_UNAVAILABLE
      { WashingMachine.new.init none with
        stateMachine := { currentState := .Filling, previousState := .Ready,
                          pausedFromState := .Idle } }).1 = true ∧
    (transition WashingMachine.host WashingMachine.callbacks .FAULT_WATER_UNAVAILABLE
      { WashingMachine.new.init none with
        stateMachine := { currentState := .Filling, previousState := .Ready,
                          pausedFromState := .Idle } }).2.stateMachine.currentState = .Fault :=
  ⟨callbacks_nonReentrant,
    by
      have hw := (fault_edges WashingMachine.host WashingMachine.callbacks
        callbacks_nonReentrant
        { WashingMachine.new.init none with
          stateMachine := { currentState := .Filling, previousState := .Ready,
                            pausedFromState := .Idle } } .FAULT_WATER_UNAVAILABLE).1
        (by decide) (by decide)
      rw [if_pos ⟨rfl, rfl⟩] at hw
      exact hw⟩

/-! ## Observer sequences -/

/-- The exit observers stored for `s` after a sequence of registrations: those
stored before, followed by the newly registered ones in registration order. -/
theorem register_onExit (regs : List Registration) (cbs : CallbackMaps Probe) (s : State) :
    (mapFind (Probe.register regs cbs).onExitCallbacks s).getD [] =
      (mapFind cbs.onExitCallbacks s).getD [] ++ (exitIds regs s).map Probe.observer := by
  induction regs generalizing cbs with
  | nil => simp [Probe.register, exitIds]
  | cons r rest ih =>
    have hstep : Probe.register (r :: rest) cbs =
        Probe.register rest (Probe.register [r] cbs) := rfl
    rw [hstep, ih]
    cases r with
    | onEnter s1 id =>
      simp [Probe.register, registerOnEnter, exitIds]
    | onExit s1 id =>
      by_cases hs : s1 = s
      · subst hs
        simp [Probe.register, registerOnExit, exitIds, mapFind_mapAssign]
      · simp [Probe.register, registerOnExit, exitIds, mapFind_mapAssign, hs]

/-- The entry observers stored for `s` after a sequence of registrations. -/
theorem register_onEnter (regs : List Registration) (cbs : CallbackMaps Probe) (s : State) :
    (mapFind (Probe.register regs cbs).onEnterCallbacks s).getD [] =
      (mapFind cbs.onEnterCallbacks s).getD [] ++ (enterIds regs s).map Probe.observer := by
  induction regs generalizing cbs with
  | nil => simp [Probe.register, enterIds]
  | cons r rest ih =>
    have hstep : Probe.register (r :: rest) cbs =
        Probe.register rest (Probe.register [r] cbs) := rfl
    rw [hstep, ih]
    cases r with
    | onExit s1 id =>
      simp [Probe.register, registerOnExit, enterIds]
    | onEnter s1 id =>
      by_cases hs : s1 = s
      · subst hs
        simp [Probe.register, registerOnEnter, enterIds, mapFind_mapAssign]
      · simp [Probe.register, registerOnEnter, enterIds, mapFind_mapAssign, hs]

/-- Running recording observers one after the other appends one log entry per
observer, in order, and leaves the state machine alone. -/
theorem foldl_observers (ids : List Nat) (a b : State) (p : Probe) :
    (ids.map Probe.observer).foldl (fun acc callback => callback a b acc) p =
      { stateMachine := p.stateMachine
        calls := p.calls ++
          callsOf ids a b p.stateMachine.currentState p.stateMachine.previousState } := by
  induction ids generalizing p with
  | nil => simp [callsOf]
  | cons id rest ih =>
    simp only [List.map_cons, List.foldl_cons]
    rw [ih]
    simp [Probe.observer, callsOf]

/-- What `forceState` does on a recording machine. -/
theorem forceState_probe (regs : List Registration) (sm : StateMachine)
    (log : List ObserverCall) (t : State) :
    forceState Probe.host (Probe.register regs CallbackMaps.empty) t
        { stateMachine := sm, calls := log } =
      { stateMachine :=
          { currentState := t, previousState := sm.currentState,
            pausedFromState := sm.pausedFromState }
        calls := log ++
          callsOf (exitIds regs sm.currentState) sm.currentState t
            sm.currentState sm.previousState ++
          callsOf (enterIds regs t) t sm.currentState t sm.currentState } := by
  unfold forceState
  simp only [runCallbacks_eq, register_onExit, register_onEnter, CallbackMaps.empty, mapFind,
    Option.getD_none, List.nil_append, foldl_observers, Probe.host]

/-- C5: on a legal `transition(E)` from `S` to `D`, whatever observers were
registered and in whatever order: every exit observer registered for `S` is
called exactly once, in registration order, with arguments `(S, D)` while the
current state is still `S`; then previous state becomes `S` and current state
becomes `D` (paused-from is untouched); then every entry observer registered for
`D` is called exactly once, in registration order, with arguments `(D, S)`;
observers of other states are not called; the call returns true; and
`getPreviousState()` afterwards is the state that was current before the call. -/
theorem transition_observer_sequence (regs : List Registration) (sm : StateMachine)
    (log : List ObserverCall) (e : EventType) (d : State)
    (hlegal : tableLookup sm.currentState e = some d) :
    transition Probe.host (Probe.register regs CallbackMaps.empty) e
        { stateMachine := sm, calls := log } =
      (true,
        { stateMachine :=
            { currentState := d, previousState := sm.currentState,
              pausedFromState := sm.pausedFromState }
          calls := log ++
            callsOf (exitIds regs sm.currentState) sm.currentState d
              sm.currentState sm.previousState ++
            callsOf (enterIds regs d) d sm.currentState d sm.currentState }) ∧
    (transition Probe.host (Probe.register regs CallbackMaps.empty) e
        { stateMachine := sm, calls := log }).2.stateMachine.getPreviousState =
      sm.currentState := by
  have hmain : transition Probe.host (Probe.register regs CallbackMaps.empty) e
        { stateMachine := sm, calls := log } =
      (true,
        { stateMachine :=
            { currentState := d, previousState := sm.currentState,
              pausedFromState := sm.pausedFromState }
          calls := log ++
            callsOf (exitIds regs sm.currentState) sm.currentState d
              sm.currentState sm.previousState ++
            callsOf (enterIds regs d) d sm.currentState d sm.currentState }) := by
    rw [transition_eq]
    show (match tableLookup sm.currentState e with
      | none => _
      | some d => _) = _
    rw [hlegal]
    show (true, _) = (true, _)
    rw [forceState_probe]
  exact ⟨hmain, by rw [hmain]; rfl⟩

/-- A concrete instance of `transition_observer_sequence`: observers 1 to 5 are
registered, two for leaving `Idle`, two for entering `Ready`, one for entering
`Filling`; `CMD_SELECT_MODE` in `Idle` calls 1, 3 (exit, state still `Idle`),
then 2, 4 (entry, state already `Ready`), and not 5. -/
theorem transition_observer_sequence_witness :
    tableLookup StateMachine.new.currentState .CMD_SELECT_MODE = some .Ready ∧
    (transition Probe.host
        (Probe.register
          [.onExit .Idle 1, .onEnter .Ready 2, .onExit .Idle 3, .onEnter .Filling 5,
            .onEnter .Ready 4] CallbackMaps.empty)
        .CMD_SELECT_MODE { stateMachine := StateMachine.new, calls := [] }).2.calls =
      [ { observer := 1, arg1 := .Idle, arg2 := .Ready, currentState := .Idle,
          previousState := .Idle },
        { observer := 3, arg1 := .Idle, arg2 := .Ready, currentState := .Idle,
          previousState := .Idle },
        { observer := 2, arg1 := .Ready, arg2 := .Idle, currentState := .Ready,
          previousState := .Idle },
        { observer := 4, arg1 := .Ready, arg2 := .Idle, currentState := .Ready,
          previousState := .Idle } ] :=
  ⟨rfl, by
    rw [(transition_observer_sequence
      [.onExit .Idle 1, .onEnter .Ready 2, .onExit .Idle 3, .onEnter .Filling 5,
        .onEnter .Ready 4] StateMachine.new [] .CMD_SELECT_MODE .Ready rfl).1]
    rfl⟩

/-- C6: `forceState(T)` from any current state `S` and for any target `T`,
whether or not the table has an edge from `S` to `T` and also for `T = S`, runs
`S`'s exit observers in registration order, then sets previous := `S` and
current := `T`, then runs `T`'s entry observers in registration order, and ends
with current state `T`; it does not consult the transition table; and whenever
the table does send `(S, E)` to `T`, `transition(E)` returns true and leaves
exactly the program state that `forceState(T)` leaves, for any observers. -/
theorem forceState_observer_sequence (regs : List Registration) (sm : StateMachine)
    (log : List ObserverCall) (t : State) :
    forceState Probe.host (Probe.register regs CallbackMaps.empty) t
        { stateMachine := sm, calls := log } =
      { stateMachine :=
          { currentState := t, previousState := sm.currentState,
            pausedFromState := sm.pausedFromState }
        calls := log ++
          callsOf (exitIds regs sm.currentState) sm.currentState t
            sm.currentState sm.previousState ++
          callsOf (enterIds regs t) t sm.currentState t sm.currentState } ∧
    (forceState Probe.host (Probe.register regs CallbackMaps.empty) t
        { stateMachine := sm, calls := log }).stateMachine.getCurrentState = t ∧
    (∀ (W : Type) (h : Host W) (cbs : CallbackMaps W) (w : W) (e : EventType),
      tableLookup (h.stateMachine w).currentState e = some t →
        transition h cbs e w = (true, forceState h cbs t w)) := by
  refine ⟨forceState_probe regs sm log t, by rw [forceState_probe]; rfl, ?_⟩
  intro W h cbs w e hl
  rw [transition_eq, hl]

/-- A concrete instance of `forceState_observer_sequence`: `Idle` has no table
edge to `Washing`, and `transition(SYS_WATER_LEVEL_REACHED)` in `Filling` leaves
what `forceState(Washing)` leaves. -/
theorem forceState_observer_sequence_witness :
    (∀ e, tableLookup .Idle e ≠ some .Washing) ∧
    (forceState Probe.host
        (Probe.register [.onEnter .Washing 7, .onExit .Idle 8] CallbackMaps.empty)
        .Washing { stateMachine := StateMachine.new, calls := [] }) =
      { stateMachine := { currentState := .Washing, previousState := .Idle,
                          pausedFromState := .Idle }
        calls :=
          [ { observer := 8, arg1 := .Idle, arg2 := .Washing, currentState := .Idle,
              previousState := .Idle },
            { observer := 7, arg1 := .Washing, arg2 := .Idle, currentState := .Washing,
              previousState := .Idle } ] } ∧
    transition bareHost CallbackMaps.empty .SYS_WATER_LEVEL_REACHED
        { currentState := .Filling, previousState := .Ready, pausedFromState := .Idle } =
      (true, forceState bareHost CallbackMaps.empty .Washing
        { currentState := .Filling, previousState := .Ready, pausedFromState := .Idle }) :=
  ⟨by decide,
    (forceState_observer_sequence [.onEnter .Washing 7, .onExit .Idle 8]
      StateMachine.new [] .Washing).1,
    (forceState_observer_sequence [] StateMachine.new [] .Washing).2.2
      StateMachine bareHost CallbackMaps.empty
      { currentState := .Filling, previousState := .Ready, pausedFromState := .Idle }
      .SYS_WATER_LEVEL_REACHED rfl⟩

/-! ## The orchestrator's event loop -/

/-- `WaterSystem::startFilling` never reports a fault: `autoReplenish` always
succeeds. -/
theorem startFilling_events (w : WaterSystem) (t : ℚ) : (w.startFilling t).2 = [] := by
  unfold WaterSystem.startFilling
  split <;> simp [WaterSystem.autoReplenish]

/-- The entry observer of the orchestrator does not touch the event queue. -/
theorem onStateEnter_eventEngine (a b : State) (wm : WashingMachine) :
    (WashingMachine.onStateEnter a b wm).eventEngine = wm.eventEngine := by
  cases a <;> try rfl
  show (WashingMachine.startFillPhase wm).eventEngine = _
  simp only [WashingMachine.startFillPhase, startFilling_events, WashingMachine.pushEvents,
    List.foldl_nil]

theorem smForceState_eventEngine (d : State) (wm : WashingMachine) :
    (wm.smForceState d).eventEngine = wm.eventEngine := by
  unfold WashingMachine.smForceState forceState
  have hexit : ∀ (k a b : State) (x : WashingMachine),
      runCallbacks WashingMachine.callbacks.onExitCallbacks k a b x = x := by
    intro k a b x; rfl
  have henter : ∀ (k a b : State) (x : WashingMachine),
      (runCallbacks WashingMachine.callbacks.onEnterCallbacks k a b x).eventEngine =
        x.eventEngine := by
    intro k a b x
    cases k <;> first | rfl | exact onStateEnter_eventEngine _ _ _
  simp only [hexit, henter]
  rfl

theorem smTransition_eventEngine (wm : WashingMachine) (e : EventType) :
    (wm.smTransition e).2.eventEngine = wm.eventEngine := by
  unfold WashingMachine.smTransition
  rw [transition_eq]
  cases tableLookup (WashingMachine.host.stateMachine wm).currentState e with
  | none => rfl
  | some d => exact smForceState_eventEngine d wm

/-- Handling an event leaves the event queue as it is. -/
theorem handleEvent_eventEngine (wm wm1 : WashingMachine) (e : Event)
    (he : wm.handleEvent e = some wm1) : wm1.eventEngine = wm.eventEngine := by
  unfold WashingMachine.handleEvent at he
  simp only [Option.bind_eq_some, Option.map_eq_some'] at he
  obtain ⟨x1, hx1, x2, hx2, hx3⟩ := he
  have h1 : x1.eventEngine = wm.eventEngine := by
    split at hx1
    · simp only [Option.map_eq_some'] at hx1
      obtain ⟨i, _, hi⟩ := hx1
      rw [← hi]
    · cases hx1; rfl
  have h2 : x2.eventEngine = x1.eventEngine := by
    split at hx2
    · simp only [Option.map_eq_some'] at hx2
      obtain ⟨i, _, hi⟩ := hx2
      rw [← hi]
    · cases hx2; rfl
  rw [← hx3, smTransition_eventEngine, h2, h1]

theorem processEventsLoop_drains (fuel : Nat) (wm wm1 : WashingMachine)
    (hfuel : wm.eventEngine.eventQueue.length ≤ fuel)
    (hrun : WashingMachine.processEventsLoop fuel wm = some wm1) :
    wm1.eventEngine.eventQueue = [] := by
  induction fuel generalizing wm with
  | zero =>
    cases hrun
    exact List.length_eq_zero.mp (Nat.le_zero.mp hfuel)
  | succ n ih =>
    unfold WashingMachine.processEventsLoop at hrun
    cases hq : wm.eventEngine.eventQueue with
    | nil =>
      simp only [EventEngine.hasEvents, hq, List.isEmpty_nil, Bool.not_true,
        Bool.false_eq_true, if_false] at hrun
      cases hrun
      exact hq
    | cons ev rest =>
      simp only [EventEngine.hasEvents, EventEngine.popEvent, hq, List.isEmpty_cons,
        Bool.not_false, if_true, Option.bind_eq_some] at hrun
      obtain ⟨x, hx, hloop⟩ := hrun
      have hxq := handleEvent_eventEngine _ _ _ hx
      apply ih x _ hloop
      rw [hxq]
      rw [hq] at hfuel
      simpa using hfuel

/-- The iteration bound of `processEvents` is enough: when it returns, the
queue is empty, as after the source's `while (eventEngine.hasEvents())`. -/
theorem processEvents_drains (wm wm1 : WashingMachine)
    (hrun : wm.processEvents = some wm1) : wm1.eventEngine.eventQueue = [] :=
  processEventsLoop_drains _ wm wm1 (Nat.le_refl _) hrun

/-! ## The door interlock -/

/-- C1 (the code at a failing input): on the freshly initialized machine, after
the first eight actions of `interlockTrace` the machine is in `EmergencyStop`
with the door closed and already unlocked and `SYS_DRAIN_COMPLETE` pending; the
operator then selects a program, issues `start` (accepted, the door is closed)
and opens the door (allowed, the door is unlocked; `EmergencyStop` has no
`CMD_OPEN_DOOR` edge, so the state stays).  The next tick consumes the three
pending events and ends in `Filling`, an active state, with the inlet valve
open while the door is open and not locked. -/
theorem door_open_while_filling :
    (((WashingMachine.new.init none).run (interlockTrace.take 8)).map fun wm =>
        (wm.stateMachine.currentState, wm.door.getStatus,
          wm.eventEngine.eventQueue.map Event.getType)) =
      some (.EmergencyStop, .ClosedUnlocked, [.SYS_DRAIN_COMPLETE]) ∧
    (((WashingMachine.new.init none).run (interlockTrace.take 11)).map fun wm =>
        (wm.stateMachine.currentState, wm.door.getStatus,
          wm.eventEngine.eventQueue.map Event.getType)) =
      some (.EmergencyStop, .Open, [.SYS_DRAIN_COMPLETE, .CMD_SELECT_MODE, .CMD_START]) ∧
    (((WashingMachine.new.init none).run interlockTrace).map fun wm =>
        (wm.stateMachine.currentState, wm.stateMachine.isActiveState, wm.door.getStatus,
          wm.door.isLocked, wm.water.isFilling)) =
      some (.Filling, true, .Open, false, true) := by
  decide!

/-! ## The orchestrator's use of the state machine -/

/-- `forceState` on the orchestrator: the state members are updated and the
one entry observer, `onStateEnter`, runs (it does nothing for the states it is
not registered for). -/
theorem smForceState_eq (wm : WashingMachine) (d : State) :
    wm.smForceState d =
      WashingMachine.onStateEnter d wm.stateMachine.currentState
        { wm with stateMachine :=
            { currentState := d, previousState := wm.stateMachine.currentState,
              pausedFromState := wm.stateMachine.pausedFromState } } := by
  cases d <;> rfl

/-- `transition` on the orchestrator, in terms of the specification's table. -/
theorem smTransition_eq (wm : WashingMachine) (e : EventType) :
    wm.smTransition e =
      match specTable wm.stateMachine.currentState e with
      | none => (false, wm)
      | some d => (true, wm.smForceState d) := by
  unfold WashingMachine.smTransition
  rw [transition_eq, tableLookup_eq_specTable]
  rfl

/-- `processEvents` on a queue holding one event without payload. -/
theorem processEvents_single (wm : WashingMachine) (t : EventType)
    (hq : wm.eventEngine.eventQueue = [{ type := t, data := .none }]) :
    wm.processEvents =
      some (WashingMachine.smTransition
        { wm with eventEngine := { wm.eventEngine with eventQueue := [] } } t).2 := by
  unfold WashingMachine.processEvents
  rw [hq]
  simp [WashingMachine.processEventsLoop, EventEngine.hasEvents, EventEngine.popEvent, hq,
    WashingMachine.handleEvent, Event.hasData, Event.getType]

/-! ## Invariants of the orchestrator -/

/-- What `handleEvent` does: it may store the payload as mode index or load,
and then hands the event type to the state machine. -/
theorem handleEvent_spec (wm wm1 : WashingMachine) (ev : Event)
    (he : wm.handleEvent ev = some wm1) :
    ∃ (i : Int) (x : ℚ),
      wm1 = (WashingMachine.smTransition
        { wm with currentModeIndex := i, loadWeight := x } ev.type).2 := by
  unfold WashingMachine.handleEvent at he
  simp only [Option.bind_eq_some, Option.map_eq_some'] at he
  obtain ⟨x1, hx1, x2, hx2, hx3⟩ := he
  have h1 : ∃ i, x1 = { wm with currentModeIndex := i } := by
    split at hx1
    · simp only [Option.map_eq_some'] at hx1
      obtain ⟨i, _, hi⟩ := hx1
      exact ⟨i, hi.symm⟩
    · cases hx1; exact ⟨wm.currentModeIndex, rfl⟩
  have h2 : ∃ x, x2 = { x1 with loadWeight := x } := by
    split at hx2
    · simp only [Option.map_eq_some'] at hx2
      obtain ⟨i, _, hi⟩ := hx2
      exact ⟨i, hi.symm⟩
    · cases hx2; exact ⟨x1.loadWeight, rfl⟩
  obtain ⟨i, rfl⟩ := h1
  obtain ⟨x, rfl⟩ := h2
  exact ⟨i, x, hx3.symm⟩

/-- Induction over the iterations of `processEvents`. -/
theorem processEventsLoop_induct (P : WashingMachine → Prop)
    (hstep : ∀ (wm wm1 : WashingMachine) (ev : Event) (rest : List Event), P wm →
      wm.eventEngine.eventQueue = ev :: rest →
      WashingMachine.handleEvent
        { wm with eventEngine := { wm.eventEngine with eventQueue := rest } } ev = some wm1 →
      P wm1)
    (fuel : Nat) (wm wm1 : WashingMachine) (hP : P wm)
    (hrun : WashingMachine.processEventsLoop fuel wm = some wm1) : P wm1 := by
  induction fuel generalizing wm with
  | zero => cases hrun; exact hP
  | succ n ih =>
    unfold WashingMachine.processEventsLoop at hrun
    cases hq : wm.eventEngine.eventQueue with
    | nil =>
      simp only [EventEngine.hasEvents, hq, List.isEmpty_nil, Bool.not_true,
        Bool.false_eq_true, if_false] at hrun
      cases hrun
      exact hP
    | cons ev rest =>
      simp only [EventEngine.hasEvents, EventEngine.popEvent, hq, List.isEmpty_cons,
        Bool.not_false, if_true, Option.bind_eq_some] at hrun
      obtain ⟨x, hx, hloop⟩ := hrun
      exact ih x (hstep wm x ev rest hP hq hx) hloop

/-- Induction over a sequence of actions. -/
theorem run_induct (P : WashingMachine → Prop)
    (hstep : ∀ (wm wm1 : WashingMachine) (a : Action), P wm → a.nonNegative →
      wm.step a = some wm1 → P wm1)
    (actions : List Action) (wm wm1 : WashingMachine) (hP : P wm)
    (hnn : ∀ a ∈ actions, a.nonNegative)
    (hrun : wm.run actions = some wm1) : P wm1 := by
  induction actions generalizing wm with
  | nil => cases hrun; exact hP
  | cons a rest ih =>
    unfold WashingMachine.run at hrun
    simp only [Option.bind_eq_some] at hrun
    obtain ⟨x, hx, hrest⟩ := hrun
    exact ih x (hstep wm x a hP (hnn a (List.mem_cons_self _ _)) hx)
      (fun b hb => hnn b (List.mem_cons_of_mem _ hb)) hrest


/-- What the entry observer leaves alone. -/
theorem onStateEnter_frame (a b : State) (wm : WashingMachine) :
    (WashingMachine.onStateEnter a b wm).stateMachine.currentState =
        wm.stateMachine.currentState ∧
    (WashingMachine.onStateEnter a b wm).stateMachine.pausedFromState =
        (if a = .Paused then b else wm.stateMachine.pausedFromState) ∧
    (WashingMachine.onStateEnter a b wm).door.opened = wm.door.opened ∧
    (WashingMachine.onStateEnter a b wm).eventEngine = wm.eventEngine ∧
    (WashingMachine.onStateEnter a b wm).currentFault = wm.currentFault := by
  refine ⟨onStateEnter_currentState a b wm, ?_, ?_, onStateEnter_eventEngine a b wm, ?_⟩
  · cases a <;> rfl
  · cases a <;> try rfl
    show (WashingMachine.startFillPhase wm).door.opened = _
    simp only [WashingMachine.startFillPhase, DoorSystem.lock]
    split <;> rfl
  · cases a <;> rfl

/-- What `forceState` on the orchestrator leaves alone. -/
theorem smForceState_frame (wm : WashingMachine) (d : State) :
    (wm.smForceState d).stateMachine.currentState = d ∧
    (wm.smForceState d).stateMachine.pausedFromState =
        (if d = .Paused then wm.stateMachine.currentState
          else wm.stateMachine.pausedFromState) ∧
    (wm.smForceState d).door.opened = wm.door.opened ∧
    (wm.smForceState d).eventEngine = wm.eventEngine ∧
    (wm.smForceState d).currentFault = wm.currentFault := by
  rw [smForceState_eq]
  obtain ⟨h1, h2, h3, h4, h5⟩ := onStateEnter_frame d wm.stateMachine.currentState
    { wm with stateMachine :=
        { currentState := d, previousState := wm.stateMachine.currentState,
          pausedFromState := wm.stateMachine.pausedFromState } }
  exact ⟨h1, h2, h3, h4, h5⟩

/-- Only `CMD_OPEN_DOOR` leads to `DoorOpen`. -/
theorem specTable_doorOpen (s : State) (e : EventType)
    (h : specTable s e = some .DoorOpen) : e = .CMD_OPEN_DOOR := by
  revert h
  cases s <;> cases e <;> decide

/-- `Paused` is entered only from the four pausable phases. -/
theorem specTable_paused (s : State) (e : EventType)
    (h : specTable s e = some .Paused) :
    s ∈ [State.Idle, .Filling, .Washing, .Rinsing, .Spinning] := by
  revert h
  cases s <;> cases e <;> decide

theorem consistent_smForceState (wm : WashingMachine) (d : State)
    (h2 : ∀ e ∈ wm.eventEngine.eventQueue, e.type ≠ .CMD_OPEN_DOOR)
    (h3 : wm.stateMachine.pausedFromState ∈
      [State.Idle, .Filling, .Washing, .Rinsing, .Spinning])
    (h4 : wm.currentFault = .None)
    (hd : d = .DoorOpen → wm.door.opened = true)
    (hp : d = .Paused → wm.stateMachine.currentState ∈
      [State.Idle, .Filling, .Washing, .Rinsing, .Spinning]) :
    (wm.smForceState d).Consistent := by
  obtain ⟨f1, f2, f3, f4, f5⟩ := smForceState_frame wm d
  refine ⟨?_, ?_, ?_, ?_⟩
  · rw [f1, f3]; exact hd
  · rw [f4]; exact h2
  · rw [f2]
    split
    · rename_i hdp; exact hp hdp
    · exact h3
  · rw [f5]; exact h4

theorem consistent_smTransition (wm : WashingMachine) (e : EventType)
    (hc : wm.Consistent) (he : e = .CMD_OPEN_DOOR → wm.door.opened = true) :
    (wm.smTransition e).2.Consistent := by
  rw [smTransition_eq]
  cases hs : specTable wm.stateMachine.currentState e with
  | none => exact hc
  | some d =>
    apply consistent_smForceState wm d hc.noDoorEvents hc.pausedFrom hc.noFault
    · intro hd
      rw [hd] at hs
      exact he (specTable_doorOpen _ _ hs)
    · intro hd
      rw [hd] at hs
      exact specTable_paused _ _ hs

theorem consistent_handleEvent (wm wm1 : WashingMachine) (ev : Event) (rest : List Event)
    (hc : wm.Consistent) (hq : wm.eventEngine.eventQueue = ev :: rest)
    (he : WashingMachine.handleEvent
      { wm with eventEngine := { wm.eventEngine with eventQueue := rest } } ev = some wm1) :
    wm1.Consistent := by
  obtain ⟨i, x, rfl⟩ := handleEvent_spec _ _ _ he
  apply consistent_smTransition
  · refine ⟨hc.doorOpenState, ?_, hc.pausedFrom, hc.noFault⟩
    intro e hmem
    exact hc.noDoorEvents e (by rw [hq]; exact List.mem_cons_of_mem _ hmem)
  · intro hopen
    exact absurd hopen (hc.noDoorEvents ev (by rw [hq]; exact List.mem_cons_self _ _))

theorem consistent_processEvents (wm wm1 : WashingMachine) (hc : wm.Consistent)
    (hrun : wm.processEvents = some wm1) : wm1.Consistent :=
  processEventsLoop_induct WashingMachine.Consistent
    (fun a b ev rest ha hq he => consistent_handleEvent a b ev rest ha hq he) _ wm wm1 hc hrun

/-! ## The door -/

/-- C12: `openDoor()` returns false iff the door is locked, and then leaves the
door as it is and passes no event to the callback; `lock()` does nothing on an
open door and locks a closed one; hence no sequence of `openDoor`, `closeDoor`,
`lock`, `unlock` and `reset` calls from the initial door state (with or without
a callback set) reaches a door that is open and locked, and whenever the door
is locked after such a sequence it is closed and `openDoor()` leaves it closed
and locked. -/
theorem door_lock_is_gate :
    (∀ d : DoorSystem, d.openDoor.1 = false ↔ d.locked = true) ∧
    (∀ d : DoorSystem, d.locked = true → d.openDoor.2.1 = d ∧ d.openDoor.2.2 = []) ∧
    (∀ d : DoorSystem, d.lock = if d.opened = true then d else { d with locked := true }) ∧
    (∀ (cb : Bool) (ops : List DoorOp),
      ¬((DoorSystem.runOps { DoorSystem.new with eventCallback := cb } ops).opened = true ∧
        (DoorSystem.runOps { DoorSystem.new with eventCallback := cb } ops).locked = true)) ∧
    (∀ (cb : Bool) (ops : List DoorOp),
      (DoorSystem.runOps { DoorSystem.new with eventCallback := cb } ops).locked = true →
        (DoorSystem.runOps { DoorSystem.new with eventCallback := cb } ops).getStatus =
          .ClosedLocked ∧
        (DoorSystem.runOps { DoorSystem.new with eventCallback := cb } ops).openDoor =
          (false, DoorSystem.runOps { DoorSystem.new with eventCallback := cb } ops, [])) := by
  have hinv : ∀ (ops : List DoorOp) (d : DoorSystem),
      ¬(d.opened = true ∧ d.locked = true) →
      ¬((d.runOps ops).opened = true ∧ (d.runOps ops).locked = true) := by
    intro ops
    induction ops with
    | nil => intro d hd; exact hd
    | cons op rest ih =>
      intro d hd
      apply ih
      obtain ⟨o, l, c⟩ := d
      cases op <;> cases o <;> cases l <;> cases c <;> simp_all [DoorSystem.applyOp, DoorSystem.openDoor, DoorSystem.closeDoor, DoorSystem.lock, DoorSystem.unlock, DoorSystem.reset]
  refine ⟨?_, ?_, ?_, ?_, ?_⟩
  · intro d
    obtain ⟨o, l, c⟩ := d
    cases o <;> cases l <;> cases c <;> simp [DoorSystem.openDoor]
  · intro d hl
    obtain ⟨o, l, c⟩ := d
    cases hl
    simp [DoorSystem.openDoor]
  · intro d
    obtain ⟨o, l, c⟩ := d
    cases o <;> simp [DoorSystem.lock]
  · intro cb ops
    exact hinv ops _ (by simp [DoorSystem.new])
  · intro cb ops hl
    have h := hinv ops { DoorSystem.new with eventCallback := cb } (by simp [DoorSystem.new])
    generalize DoorSystem.runOps { DoorSystem.new with eventCallback := cb } ops = d at h hl
    obtain ⟨o, l, c⟩ := d
    cases hl
    cases o
    · simp [DoorSystem.getStatus, DoorSystem.openDoor]
    · exact absurd ⟨rfl, rfl⟩ h

/-- A concrete instance of `door_lock_is_gate`: after `closeDoor`, `lock` the
door is locked, its status is `ClosedLocked`, and `openDoor` is declined. -/
theorem door_lock_is_gate_witness :
    (DoorSystem.runOps { DoorSystem.new with eventCallback := true }
      [.closeDoor, .lock]).locked = true ∧
    (DoorSystem.runOps { DoorSystem.new with eventCallback := true }
      [.closeDoor, .lock]).getStatus = .ClosedLocked ∧
    (DoorSystem.runOps { DoorSystem.new with eventCallback := true }
      [.closeDoor, .lock]).openDoor =
      (false, DoorSystem.runOps { DoorSystem.new with eventCallback := true }
        [.closeDoor, .lock], []) :=
  ⟨rfl, door_lock_is_gate.2.2.2.2 true [.closeDoor, .lock] rfl⟩

/-! ## Emergency stop -/

/-- C15: for every orchestrator state whose operating state is active
(`Filling`, `Washing`, `Rinsing`, `Spinning`, `Draining`) or `Paused` and whose
event queue is empty, `emergencyStop()` followed by `processEvents` returns and
leaves the machine in `EmergencyStop` with motor current RPM 0 and target RPM 0
at once (the motor is not running), the inlet valve closed and the drain valve
open, whatever the water level, which the call does not change. -/
theorem emergency_stop_effect (wm : WashingMachine)
    (hstate : wm.stateMachine.currentState ∈
      [State.Filling, .Washing, .Rinsing, .Spinning, .Draining, .Paused])
    (hqueue : wm.eventEngine.eventQueue = []) :
    ∃ wm1, wm.emergencyStop.processEvents = some wm1 ∧
      wm1.stateMachine.currentState = .EmergencyStop ∧
      wm1.motor.currentRPM = 0 ∧ wm1.motor.targetRPM = 0 ∧
      wm1.motor.isRunning = false ∧
      wm1.water.inletValveOpen = false ∧ wm1.water.drainValveOpen = true ∧
      wm1.water.currentLevel = wm.water.currentLevel ∧
      wm1.eventEngine.eventQueue = [] := by
  have hq : wm.emergencyStop.eventEngine.eventQueue =
      [{ type := .CMD_EMERGENCY, data := .none }] := by
    simp [WashingMachine.emergencyStop, EventEngine.pushEventType, EventEngine.pushEvent, hqueue]
  refine ⟨_, processEvents_single _ _ hq, ?_⟩
  rw [smTransition_eq]
  have hs : specTable wm.stateMachine.currentState .CMD_EMERGENCY = some .EmergencyStop := by
    simp only [List.mem_cons, List.mem_singleton, List.mem_nil_iff, or_false] at hstate
    rcases hstate with hc | hc | hc | hc | hc | hc <;> rw [hc] <;> rfl
  have hs2 : specTable
      (WashingMachine.stateMachine
        { wm.emergencyStop with
          eventEngine := { wm.emergencyStop.eventEngine with eventQueue := [] } }).currentState
      .CMD_EMERGENCY = some .EmergencyStop := hs
  simp only [hs2, smForceState_eq]
  refine ⟨rfl, rfl, rfl, rfl, rfl, rfl, rfl, rfl⟩

/-- A concrete instance of `emergency_stop_effect`: the machine in `Washing`
reached by `washingTrace`. -/
theorem emergency_stop_effect_witness :
    (WashingMachine.new.init none).run washingTrace = some washingMachine ∧
    washingMachine.stateMachine.currentState = .Washing ∧
    washingMachine.eventEngine.eventQueue = [] ∧
    ∃ wm1, washingMachine.emergencyStop.processEvents = some wm1 ∧
      wm1.stateMachine.currentState = .EmergencyStop ∧
      wm1.motor.currentRPM = 0 ∧ wm1.motor.targetRPM = 0 ∧
      wm1.motor.isRunning = false ∧
      wm1.water.inletValveOpen = false ∧ wm1.water.drainValveOpen = true ∧
      wm1.water.currentLevel = washingMachine.water.currentLevel ∧
      wm1.eventEngine.eventQueue = [] :=
  ⟨by decide!, by decide!, by decide!,
    emergency_stop_effect washingMachine (by decide!) (by decide!)⟩

/-! ## start -/

/-- `validateStart` spelled out. -/
theorem validateStart_iff (wm : WashingMachine) :
    wm.validateStart = true ↔
      (wm.door.opened = false ∧ 0 < wm.loadWeight ∧ wm.loadWeight ≤ 6 ∧
        wm.water.lowThreshold ≤ wm.water.reservoirLevel) := by
  unfold WashingMachine.validateStart
  simp only [DoorSystem.isOpen, WaterSystem.checkReservoir]
  cases ho : wm.door.opened
  · by_cases h1 : wm.loadWeight ≤ 0
    · simp [h1]
    · by_cases h2 : wm.loadWeight > 6
      · simp [h1, h2]
      · by_cases h3 : wm.water.reservoirLevel ≥ wm.water.lowThreshold
        · simp [h1, h2, h3]
          exact ⟨not_le.mp h1, not_lt.mp h2⟩
        · simp [h1, h2, h3]
  · simp

/-- The interlock of `start()` for a stored load that is a number.  With the
low threshold at its constructor value 10, `start()` appends a `CMD_START`
event to the queue iff the door is closed, `0 < load <= 6` and the reservoir
level is at least 10; when any of these fails `start()` returns the machine
unchanged (operating state, queue, total cycle time, elapsed time and progress
included); so in `Ready` with the reservoir below 10 the state remains
`Ready`. -/
theorem start_interlock (wm : WashingMachine) (hthr : wm.water.lowThreshold = 10) :
    (wm.start.eventEngine.eventQueue =
        wm.eventEngine.eventQueue ++ [{ type := .CMD_START, data := .none }] ↔
      (wm.door.opened = false ∧ 0 < wm.loadWeight ∧ wm.loadWeight ≤ 6 ∧
        10 ≤ wm.water.reservoirLevel)) ∧
    (¬(wm.door.opened = false ∧ 0 < wm.loadWeight ∧ wm.loadWeight ≤ 6 ∧
        10 ≤ wm.water.reservoirLevel) → wm.start = wm) ∧
    (wm.stateMachine.currentState = .Ready → wm.water.reservoirLevel < 10 →
      wm.start = wm ∧ wm.start.stateMachine.currentState = .Ready) := by
  have hv := validateStart_iff wm
  rw [hthr] at hv
  have hrej : ¬(wm.door.opened = false ∧ 0 < wm.loadWeight ∧ wm.loadWeight ≤ 6 ∧
        10 ≤ wm.water.reservoirLevel) → wm.start = wm := by
    intro hn
    have : wm.validateStart = false := by
      cases hval : wm.validateStart
      · rfl
      · exact absurd (hv.mp hval) hn
    simp [WashingMachine.start, this]
  refine ⟨⟨?_, ?_⟩, hrej, ?_⟩
  · intro hq
    by_contra hn
    rw [hrej hn] at hq
    have := congrArg List.length hq
    simp at this
  · intro hc
    have : wm.validateStart = true := hv.mpr hc
    simp [WashingMachine.start, this, EventEngine.pushEventType, EventEngine.pushEvent]
  · intro hr hlow
    have hn : ¬(wm.door.opened = false ∧ 0 < wm.loadWeight ∧ wm.loadWeight ≤ 6 ∧
        10 ≤ wm.water.reservoirLevel) := fun h => absurd h.2.2.2 (not_le.mpr hlow)
    rw [hrej hn]
    exact ⟨rfl, hr⟩

/-- A concrete instance of `start_interlock`: `readyMachine` has the door
closed, load 3 and a full reservoir, and `start()` queues `CMD_START`. -/
theorem start_interlock_witness :
    readyMachine.water.lowThreshold = 10 ∧
    readyMachine.start.eventEngine.eventQueue =
      readyMachine.eventEngine.eventQueue ++ [{ type := .CMD_START, data := .none }] :=
  ⟨by decide!,
    (start_interlock readyMachine (by decide!)).1.mpr
      ⟨by decide!, by decide!, by decide!, by decide!⟩⟩

/-- C17 (the code at a failing input): the operator enters `load nan`, so
`setLoad` is called with NaN.  On `readyMachine` (state `Ready`, door closed,
reservoir full) `setLoad` stores it, because `kg < 0` is false for NaN; and
`validateStart` then returns true, because `loadWeight <= 0` and
`loadWeight > 6` are both false for NaN: whatever the machine, it returns true
for a NaN load as soon as the door is closed and the reservoir is not low.  So
`start()` takes the branch that queues `CMD_START` although `0 < load <= 6`
does not hold.  On a load that is a number `validateStartFor` is
`validateStart` and `startQueueFor` is the queue after `start`. -/
theorem nan_load_passes_validateStart :
    readyMachine.stateMachine.currentState = .Ready ∧
    readyMachine.setLoadStores .nan = true ∧
    readyMachine.validateStartFor .nan = true ∧
    readyMachine.startQueueFor .nan =
      readyMachine.eventEngine.eventQueue ++ [{ type := .CMD_START, data := .none }] ∧
    (∀ wm : WashingMachine, wm.validateStartFor .nan =
      (!wm.door.isOpen && wm.water.checkReservoir)) ∧
    (∀ wm : WashingMachine, wm.validateStartFor (.number wm.loadWeight) = wm.validateStart) ∧
    (∀ wm : WashingMachine, wm.startQueueFor (.number wm.loadWeight) =
      wm.start.eventEngine.eventQueue) ∧
    (∀ (wm : WashingMachine) (kg : ℚ), wm.setLoadStores (.number kg) =
      (!wm.stateMachine.isActiveState && !decide (kg < 0))) := by
  have hv : ∀ wm : WashingMachine,
      wm.validateStartFor (.number wm.loadWeight) = wm.validateStart := by
    intro wm
    unfold WashingMachine.validateStartFor WashingMachine.validateStart
    simp only [FloatValue.le, FloatValue.gt, decide_eq_true_eq]
  refine ⟨by decide!, by decide!, by decide!, by decide!, ?_, hv, ?_, ?_⟩
  · intro wm
    unfold WashingMachine.validateStartFor
    cases wm.door.isOpen <;> cases wm.water.checkReservoir <;> rfl
  · intro wm
    unfold WashingMachine.startQueueFor WashingMachine.start
    rw [hv]
    cases wm.validateStart <;> rfl
  · intro wm kg
    unfold WashingMachine.setLoadStores
    cases wm.stateMachine.isActiveState <;> by_cases h : kg < 0 <;>
      simp [FloatValue.lt, h]
/-- C18: on a successful `start()` (one that passes `validateStart`) the total
cycle time becomes the sum of the five phase estimates, each computed from the
selected program and the current load (fill: adjusted water level / 10; wash,
rinse, spin: adjusted duration times 30, 15 and 9 seconds; drain: current water
level / 15); cycle elapsed time and progress become 0; exactly one `CMD_START`
is appended to the queue; and the state machine is untouched by the call. -/
theorem start_sets_cycle_time (wm : WashingMachine) (hvalid : wm.validateStart = true) :
    wm.start.totalCycleTime =
        wm.calculateFillTime + wm.calculateWashTime + wm.calculateRinseTime +
          wm.calculateSpinTime + wm.calculateDrainTime ∧
    wm.calculateFillTime =
      (wm.config.getMode wm.currentModeIndex).getAdjustedWaterLevel wm.loadWeight / 10 ∧
    wm.calculateWashTime =
      (((wm.config.getMode wm.currentModeIndex).getAdjustedDuration wm.loadWeight : Int) : ℚ)
        * (1 / 2) * 60 ∧
    wm.calculateRinseTime =
      (((wm.config.getMode wm.currentModeIndex).getAdjustedDuration wm.loadWeight : Int) : ℚ)
        * (1 / 4) * 60 ∧
    wm.calculateSpinTime =
      (((wm.config.getMode wm.currentModeIndex).getAdjustedDuration wm.loadWeight : Int) : ℚ)
        * (3 / 20) * 60 ∧
    wm.calculateDrainTime = wm.water.currentLevel / 15 ∧
    wm.start.cycleTimeElapsed = 0 ∧
    wm.start.cycleProgress = 0 ∧
    wm.start.eventEngine.eventQueue =
      wm.eventEngine.eventQueue ++ [{ type := .CMD_START, data := .none }] ∧
    wm.start.stateMachine = wm.stateMachine := by
  simp [WashingMachine.start, hvalid, WashingMachine.calculateTotalCycleTime,
    EventEngine.pushEventType, EventEngine.pushEvent, WashingMachine.calculateFillTime,
    WashingMachine.calculateWashTime, WashingMachine.calculateRinseTime,
    WashingMachine.calculateSpinTime, WashingMachine.calculateDrainTime,
    WashingMachine.getCurrentMode, WaterSystem.getCurrentLevel]

/-- A concrete instance of `start_sets_cycle_time`: on `readyMachine` (Quick
Wash, 3 kg, empty drum) the total is 2.9 + 630 + 315 + 189 + 0 seconds. -/
theorem start_sets_cycle_time_witness :
    readyMachine.validateStart = true ∧
    readyMachine.start.totalCycleTime = 11369 / 10 ∧
    readyMachine.start.stateMachine.currentState = .Ready :=
  ⟨by decide!,
    by
      rw [(start_sets_cycle_time readyMachine (by decide!)).1]
      decide!,
    by decide!⟩

/-! ## stop -/

/-- C20: `stop()` in `Idle` or `DoorOpen` changes nothing; in any active state
or `Paused` it sets the motor target to 0 (motor no longer running), closes the
inlet valve, touches no event queue, and within the same call: if the water
level is above 0 the state becomes `Draining` with the drain valve open,
otherwise the state becomes `Idle` and the door is unlocked; this does not
depend on the stop edge the table has for the state. -/
theorem stop_decides_on_water_level (wm : WashingMachine) :
    (wm.stateMachine.currentState ∈ [State.Idle, .DoorOpen] → wm.stop = wm) ∧
    (wm.stateMachine.currentState ∈
        [State.Filling, .Washing, .Rinsing, .Spinning, .Draining, .Paused] →
      wm.stop.motor.targetRPM = 0 ∧ wm.stop.motor.running = false ∧
      wm.stop.water.inletValveOpen = false ∧
      wm.stop.eventEngine = wm.eventEngine ∧
      (wm.water.currentLevel > 0 →
        wm.stop.stateMachine.currentState = .Draining ∧
        wm.stop.water.drainValveOpen = true) ∧
      (¬ wm.water.currentLevel > 0 →
        wm.stop.stateMachine.currentState = .Idle ∧
        wm.stop.door.locked = false ∧ wm.stop.door.opened = wm.door.opened)) := by
  constructor
  · intro hs
    simp only [List.mem_cons, List.mem_singleton, List.mem_nil_iff, or_false] at hs
    unfold WashingMachine.stop
    simp [StateMachine.getCurrentState, hs]
  · intro hs
    have h1 : ¬(wm.stateMachine.currentState = .Idle ∨ wm.stateMachine.currentState = .DoorOpen) := by
      simp only [List.mem_cons, List.mem_singleton, List.mem_nil_iff, or_false] at hs
      rcases hs with hc | hc | hc | hc | hc | hc <;> rw [hc] <;> decide
    have h2 : wm.stateMachine.isActiveState = true ∨ wm.stateMachine.currentState = .Paused := by
      simp only [List.mem_cons, List.mem_singleton, List.mem_nil_iff, or_false] at hs
      rcases hs with hc | hc | hc | hc | hc | hc <;>
        simp [StateMachine.isActiveState, hc]
    by_cases hl : wm.water.currentLevel > 0
    · have hstop : wm.stop = WashingMachine.smForceState
          { wm with motor := wm.motor.stop, water := wm.water.stopFilling.startDraining }
          .Draining := by
        unfold WashingMachine.stop
        simp only [StateMachine.getCurrentState, h1, h2, if_false, if_true]
        have : (wm.water.stopFilling).getCurrentLevel > 0 := hl
        simp only [this, if_true]
      rw [hstop, smForceState_eq]
      exact ⟨rfl, rfl, rfl, rfl, fun _ => ⟨rfl, rfl⟩, fun h => absurd hl h⟩
    · have hstop : wm.stop = WashingMachine.smForceState
          { wm with motor := wm.motor.stop, water := wm.water.stopFilling,
                    door := wm.door.unlock }
          .Idle := by
        unfold WashingMachine.stop
        simp only [StateMachine.getCurrentState, h1, h2, if_false, if_true]
        have : ¬ (wm.water.stopFilling).getCurrentLevel > 0 := hl
        simp only [this, if_false]
      rw [hstop, smForceState_eq]
      exact ⟨rfl, rfl, rfl, rfl, fun h => absurd h hl, fun _ => ⟨rfl, rfl, rfl⟩⟩

/-- A concrete instance of `stop_decides_on_water_level`: `washingMachine` has
29 l in the drum, so `stop()` leads to `Draining` with the drain valve open. -/
theorem stop_decides_on_water_level_witness :
    washingMachine.stateMachine.currentState = .Washing ∧
    washingMachine.water.currentLevel > 0 ∧
    washingMachine.stop.stateMachine.currentState = .Draining ∧
    washingMachine.stop.water.drainValveOpen = true :=
  ⟨by decide!, by decide!,
    ((stop_decides_on_water_level washingMachine).2 (by decide!)).2.2.2.2.1 (by decide!)⟩

/-! ## The simulation tick -/

theorem updateFill_events (w : WaterSystem) (δ : ℚ) :
    (w.updateFill δ).2 = [] ∨ (w.updateFill δ).2 = [.SYS_WATER_LEVEL_REACHED] := by
  unfold WaterSystem.updateFill
  dsimp only
  split_ifs <;> simp

theorem updateDrain_events (w : WaterSystem) (δ : ℚ) :
    (w.updateDrain δ).2 = [] ∨ (w.updateDrain δ).2 = [.SYS_DRAIN_COMPLETE] := by
  unfold WaterSystem.updateDrain
  dsimp only
  split_ifs <;> simp

theorem update_events (w : WaterSystem) (δ : ℚ) (t : EventType) (ht : t ∈ (w.update δ).2) :
    t = .SYS_WATER_LEVEL_REACHED ∨ t = .SYS_DRAIN_COMPLETE := by
  simp only [WaterSystem.update, List.mem_append] at ht
  rcases ht with ht | ht
  · rcases updateFill_events w δ with h | h <;> rw [h] at ht <;> simp at ht
    exact Or.inl ht
  · rcases updateDrain_events (w.updateFill δ).1 δ with h | h <;> rw [h] at ht <;> simp at ht
    exact Or.inr ht

theorem pushEvents_mem (wm : WashingMachine) (ts : List EventType) (e : Event)
    (he : e ∈ (wm.pushEvents ts).eventEngine.eventQueue) :
    e ∈ wm.eventEngine.eventQueue ∨ e.data = .none ∧ e.type ∈ ts := by
  have hpush : ∀ (ts : List EventType) (ee : EventEngine) (e : Event),
      e ∈ (ts.foldl (fun acc t => acc.pushEventType t) ee).eventQueue →
      e ∈ ee.eventQueue ∨ e.data = .none ∧ e.type ∈ ts := by
    intro ts
    induction ts with
    | nil => intro ee e he; exact Or.inl he
    | cons t rest ih =>
      intro ee e he
      rcases ih _ e he with h | h
      · simp only [EventEngine.pushEventType, EventEngine.pushEvent, List.mem_append,
          List.mem_singleton] at h
        rcases h with h | h
        · exact Or.inl h
        · subst h; exact Or.inr ⟨rfl, List.mem_cons_self _ _⟩
      · exact Or.inr ⟨h.1, List.mem_cons_of_mem _ h.2⟩
  exact hpush ts wm.eventEngine e he

/-- `updateSimulation` as the sequence of its three blocks. -/
theorem updateSimulation_eq (wm : WashingMachine) (δ : ℚ) :
    wm.updateSimulation δ =
      (let state := wm.stateMachine.currentState
       let wmA := if wm.stateMachine.isActiveState = true then
         (wm.advanceCycle δ).raisePhaseComplete state else wm
       let wmB := if state = .Paused then { wmA with motor := wmA.motor.update δ } else wmA
       if state = .EmergencyStop then wmB.drainInEmergency δ else wmB) := by
  unfold WashingMachine.updateSimulation WashingMachine.advanceCycle
    WashingMachine.raisePhaseComplete WashingMachine.drainInEmergency
  cases hs : wm.stateMachine.currentState <;>
    simp only [StateMachine.getCurrentState, StateMachine.isActiveState, hs,
      beq_self_eq_true, Bool.or_true, Bool.true_or, Bool.or_false, if_true, if_false,
      reduceCtorEq, beq_iff_eq]

theorem advanceCycle_frame (wm : WashingMachine) (δ : ℚ) :
    (wm.advanceCycle δ).stateMachine = wm.stateMachine ∧
    (wm.advanceCycle δ).door = wm.door ∧
    (wm.advanceCycle δ).currentFault = wm.currentFault ∧
    (wm.advanceCycle δ).eventEngine =
      (wm.pushEvents (wm.water.update δ).2).eventEngine := by
  unfold WashingMachine.advanceCycle
  dsimp only
  split <;> exact ⟨rfl, rfl, rfl, rfl⟩

theorem raisePhaseComplete_frame (wm : WashingMachine) (s : State) :
    (wm.raisePhaseComplete s).stateMachine = wm.stateMachine ∧
    (wm.raisePhaseComplete s).door = wm.door ∧
    (wm.raisePhaseComplete s).currentFault = wm.currentFault ∧
    (∀ e ∈ (wm.raisePhaseComplete s).eventEngine.eventQueue,
      e ∈ wm.eventEngine.eventQueue ∨ e.data = .none ∧
        e.type ∈ [EventType.SYS_WASH_COMPLETE, .SYS_RINSE_COMPLETE, .SYS_SPIN_COMPLETE]) := by
  unfold WashingMachine.raisePhaseComplete
  cases s <;> dsimp only <;> (try split) <;>
    refine ⟨rfl, rfl, rfl, ?_⟩ <;> intro e he <;>
    first
    | exact Or.inl he
    | (simp only [EventEngine.pushEventType, EventEngine.pushEvent, List.mem_append,
        List.mem_singleton] at he
       rcases he with he | he
       · exact Or.inl he
       · subst he
         exact Or.inr ⟨rfl, by simp⟩)

theorem drainInEmergency_frame (wm : WashingMachine) (δ : ℚ) :
    (wm.drainInEmergency δ).stateMachine = wm.stateMachine ∧
    (wm.drainInEmergency δ).door.opened = wm.door.opened ∧
    (wm.drainInEmergency δ).currentFault = wm.currentFault ∧
    (wm.drainInEmergency δ).eventEngine =
      (wm.pushEvents (wm.water.update δ).2).eventEngine ∧
    ((wm.drainInEmergency δ).water.currentLevel ≤ 0 →
      (wm.drainInEmergency δ).motor.currentRPM = 0 →
      (wm.drainInEmergency δ).door.locked = false) := by
  unfold WashingMachine.drainInEmergency
  dsimp only
  split
  · exact ⟨rfl, rfl, rfl, rfl, fun _ _ => rfl⟩
  · rename_i hn
    exact ⟨rfl, rfl, rfl, rfl, fun h1 h2 => absurd ⟨h1, h2⟩ hn⟩

/-- What `updateSimulation` leaves alone, which events it may queue, and that
it unlocks the door in `EmergencyStop` once the drum is empty and the motor at
rest. -/
theorem updateSimulation_frame (wm : WashingMachine) (δ : ℚ) :
    (wm.updateSimulation δ).stateMachine = wm.stateMachine ∧
    (wm.updateSimulation δ).door.opened = wm.door.opened ∧
    (wm.updateSimulation δ).currentFault = wm.currentFault ∧
    (∀ e ∈ (wm.updateSimulation δ).eventEngine.eventQueue,
      e ∈ wm.eventEngine.eventQueue ∨ e.data = .none ∧
        e.type ∈ [EventType.SYS_WATER_LEVEL_REACHED, .SYS_DRAIN_COMPLETE, .SYS_WASH_COMPLETE,
          .SYS_RINSE_COMPLETE, .SYS_SPIN_COMPLETE]) ∧
    (wm.updateSimulation δ).EmergencyUnlocked := by
  have hpushed : ∀ (x : WashingMachine) (e : Event),
      e ∈ (x.pushEvents (x.water.update δ).2).eventEngine.eventQueue →
      e ∈ x.eventEngine.eventQueue ∨ e.data = .none ∧
        e.type ∈ [EventType.SYS_WATER_LEVEL_REACHED, .SYS_DRAIN_COMPLETE, .SYS_WASH_COMPLETE,
          .SYS_RINSE_COMPLETE, .SYS_SPIN_COMPLETE] := by
    intro x e he
    rcases pushEvents_mem x _ e he with h | ⟨h1, h2⟩
    · exact Or.inl h
    · refine Or.inr ⟨h1, ?_⟩
      rcases update_events _ _ _ h2 with h | h <;> rw [h] <;> simp
  rw [updateSimulation_eq]
  dsimp only
  by_cases hact : wm.stateMachine.isActiveState = true
  · -- an active state is neither Paused nor EmergencyStop
    have hnp : ¬ wm.stateMachine.currentState = .Paused := by
      intro h; rw [StateMachine.isActiveState, h] at hact; exact absurd hact (by decide)
    have hne : ¬ wm.stateMachine.currentState = .EmergencyStop := by
      intro h; rw [StateMachine.isActiveState, h] at hact; exact absurd hact (by decide)
    simp only [hact, hnp, hne, if_true, if_false]
    obtain ⟨a1, a2, a3, a4⟩ := advanceCycle_frame wm δ
    obtain ⟨r1, r2, r3, r4⟩ := raisePhaseComplete_frame (wm.advanceCycle δ)
      wm.stateMachine.currentState
    refine ⟨by rw [r1, a1], by rw [r2, a2], by rw [r3, a3], ?_, ?_⟩
    · intro e he
      rcases r4 e he with h | ⟨h1, h2⟩
      · rw [a4] at h
        exact hpushed wm e h
      · refine Or.inr ⟨h1, ?_⟩
        simp only [List.mem_cons, List.mem_singleton, List.mem_nil_iff, or_false] at h2 ⊢
        rcases h2 with h | h | h <;> simp [h]
    · intro hes
      rw [r1, a1] at hes
      exact absurd hes hne
  · simp only [hact, if_false, Bool.false_eq_true]
    by_cases hp : wm.stateMachine.currentState = .Paused
    · have hne : ¬ wm.stateMachine.currentState = .EmergencyStop := by rw [hp]; decide
      simp only [hp, if_true, reduceCtorEq, if_false]
      refine ⟨by trivial, by trivial, by trivial, fun e he => Or.inl he, ?_⟩
      intro hes
      exact absurd hes hne
    · simp only [hp, if_false]
      by_cases he : wm.stateMachine.currentState = .EmergencyStop
      · simp only [he, if_true]
        obtain ⟨d1, d2, d3, d4, d5⟩ := drainInEmergency_frame wm δ
        refine ⟨d1, d2, d3, ?_, fun _ => d5⟩
        intro e hmem
        rw [d4] at hmem
        exact hpushed wm e hmem
      · simp only [he, if_false]
        exact ⟨by trivial, by trivial, by trivial, fun e he => Or.inl he, fun hes => absurd hes he⟩


/-- An operation that touches neither the state machine nor door, water and
motor, and queues no `CMD_OPEN_DOOR`, keeps the invariant. -/
theorem inv_of_same_parts (wm wm1 : WashingMachine)
    (hsm : wm1.stateMachine = wm.stateMachine) (hdoor : wm1.door = wm.door)
    (hwater : wm1.water = wm.water) (hmotor : wm1.motor = wm.motor)
    (hfault : wm1.currentFault = wm.currentFault ∨ wm1.currentFault = .None)
    (hq : ∀ e ∈ wm1.eventEngine.eventQueue,
      e ∈ wm.eventEngine.eventQueue ∨ e.type ≠ .CMD_OPEN_DOOR)
    (hinv : wm.Consistent ∧ wm.EmergencyUnlocked) :
    wm1.Consistent ∧ wm1.EmergencyUnlocked := by
  obtain ⟨hc, hu⟩ := hinv
  refine ⟨⟨?_, ?_, ?_, ?_⟩, ?_⟩
  · rw [hsm, hdoor]; exact hc.doorOpenState
  · intro e he
    rcases hq e he with h | h
    · exact hc.noDoorEvents e h
    · exact h
  · rw [hsm]; exact hc.pausedFrom
  · rcases hfault with h | h
    · rw [h]; exact hc.noFault
    · exact h
  · unfold WashingMachine.EmergencyUnlocked
    rw [hsm, hdoor, hwater, hmotor]
    exact hu

theorem mem_push (ee : EventEngine) (ev e : Event)
    (he : e ∈ (ee.pushEvent ev).eventQueue) : e ∈ ee.eventQueue ∨ e = ev := by
  simpa [EventEngine.pushEvent] using he

theorem inv_selectMode (wm : WashingMachine) (i : Int)
    (hinv : wm.Consistent ∧ wm.EmergencyUnlocked) :
    (wm.selectMode i).Consistent ∧ (wm.selectMode i).EmergencyUnlocked := by
  unfold WashingMachine.selectMode
  split
  · exact hinv
  · split
    · exact hinv
    · refine inv_of_same_parts wm _ rfl rfl rfl rfl (Or.inl rfl) ?_ hinv
      intro e he
      rcases mem_push _ _ _ he with h | h
      · exact Or.inl h
      · subst h; exact Or.inr (by simp)

theorem inv_setLoad (wm : WashingMachine) (kg : ℚ)
    (hinv : wm.Consistent ∧ wm.EmergencyUnlocked) :
    (wm.setLoad kg).Consistent ∧ (wm.setLoad kg).EmergencyUnlocked := by
  unfold WashingMachine.setLoad
  split
  · exact hinv
  · split
    · exact hinv
    · refine inv_of_same_parts wm _ rfl rfl rfl rfl (Or.inl rfl) ?_ hinv
      intro e he
      rcases mem_push _ _ _ he with h | h
      · exact Or.inl h
      · subst h; exact Or.inr (by simp)

theorem inv_start (wm : WashingMachine) (hinv : wm.Consistent ∧ wm.EmergencyUnlocked) :
    wm.start.Consistent ∧ wm.start.EmergencyUnlocked := by
  unfold WashingMachine.start
  split
  · exact hinv
  · refine inv_of_same_parts wm _ rfl rfl rfl rfl (Or.inl rfl) ?_ hinv
    intro e he
    rcases mem_push _ _ _ he with h | h
    · exact Or.inl h
    · subst h; exact Or.inr (by simp)

theorem inv_pause (wm : WashingMachine) (hinv : wm.Consistent ∧ wm.EmergencyUnlocked) :
    wm.pause.Consistent ∧ wm.pause.EmergencyUnlocked := by
  unfold WashingMachine.pause
  split
  · refine inv_of_same_parts wm _ rfl rfl rfl rfl (Or.inl rfl) ?_ hinv
    intro e he
    rcases mem_push _ _ _ he with h | h
    · exact Or.inl h
    · subst h; exact Or.inr (by simp)
  · exact hinv

theorem inv_emergencyStop (wm : WashingMachine)
    (hinv : wm.Consistent ∧ wm.EmergencyUnlocked) :
    wm.emergencyStop.Consistent ∧ wm.emergencyStop.EmergencyUnlocked := by
  unfold WashingMachine.emergencyStop
  refine inv_of_same_parts wm _ rfl rfl rfl rfl (Or.inl rfl) ?_ hinv
  intro e he
  rcases mem_push _ _ _ he with h | h
  · exact Or.inl h
  · subst h; exact Or.inr (by simp)

theorem inv_clearFault (wm : WashingMachine)
    (hinv : wm.Consistent ∧ wm.EmergencyUnlocked) :
    wm.clearFault.Consistent ∧ wm.clearFault.EmergencyUnlocked := by
  unfold WashingMachine.clearFault
  split
  · refine inv_of_same_parts wm _ rfl rfl rfl rfl (Or.inr rfl) ?_ hinv
    intro e he
    rcases mem_push _ _ _ he with h | h
    · exact Or.inl h
    · subst h; exact Or.inr (by simp)
  · exact hinv

/-- `CMD_OPEN_DOOR` leads nowhere but to `DoorOpen`, `CMD_CLOSE_DOOR` nowhere
but from `DoorOpen` to `Idle`. -/
theorem specTable_door_events (s d : State) :
    (specTable s .CMD_OPEN_DOOR = some d → d = .DoorOpen) ∧
    (specTable s .CMD_CLOSE_DOOR = some d → s = .DoorOpen ∧ d = .Idle) ∧
    (specTable s .CMD_CLOSE_DOOR = none → s ≠ .DoorOpen) := by
  cases s <;> cases d <;> decide

theorem door_openDoor_unlocked (d : DoorSystem) (hl : d.locked = false) :
    d.openDoor.2.1 = { d with opened := true } := by
  obtain ⟨o, l, c⟩ := d
  simp only at hl
  subst hl
  cases o <;> rfl

theorem inv_openDoor (wm : WashingMachine) (hinv : wm.Consistent ∧ wm.EmergencyUnlocked) :
    wm.openDoor.Consistent ∧ wm.openDoor.EmergencyUnlocked := by
  obtain ⟨hc, hu⟩ := hinv
  unfold WashingMachine.openDoor
  split
  · rename_i hcan
    have hl : wm.door.locked = false := by simpa [DoorSystem.canOpen] using hcan
    have hdoor : wm.door.openDoor.2.1 = { wm.door with opened := true } :=
      door_openDoor_unlocked wm.door hl
    rw [hdoor]
    dsimp only
    have hc1 : WashingMachine.Consistent { wm with door := { wm.door with opened := true } } :=
      ⟨fun _ => rfl, hc.noDoorEvents, hc.pausedFrom, hc.noFault⟩
    refine ⟨consistent_smTransition _ _ hc1 (fun _ => rfl), ?_⟩
    rw [smTransition_eq]
    cases hs : specTable wm.stateMachine.currentState .CMD_OPEN_DOOR with
    | none =>
      intro hes hlev hrpm
      exact hl
    | some d =>
      intro hes
      have hd := (specTable_door_events wm.stateMachine.currentState d).1 hs
      have hcur := (smForceState_frame
        { wm with door := { wm.door with opened := true } } d).1
      simp only [hs] at hes
      rw [hcur, hd] at hes
      exact absurd hes (by decide)
  · exact ⟨hc, hu⟩

theorem inv_closeDoor (wm : WashingMachine) (hinv : wm.Consistent ∧ wm.EmergencyUnlocked) :
    wm.closeDoor.Consistent ∧ wm.closeDoor.EmergencyUnlocked := by
  obtain ⟨hc, hu⟩ := hinv
  unfold WashingMachine.closeDoor
  dsimp only
  rw [smTransition_eq]
  have hlocked : wm.door.closeDoor.2.1.locked = wm.door.locked := by
    unfold DoorSystem.closeDoor
    split <;> rfl
  cases hs : specTable wm.stateMachine.currentState .CMD_CLOSE_DOOR with
  | none =>
    have hne := (specTable_door_events wm.stateMachine.currentState .Idle).2.2 hs
    simp only [hs]
    refine ⟨⟨fun h => absurd h hne, hc.noDoorEvents, hc.pausedFrom, hc.noFault⟩, ?_⟩
    intro hes hlev hrpm
    show wm.door.closeDoor.2.1.locked = false
    rw [hlocked]
    exact hu hes hlev hrpm
  | some d =>
    have hd := ((specTable_door_events wm.stateMachine.currentState d).2.1 hs).2
    simp only [hs]
    refine ⟨consistent_smForceState _ d hc.noDoorEvents hc.pausedFrom hc.noFault
      (fun h => by rw [hd] at h; cases h) (fun h => by rw [hd] at h; cases h), ?_⟩
    intro hes
    rw [(smForceState_frame _ d).1, hd] at hes
    exact absurd hes (by decide)


/-- The start logic of a phase is what the entry observer runs for it. -/
theorem startPhase_frame (wm : WashingMachine) (r : State) :
    (wm.startPhase r).stateMachine = wm.stateMachine ∧
    (wm.startPhase r).door.opened = wm.door.opened ∧
    (wm.startPhase r).eventEngine = wm.eventEngine ∧
    (wm.startPhase r).currentFault = wm.currentFault := by
  cases r <;> try exact ⟨rfl, rfl, rfl, rfl⟩
  refine ⟨rfl, ?_, ?_, rfl⟩
  · exact (onStateEnter_frame .Filling .Idle wm).2.2.1
  · exact (onStateEnter_frame .Filling .Idle wm).2.2.2.1

/-- `resume` is `forceState` to the remembered phase followed by that phase's
start logic. -/
theorem resume_eq (wm : WashingMachine) :
    wm.resume =
      if wm.stateMachine.currentState = .Paused then
        (wm.smForceState wm.stateMachine.pausedFromState).startPhase
          wm.stateMachine.pausedFromState
      else wm := by
  unfold WashingMachine.resume
  simp only [StateMachine.getCurrentState, StateMachine.getPausedFromState]
  split
  · cases wm.stateMachine.pausedFromState <;> rfl
  · rfl

theorem inv_resume (wm : WashingMachine) (hinv : wm.Consistent ∧ wm.EmergencyUnlocked) :
    wm.resume.Consistent ∧ wm.resume.EmergencyUnlocked := by
  obtain ⟨hc, hu⟩ := hinv
  rw [resume_eq]
  split
  · have hr := hc.pausedFrom
    have hforce := consistent_smForceState wm wm.stateMachine.pausedFromState
      hc.noDoorEvents hc.pausedFrom hc.noFault
      (fun h => by rw [h] at hr; exact absurd hr (by decide))
      (fun h => by rw [h] at hr; exact absurd hr (by decide))
    obtain ⟨f1, f2, f3, f4⟩ := startPhase_frame
      (wm.smForceState wm.stateMachine.pausedFromState) wm.stateMachine.pausedFromState
    refine ⟨⟨?_, ?_, ?_, ?_⟩, ?_⟩
    · rw [f1, f2]; exact hforce.doorOpenState
    · rw [f3]; exact hforce.noDoorEvents
    · rw [f1]; exact hforce.pausedFrom
    · rw [f4]; exact hforce.noFault
    · intro hes
      rw [f1, (smForceState_frame wm _).1] at hes
      rw [hes] at hr
      exact absurd hr (by decide)
  · exact ⟨hc, hu⟩

theorem inv_stop (wm : WashingMachine) (hinv : wm.Consistent ∧ wm.EmergencyUnlocked) :
    wm.stop.Consistent ∧ wm.stop.EmergencyUnlocked := by
  obtain ⟨hc, hu⟩ := hinv
  unfold WashingMachine.stop
  dsimp only
  split
  · exact ⟨hc, hu⟩
  · split
    · split
      · refine ⟨consistent_smForceState _ .Draining hc.noDoorEvents hc.pausedFrom hc.noFault
          (fun h => by cases h) (fun h => by cases h), ?_⟩
        intro hes
        rw [(smForceState_frame _ _).1] at hes
        cases hes
      · refine ⟨consistent_smForceState _ .Idle hc.noDoorEvents hc.pausedFrom hc.noFault
          (fun h => by cases h) (fun h => by cases h), ?_⟩
        intro hes
        rw [(smForceState_frame _ _).1] at hes
        cases hes
    · refine inv_of_same_parts wm _ rfl rfl rfl rfl (Or.inl rfl) ?_ ⟨hc, hu⟩
      intro e he
      rcases mem_push _ _ _ he with h | h
      · exact Or.inl h
      · subst h; exact Or.inr (by simp)

theorem inv_tick (wm wm1 : WashingMachine) (δ : ℚ)
    (hinv : wm.Consistent ∧ wm.EmergencyUnlocked)
    (hstep : wm.step (.tick δ) = some wm1) :
    wm1.Consistent ∧ wm1.EmergencyUnlocked := by
  simp only [WashingMachine.step, Option.map_eq_some'] at hstep
  obtain ⟨wmP, hP, rfl⟩ := hstep
  have hcP := consistent_processEvents wm wmP hinv.1 hP
  obtain ⟨u1, u2, u3, u4, u5⟩ := updateSimulation_frame wmP δ
  refine ⟨⟨?_, ?_, ?_, ?_⟩, u5⟩
  · rw [u1, u2]; exact hcP.doorOpenState
  · intro e he
    rcases u4 e he with h | ⟨_, h⟩
    · exact hcP.noDoorEvents e h
    · simp only [List.mem_cons, List.mem_singleton, List.mem_nil_iff, or_false] at h
      rcases h with h | h | h | h | h <;> rw [h] <;> decide
  · rw [u1]; exact hcP.pausedFrom
  · rw [u3]; exact hcP.noFault

/-- Every action keeps the invariant. -/
theorem inv_step (wm wm1 : WashingMachine) (a : Action)
    (hinv : wm.Consistent ∧ wm.EmergencyUnlocked) (hstep : wm.step a = some wm1) :
    wm1.Consistent ∧ wm1.EmergencyUnlocked := by
  cases a with
  | tick δ => exact inv_tick wm wm1 δ hinv hstep
  | openDoor => cases hstep; exact inv_openDoor wm hinv
  | closeDoor => cases hstep; exact inv_closeDoor wm hinv
  | selectMode i => cases hstep; exact inv_selectMode wm i hinv
  | setLoad kg => cases hstep; exact inv_setLoad wm kg hinv
  | start => cases hstep; exact inv_start wm hinv
  | pause => cases hstep; exact inv_pause wm hinv
  | resume => cases hstep; exact inv_resume wm hinv
  | stop => cases hstep; exact inv_stop wm hinv
  | emergencyStop => cases hstep; exact inv_emergencyStop wm hinv
  | clearFault => cases hstep; exact inv_clearFault wm hinv

/-- The freshly initialized machine satisfies the invariant. -/
theorem inv_init (configFile : Option (Option (List WashMode))) :
    (WashingMachine.new.init configFile).Consistent ∧
      (WashingMachine.new.init configFile).EmergencyUnlocked := by
  refine ⟨⟨?_, ?_, ?_, ?_⟩, ?_⟩
  · intro _; cases configFile <;> rfl
  · intro e he
    have : (WashingMachine.new.init configFile).eventEngine.eventQueue = [] := by
      cases configFile <;> rfl
    rw [this] at he
    cases he
  · have : (WashingMachine.new.init configFile).stateMachine.pausedFromState = .Idle := by
      cases configFile <;> rfl
    rw [this]; decide
  · cases configFile <;> rfl
  · intro hes
    have : (WashingMachine.new.init configFile).stateMachine.currentState = .Idle := by
      cases configFile <;> rfl
    rw [this] at hes
    cases hes

/-- Every reachable state satisfies the invariant. -/
theorem reachable_inv (wm : WashingMachine) (hr : Reachable wm) :
    wm.Consistent ∧ wm.EmergencyUnlocked := by
  obtain ⟨configFile, actions, hnn, hrun⟩ := hr
  exact run_induct (fun x => x.Consistent ∧ x.EmergencyUnlocked)
    (fun a b act ha _ hs => inv_step a b act ha hs) actions _ wm (inv_init configFile) hnn hrun

/-! ## The fault code -/

theorem smTransition_currentFault (wm : WashingMachine) (e : EventType) :
    (wm.smTransition e).2.currentFault = wm.currentFault := by
  rw [smTransition_eq]
  cases specTable wm.stateMachine.currentState e with
  | none => rfl
  | some d => exact (smForceState_frame wm d).2.2.2.2

/-- C11, as stated, fails: on the machine brought to `Filling`, `handleEvent`
processes `FAULT_WATER_UNAVAILABLE` (the machine enters `Fault`) and the fault
reported by `getStatus` is still `None`, not `WaterUnavailable`. -/
theorem fault_event_leaves_fault_code_none :
    (((WashingMachine.new.init none).run fillingTrace).bind fun wm =>
        wm.handleEvent { type := .FAULT_WATER_UNAVAILABLE, data := .none }).map
      (fun wm => (wm.stateMachine.currentState, wm.getStatus.fault)) =
      some (.Fault, .None) := by
  decide!

/-- C11 (amended): the orchestrator's fault code is never set by event
handling: for every orchestrator state and every event, the five fault events
included, the fault reported by `getStatus` after `handleEvent` is the one
reported before; it is `None` in every state reachable from the freshly
initialized machine; and `clearFault()` resets it to `None` in `Fault` and
leaves it as it is in every other state. -/
theorem fault_code_never_set :
    (∀ (wm wm1 : WashingMachine) (ev : Event), wm.handleEvent ev = some wm1 →
      wm1.getStatus.fault = wm.getStatus.fault) ∧
    (∀ wm : WashingMachine, Reachable wm → wm.getStatus.fault = .None) ∧
    (∀ wm : WashingMachine, wm.clearFault.getStatus.fault =
      if wm.stateMachine.currentState = .Fault then .None else wm.getStatus.fault) := by
  refine ⟨?_, ?_, ?_⟩
  · intro wm wm1 ev he
    obtain ⟨i, x, rfl⟩ := handleEvent_spec wm wm1 ev he
    exact smTransition_currentFault _ _
  · intro wm hr
    exact (reachable_inv wm hr).1.noFault
  · intro wm
    unfold WashingMachine.clearFault
    simp only [StateMachine.getCurrentState]
    split <;> rfl

/-- A concrete instance of `fault_code_never_set`: `washingMachine` is
reachable and reports no fault. -/
theorem fault_code_never_set_witness :
    Reachable washingMachine ∧ washingMachine.getStatus.fault = .None :=
  have hr : Reachable washingMachine := ⟨none, washingTrace, by decide!, by decide!⟩
  ⟨hr, fault_code_never_set.2.1 washingMachine hr⟩

/-! ## Door commands of the orchestrator -/

/-- C13, as stated, fails: on the freshly initialized machine the door is
already open and the state is `Idle`; `openDoor()` moves the operating state
to `DoorOpen`. -/
theorem openDoor_on_fresh_machine_changes_state :
    (WashingMachine.new.init none).door.isOpen = true ∧
    (WashingMachine.new.init none).stateMachine.currentState = .Idle ∧
    (WashingMachine.new.init none).openDoor.stateMachine.currentState = .DoorOpen := by
  decide

theorem specTable_open (s : State) :
    specTable s .CMD_OPEN_DOOR =
      if s ∈ [State.Idle, .Ready, .Completed] then some .DoorOpen else none := by
  cases s <;> rfl

/-- C13 (amended): in every reachable orchestrator state, `closeDoor` while the
door is already closed changes nothing at all (no event, same door, same
operating state); `openDoor` while the door is already open queues no event and
leaves the door as it is, and it leaves the operating state unchanged except
that from `Idle`, `Ready` or `Completed` (door not locked) the state machine
takes its `CMD_OPEN_DOOR` edge to `DoorOpen`. -/
theorem door_commands_when_already_there :
    (∀ wm : WashingMachine, Reachable wm → wm.door.opened = false → wm.closeDoor = wm) ∧
    (∀ wm : WashingMachine, wm.door.opened = true →
      wm.openDoor.door = wm.door ∧ wm.openDoor.eventEngine = wm.eventEngine ∧
      wm.openDoor.stateMachine.currentState =
        if wm.door.locked = false ∧
            wm.stateMachine.currentState ∈ [State.Idle, .Ready, .Completed] then
          .DoorOpen
        else wm.stateMachine.currentState) := by
  constructor
  · intro wm hr hclosed
    have hne : wm.stateMachine.currentState ≠ .DoorOpen := by
      intro h
      have := (reachable_inv wm hr).1.doorOpenState h
      rw [hclosed] at this
      cases this
    have hdoor : wm.door.closeDoor.2.1 = wm.door := by
      unfold DoorSystem.closeDoor
      simp [hclosed]
    have hs : specTable wm.stateMachine.currentState .CMD_CLOSE_DOOR = none := by
      revert hne
      cases wm.stateMachine.currentState <;> decide
    unfold WashingMachine.closeDoor
    dsimp only
    rw [hdoor, smTransition_eq]
    simp only [hs]
  · intro wm hopen
    cases hl : wm.door.locked
    · have hdoor : wm.door.openDoor.2.1 = wm.door := by
        unfold DoorSystem.openDoor
        simp [hl, hopen]
      have hopenDoor : wm.openDoor = (wm.smTransition .CMD_OPEN_DOOR).2 := by
        unfold WashingMachine.openDoor
        simp only [DoorSystem.canOpen, hl, Bool.not_false, if_true, hdoor]
      rw [hopenDoor, smTransition_eq, specTable_open]
      by_cases hmem : wm.stateMachine.currentState ∈ [State.Idle, .Ready, .Completed]
      · rw [if_pos hmem, if_pos ⟨rfl, hmem⟩]
        show (wm.smForceState .DoorOpen).door = _ ∧ _
        rw [smForceState_eq]
        exact ⟨rfl, rfl, rfl⟩
      · rw [if_neg hmem, if_neg (fun h => hmem h.2)]
        exact ⟨rfl, rfl, rfl⟩
    · have hopenDoor : wm.openDoor = wm := by
        unfold WashingMachine.openDoor
        simp [DoorSystem.canOpen, hl]
      rw [hopenDoor]
      simp

/-- A concrete instance of `door_commands_when_already_there`: `readyMachine`
is reachable and has the door closed, and `closeDoor` returns it unchanged. -/
theorem door_commands_when_already_there_witness :
    Reachable readyMachine ∧ readyMachine.door.opened = false ∧
    readyMachine.closeDoor = readyMachine :=
  have hr : Reachable readyMachine :=
    ⟨none, [.closeDoor, .setLoad 3, .selectMode 0, .tick 0], by decide!, by decide!⟩
  ⟨hr, by decide!, door_commands_when_already_there.1 readyMachine hr (by decide!)⟩

/-! ## Scenarios -/

/-- C14 (Scenario A): on the freshly initialized machine the door is `Open` and
the state is `Idle`; `closeDoor()` makes the door `ClosedUnlocked`;
`selectMode(0)` followed by `processEvents` gives state `Ready`; then, with the
load set to 3 kg and the reservoir at or above the threshold, `start()`
followed by `processEvents` gives state `Filling` with the door `ClosedLocked`. -/
theorem scenario_A :
    (WashingMachine.new.init none).door.getStatus = .Open ∧
    (WashingMachine.new.init none).stateMachine.currentState = .Idle ∧
    (WashingMachine.new.init none).closeDoor.door.getStatus = .ClosedUnlocked ∧
    (((WashingMachine.new.init none).closeDoor.selectMode 0).processEvents.map fun wm =>
        wm.stateMachine.currentState) = some .Ready ∧
    ((((WashingMachine.new.init none).closeDoor.selectMode 0).processEvents.map fun wm =>
        ((wm.setLoad 3).loadWeight, decide ((wm.setLoad 3).water.reservoirLevel ≥
          (wm.setLoad 3).water.lowThreshold))) = some (3, true)) ∧
    ((((WashingMachine.new.init none).closeDoor.selectMode 0).processEvents.bind fun wm =>
        (wm.setLoad 3).start.processEvents).map fun wm =>
        (wm.stateMachine.currentState, wm.door.getStatus)) =
      some (.Filling, .ClosedLocked) := by
  decide!

/-- C16, as stated, fails: after `emergencyPendingTrace` the machine is in
`EmergencyStop` with water level 0 and motor RPM 0 (door closed, unlocked), with
`CMD_SELECT_MODE` and `CMD_START` still queued; `stop()` followed by
`processEvents` then runs `EmergencyStop -> Idle -> Ready -> Filling -> Draining`
and leaves the machine in `Draining` with the door locked, not in `Idle`. -/
theorem stop_in_emergency_with_pending_start :
    (((WashingMachine.new.init none).run emergencyPendingTrace).map fun wm =>
        (wm.stateMachine.currentState, wm.water.currentLevel, wm.motor.currentRPM,
          wm.door.getStatus)) =
      some (.EmergencyStop, 0, 0, .ClosedUnlocked) ∧
    (((WashingMachine.new.init none).run emergencyPendingTrace).bind fun wm =>
        wm.stop.processEvents).map
      (fun wm => (wm.stateMachine.currentState, wm.door.getStatus)) =
      some (.Draining, .ClosedLocked) := by
  decide!

/-! ## Pause and resume -/

/-- C19, as stated, fails: after `washCompletePendingTrace` the machine is in
`Washing` with `SYS_WASH_COMPLETE` queued; `pause()` followed by
`processEvents` first moves on to `Rinsing` and then pauses, so paused-from is
`Rinsing`, and `resume()` goes to `Rinsing`, not back to `Washing`. -/
theorem pause_with_pending_wash_complete :
    (((WashingMachine.new.init none).run washCompletePendingTrace).map fun wm =>
        (wm.stateMachine.currentState, wm.eventEngine.eventQueue.map Event.getType)) =
      some (.Washing, [.SYS_WASH_COMPLETE]) ∧
    (((WashingMachine.new.init none).run washCompletePendingTrace).bind fun wm =>
        wm.pause.processEvents).map
      (fun wm => (wm.stateMachine.currentState, wm.stateMachine.pausedFromState,
        wm.resume.stateMachine.currentState)) =
      some (.Paused, .Rinsing, .Rinsing) := by
  decide!

/-- The start logic of a pausable phase resets the phase timing and stores the
phase's estimate. -/
theorem startPhase_resets_timing (wm : WashingMachine) (p : State)
    (hp : p ∈ [State.Filling, .Washing, .Rinsing, .Spinning]) :
    (wm.startPhase p).phaseTimeElapsed = 0 ∧
    (wm.startPhase p).currentPhaseTime = (wm.startPhase p).phaseEstimate p ∧
    (wm.startPhase p).stateMachine = wm.stateMachine := by
  simp only [List.mem_cons, List.mem_singleton, List.mem_nil_iff, or_false] at hp
  rcases hp with rfl | rfl | rfl | rfl <;> exact ⟨rfl, rfl, rfl⟩

/-- For a pausable phase the entry observer runs the phase's start logic. -/
theorem onStateEnter_eq_startPhase (wm : WashingMachine) (p b : State)
    (hp : p ∈ [State.Filling, .Washing, .Rinsing, .Spinning]) :
    WashingMachine.onStateEnter p b wm = wm.startPhase p := by
  simp only [List.mem_cons, List.mem_singleton, List.mem_nil_iff, or_false] at hp
  rcases hp with rfl | rfl | rfl | rfl <;> rfl

/-- `resume` in `Paused`: the machine is forced to the remembered phase, whose
start logic then runs twice, once as entry observer and once from `resume`. -/
theorem resume_from_paused (wm : WashingMachine) (p : State)
    (hp : p ∈ [State.Filling, .Washing, .Rinsing, .Spinning])
    (hcur : wm.stateMachine.currentState = .Paused)
    (hpf : wm.stateMachine.pausedFromState = p) :
    wm.resume =
      WashingMachine.startPhase
        (WashingMachine.startPhase
          { wm with stateMachine :=
              { currentState := p, previousState := .Paused, pausedFromState := p } } p) p := by
  rw [resume_eq, if_pos hcur, hpf, smForceState_eq, onStateEnter_eq_startPhase _ _ _ hp,
    hcur, hpf]

/-- C19 (amended): for every phase `P` in `Filling`, `Washing`, `Rinsing`,
`Spinning` and every orchestrator state in `P` with an empty event queue,
`pause()` followed by `processEvents` returns with state `Paused` and
paused-from `P`; a following `resume()` forces the state back to exactly `P`
(the table's `CMD_RESUME` edge would lead to `Filling`), runs `P`'s start logic
(twice: as entry observer and from `resume` itself), and so restarts the phase
timing from zero with a freshly computed estimate. -/
theorem pause_resume_round_trip (wm : WashingMachine) (p : State)
    (hp : p ∈ [State.Filling, .Washing, .Rinsing, .Spinning])
    (hcur : wm.stateMachine.currentState = p)
    (hqueue : wm.eventEngine.eventQueue = []) :
    ∃ wm1, wm.pause.processEvents = some wm1 ∧
      wm1.stateMachine.currentState = .Paused ∧
      wm1.stateMachine.pausedFromState = p ∧
      wm1.resume.stateMachine.currentState = p ∧
      wm1.resume =
        WashingMachine.startPhase
          (WashingMachine.startPhase
            { wm1 with stateMachine :=
                { currentState := p, previousState := .Paused, pausedFromState := p } } p) p ∧
      wm1.resume.phaseTimeElapsed = 0 ∧
      wm1.resume.currentPhaseTime = wm1.resume.phaseEstimate p ∧
      specTable .Paused .CMD_RESUME = some .Filling := by
  have hactive : wm.stateMachine.isActiveState = true := by
    simp only [List.mem_cons, List.mem_singleton, List.mem_nil_iff, or_false] at hp
    rcases hp with h | h | h | h <;> subst h <;> simp [StateMachine.isActiveState, hcur]
  have hpause : wm.pause =
      { wm with eventEngine := wm.eventEngine.pushEventType .CMD_PAUSE } := by
    unfold WashingMachine.pause
    simp [hactive]
  have hq : wm.pause.eventEngine.eventQueue = [{ type := .CMD_PAUSE, data := .none }] := by
    rw [hpause]
    simp [EventEngine.pushEventType, EventEngine.pushEvent, hqueue]
  have hs : specTable p .CMD_PAUSE = some .Paused := by
    simp only [List.mem_cons, List.mem_singleton, List.mem_nil_iff, or_false] at hp
    rcases hp with h | h | h | h <;> subst h <;> rfl
  have hs2 : specTable
      (WashingMachine.stateMachine
        { wm.pause with
          eventEngine := { wm.pause.eventEngine with eventQueue := [] } }).currentState
      .CMD_PAUSE = some .Paused := by
    show specTable wm.pause.stateMachine.currentState .CMD_PAUSE = some .Paused
    rw [hpause]
    show specTable wm.stateMachine.currentState .CMD_PAUSE = some .Paused
    rw [hcur, hs]
  refine ⟨_, processEvents_single _ _ hq, ?_⟩
  rw [smTransition_eq]
  simp only [hs2, smForceState_eq]
  rw [hpause]
  have hprev : (WashingMachine.stateMachine
      { wm with eventEngine := wm.eventEngine.pushEventType .CMD_PAUSE }).currentState = p :=
    hcur
  have hres := resume_from_paused
    (WashingMachine.onStateEnter .Paused
      (WashingMachine.stateMachine
        { wm with eventEngine :=
            { (wm.eventEngine.pushEventType .CMD_PAUSE) with eventQueue := [] } }).currentState
      { wm with
        eventEngine := { (wm.eventEngine.pushEventType .CMD_PAUSE) with eventQueue := [] }
        stateMachine :=
          { currentState := .Paused, previousState := wm.stateMachine.currentState,
            pausedFromState := wm.stateMachine.pausedFromState } }) p hp rfl hcur
  obtain ⟨t1, t2, t3⟩ := startPhase_resets_timing
    (WashingMachine.startPhase
      { (WashingMachine.onStateEnter .Paused
          (WashingMachine.stateMachine
            { wm with eventEngine :=
                { (wm.eventEngine.pushEventType .CMD_PAUSE) with
                  eventQueue := [] } }).currentState
          { wm with
            eventEngine := { (wm.eventEngine.pushEventType .CMD_PAUSE) with eventQueue := [] }
            stateMachine :=
              { currentState := .Paused, previousState := wm.stateMachine.currentState,
                pausedFromState := wm.stateMachine.pausedFromState } }) with
        stateMachine :=
          { currentState := p, previousState := .Paused, pausedFromState := p } } p) p hp
  refine ⟨rfl, hcur, ?_, hres, ?_, ?_, rfl⟩
  · rw [hres, t3, (startPhase_resets_timing _ p hp).2.2]
  · rw [hres]; exact t1
  · rw [hres]; exact t2

/-- A concrete instance of `pause_resume_round_trip`: `washingMachine`, paused
and resumed, is in `Washing` again with phase time 0. -/
theorem pause_resume_round_trip_witness :
    washingMachine.stateMachine.currentState = .Washing ∧
    washingMachine.eventEngine.eventQueue = [] ∧
    ∃ wm1, washingMachine.pause.processEvents = some wm1 ∧
      wm1.stateMachine.pausedFromState = .Washing ∧
      wm1.resume.stateMachine.currentState = .Washing ∧
      wm1.resume.phaseTimeElapsed = 0 :=
  ⟨by decide!, by decide!,
    by
      obtain ⟨wm1, h1, _, h3, h4, _, h6, _⟩ :=
        pause_resume_round_trip washingMachine .Washing (by decide) (by decide!) (by decide!)
      exact ⟨wm1, h1, h3, h4, h6⟩⟩

/-! ## Operator commands: mode, load, and the state machine -/

/-- C21: `selectMode(i)` returns the machine unchanged (operating state, current
mode index and event queue included) when `i < 0`, when `i` is at least the
number of configured programs, or when the operating state is active; in every
other case it sets the current mode index to `i`, appends exactly one
`CMD_SELECT_MODE` event carrying `i` to the queue and changes nothing else. -/
theorem selectMode_contract (wm : WashingMachine) (i : Int) :
    ((i < 0 ∨ i ≥ (wm.config.modes.length : Int) ∨ wm.stateMachine.isActiveState = true) →
      wm.selectMode i = wm) ∧
    (¬(i < 0 ∨ i ≥ (wm.config.modes.length : Int) ∨ wm.stateMachine.isActiveState = true) →
      (wm.selectMode i).currentModeIndex = i ∧
      (wm.selectMode i).eventEngine.eventQueue =
        wm.eventEngine.eventQueue ++ [{ type := .CMD_SELECT_MODE, data := .int i }] ∧
      (wm.selectMode i).stateMachine = wm.stateMachine ∧
      wm.selectMode i =
        { wm with
          currentModeIndex := i
          eventEngine := wm.eventEngine.pushEventInt .CMD_SELECT_MODE i }) := by
  constructor
  · intro h
    unfold WashingMachine.selectMode
    rcases h with h | h | h
    · rw [if_pos (Or.inl h)]
    · have h2 : i < 0 ∨ i ≥ wm.config.getModeCount := Or.inr h
      rw [if_pos h2]
    · by_cases h2 : i < 0 ∨ i ≥ wm.config.getModeCount
      · rw [if_pos h2]
      · rw [if_neg h2, if_pos h]
  · intro h
    have h1 : ¬(i < 0 ∨ i ≥ wm.config.getModeCount) := fun h' =>
      h (h'.elim Or.inl (fun x => Or.inr (Or.inl x)))
    have h2 : ¬(wm.stateMachine.isActiveState = true) := fun h' => h (Or.inr (Or.inr h'))
    unfold WashingMachine.selectMode
    rw [if_neg h1, if_neg h2]
    exact ⟨rfl, rfl, rfl, rfl⟩

/-- A concrete instance of `selectMode_contract`: `readyMachine` accepts
`selectMode(1)`; `washingMachine` (state `Washing`) rejects it. -/
theorem selectMode_contract_witness :
    readyMachine.stateMachine.currentState = .Ready ∧
    (readyMachine.selectMode 1).currentModeIndex = 1 ∧
    (readyMachine.selectMode 1).eventEngine.eventQueue =
      [{ type := .CMD_SELECT_MODE, data := .int 1 }] ∧
    washingMachine.selectMode 1 = washingMachine :=
  ⟨by decide!,
    ((selectMode_contract readyMachine 1).2 (by decide!)).1,
    ((selectMode_contract readyMachine 1).2 (by decide!)).2.1,
    (selectMode_contract washingMachine 1).1 (Or.inr (Or.inr (by decide!)))⟩

/-- C22: `setLoad(kg)` returns the machine unchanged (load weight and event
queue included) when `kg < 0` or when the operating state is active; for every
`kg >= 0` in a non-active state, above the rated 6 kg too, the load weight
becomes `kg`, exactly one `CMD_SET_LOAD` event carrying `kg` is appended to the
queue and nothing else changes. -/
theorem setLoad_contract (wm : WashingMachine) (kg : ℚ) :
    ((kg < 0 ∨ wm.stateMachine.isActiveState = true) → wm.setLoad kg = wm) ∧
    (0 ≤ kg → wm.stateMachine.isActiveState = false →
      (wm.setLoad kg).loadWeight = kg ∧
      (wm.setLoad kg).eventEngine.eventQueue =
        wm.eventEngine.eventQueue ++ [{ type := .CMD_SET_LOAD, data := .float kg }] ∧
      wm.setLoad kg =
        { wm with
          loadWeight := kg
          eventEngine := wm.eventEngine.pushEventFloat .CMD_SET_LOAD kg }) := by
  constructor
  · intro h
    unfold WashingMachine.setLoad
    by_cases ha : wm.stateMachine.isActiveState = true
    · rw [if_pos ha]
    · rw [if_neg ha]
      rcases h with h | h
      · rw [if_pos h]
      · exact absurd h ha
  · intro hk ha
    unfold WashingMachine.setLoad
    rw [if_neg (by simp [ha]), if_neg (not_lt.mpr hk)]
    exact ⟨rfl, rfl, rfl⟩

/-- A concrete instance of `setLoad_contract`: `readyMachine` accepts 8 kg and
rejects -1 kg; `washingMachine` rejects 2 kg. -/
theorem setLoad_contract_witness :
    (readyMachine.setLoad 8).loadWeight = 8 ∧
    (readyMachine.setLoad 8).eventEngine.eventQueue =
      [{ type := .CMD_SET_LOAD, data := .float 8 }] ∧
    readyMachine.setLoad (-1) = readyMachine ∧
    washingMachine.setLoad 2 = washingMachine :=
  ⟨((setLoad_contract readyMachine 8).2 (by decide!) (by decide!)).1,
    ((setLoad_contract readyMachine 8).2 (by decide!) (by decide!)).2.1,
    (setLoad_contract readyMachine (-1)).1 (Or.inl (by decide!)),
    (setLoad_contract washingMachine 2).1 (Or.inr (by decide!))⟩

/-- C23, as stated, fails: on `readyMachine` (state `Ready`, queue empty)
`openDoor()` moves the state machine to `DoorOpen` in the caller's context,
without queueing any event, and `closeDoor()` then moves it to `Idle`. -/
theorem openDoor_changes_state_before_drain :
    readyMachine.getCurrentState = .Ready ∧
    readyMachine.eventEngine.eventQueue = [] ∧
    readyMachine.openDoor.getCurrentState = .DoorOpen ∧
    readyMachine.openDoor.eventEngine.eventQueue = [] ∧
    readyMachine.openDoor.closeDoor.getCurrentState = .Idle := by
  decide!

/-- The `CMD_CLOSE_DOOR` column of the table. -/
theorem specTable_close (s : State) :
    specTable s .CMD_CLOSE_DOOR = if s = .DoorOpen then some .Idle else none := by
  cases s <;> rfl

/-- C23 (amended): `selectMode`, `setLoad`, `start`, `pause`, `emergencyStop`
and `clearFault` leave the state machine as it is; `openDoor` and `closeDoor`
call `transition` themselves: `openDoor` moves the current state to `DoorOpen`
when the door is not locked and the state is `Idle`, `Ready` or `Completed`,
`closeDoor` moves `DoorOpen` to `Idle`, and in every other state they leave
the current state unchanged. -/
theorem state_changes_outside_drain (wm : WashingMachine) :
    (∀ i, (wm.selectMode i).stateMachine = wm.stateMachine) ∧
    (∀ kg, (wm.setLoad kg).stateMachine = wm.stateMachine) ∧
    wm.start.stateMachine = wm.stateMachine ∧
    wm.pause.stateMachine = wm.stateMachine ∧
    wm.emergencyStop.stateMachine = wm.stateMachine ∧
    wm.clearFault.stateMachine = wm.stateMachine ∧
    wm.openDoor.getCurrentState =
      (if wm.door.locked = false ∧
          wm.getCurrentState ∈ [State.Idle, .Ready, .Completed] then .DoorOpen
        else wm.getCurrentState) ∧
    wm.closeDoor.getCurrentState =
      (if wm.getCurrentState = .DoorOpen then .Idle else wm.getCurrentState) := by
  refine ⟨?_, ?_, ?_, ?_, ?_, ?_, ?_, ?_⟩
  · intro i
    unfold WashingMachine.selectMode
    split_ifs <;> rfl
  · intro kg
    unfold WashingMachine.setLoad
    split_ifs <;> rfl
  · unfold WashingMachine.start
    split_ifs <;> rfl
  · unfold WashingMachine.pause
    split_ifs <;> rfl
  · rfl
  · unfold WashingMachine.clearFault
    split_ifs <;> rfl
  · unfold WashingMachine.getCurrentState StateMachine.getCurrentState
    cases hl : wm.door.locked
    · have hopenDoor : wm.openDoor =
          ({ wm with door := wm.door.openDoor.2.1 }.smTransition .CMD_OPEN_DOOR).2 := by
        unfold WashingMachine.openDoor
        simp only [DoorSystem.canOpen, hl, Bool.not_false, if_true]
      rw [hopenDoor, smTransition_eq]
      have hs : specTable
          (WashingMachine.stateMachine { wm with door := wm.door.openDoor.2.1 }).currentState
          .CMD_OPEN_DOOR =
          if wm.stateMachine.currentState ∈ [State.Idle, .Ready, .Completed] then
            some .DoorOpen else none := specTable_open _
      rw [hs]
      by_cases hmem : wm.stateMachine.currentState ∈ [State.Idle, .Ready, .Completed]
      · rw [if_pos hmem, if_pos ⟨rfl, hmem⟩]
        exact (smForceState_frame _ .DoorOpen).1
      · rw [if_neg hmem, if_neg (fun h => hmem h.2)]
    · have hopenDoor : wm.openDoor = wm := by
        unfold WashingMachine.openDoor
        simp [DoorSystem.canOpen, hl]
      rw [hopenDoor]
      simp
  · unfold WashingMachine.getCurrentState StateMachine.getCurrentState
    unfold WashingMachine.closeDoor
    dsimp only
    rw [smTransition_eq]
    have hs : specTable
        (WashingMachine.stateMachine { wm with door := wm.door.closeDoor.2.1 }).currentState
        .CMD_CLOSE_DOOR =
        if wm.stateMachine.currentState = .DoorOpen then some .Idle else none :=
      specTable_close _
    rw [hs]
    by_cases hd : wm.stateMachine.currentState = .DoorOpen
    · rw [if_pos hd, if_pos hd]
      exact (smForceState_frame _ .Idle).1
    · rw [if_neg hd, if_neg hd]

/-- After `emergencyStop()` every `update` returns at its first test. -/
theorem emergencyStop_updates (m : MotorSystem) (ds : List ℚ) :
    (m.emergencyStop).updates ds = m.emergencyStop := by
  unfold MotorSystem.updates
  induction ds with
  | nil => rfl
  | cons δ rest ih =>
    rw [List.foldl_cons]
    have : m.emergencyStop.update δ = m.emergencyStop := by
      simp [MotorSystem.update, MotorSystem.emergencyStop]
    rw [this, ih]

/-- C27: for every motor state, `emergencyStop()` sets current RPM and target
RPM to 0, `running` to false and the direction to `Stopped`; `isRunning()` is
then false, and after any sequence of `update` calls (any deltas) the current
RPM is still 0 and `isRunning()` still false. -/
theorem motor_emergency_stop (m : MotorSystem) :
    m.emergencyStop.currentRPM = 0 ∧ m.emergencyStop.targetRPM = 0 ∧
    m.emergencyStop.running = false ∧ m.emergencyStop.direction = .Stopped ∧
    m.emergencyStop.isRunning = false ∧
    ∀ ds : List ℚ, (m.emergencyStop.updates ds).currentRPM = 0 ∧
      (m.emergencyStop.updates ds).isRunning = false := by
  refine ⟨rfl, rfl, rfl, rfl, ?_, ?_⟩
  · simp [MotorSystem.isRunning, MotorSystem.emergencyStop]
  · intro ds
    rw [emergencyStop_updates]
    simp [MotorSystem.isRunning, MotorSystem.emergencyStop]

/-! ## Rounding to `float` -/

/-- With enough fuel, `log2Fuel` is the position of the leading binary digit. -/
theorem log2Fuel_spec (fuel n : Nat) (h1 : 1 ≤ n) (hf : n ≤ fuel) :
    2 ^ log2Fuel fuel n ≤ n ∧ n < 2 ^ (log2Fuel fuel n + 1) := by
  induction fuel generalizing n with
  | zero => omega
  | succ fuel ih =>
    unfold log2Fuel
    by_cases h2 : n < 2
    · rw [if_pos h2]
      constructor
      · simpa using h1
      · simpa using h2
    · rw [if_neg h2]
      have hn : 1 ≤ n / 2 := by omega
      have hfu : n / 2 ≤ fuel := by omega
      obtain ⟨a, b⟩ := ih (n / 2) hn hfu
      constructor
      · rw [pow_succ]; omega
      · rw [pow_succ]; omega

/-- The binary exponent brackets a positive number between two powers of 2. -/
theorem floatExponent_spec {x : ℚ} (hx : 0 < x) :
    (2 : ℚ) ^ floatExponent x ≤ x ∧ x < 2 ^ (floatExponent x + 1) := by
  have hnum : 0 < x.num := Rat.num_pos.mpr hx
  have hp1 : 1 ≤ x.num.natAbs := by omega
  have hq1 : 1 ≤ x.den := x.den_pos
  obtain ⟨pa, pb⟩ := log2Fuel_spec x.num.natAbs x.num.natAbs hp1 le_rfl
  obtain ⟨qa, qb⟩ := log2Fuel_spec x.den x.den hq1 le_rfl
  set lp := log2Fuel x.num.natAbs x.num.natAbs with hlp
  set lq := log2Fuel x.den x.den with hlq
  have hxe : x = (x.num.natAbs : ℚ) / (x.den : ℚ) := by
    have hc : (x.num : ℚ) = (x.num.natAbs : ℚ) := by
      calc (x.num : ℚ) = ((x.num.natAbs : Int) : ℚ) := by rw [Int.natAbs_of_nonneg hnum.le]
        _ = (x.num.natAbs : ℚ) := Int.cast_natCast _
    rw [← hc]
    exact (Rat.num_div_den x).symm
  have hqpos : (0 : ℚ) < (x.den : ℚ) := by exact_mod_cast x.den_pos
  have pa1 : (2 : ℚ) ^ lp ≤ (x.num.natAbs : ℚ) := by exact_mod_cast pa
  have pb1 : (x.num.natAbs : ℚ) < 2 ^ (lp + 1) := by exact_mod_cast pb
  have qa1 : (2 : ℚ) ^ lq ≤ (x.den : ℚ) := by exact_mod_cast qa
  have qb1 : (x.den : ℚ) < 2 ^ (lq + 1) := by exact_mod_cast qb
  have hupper : x < 2 ^ ((lp : Int) - (lq : Int) + 1) := by
    have e : (2 : ℚ) ^ ((lp : Int) - (lq : Int) + 1) = 2 ^ (lp + 1) / 2 ^ lq := by
      have : ((lp : Int) - (lq : Int) + 1) = ((lp + 1 : ℕ) : Int) - ((lq : ℕ) : Int) := by
        push_cast; ring
      rw [this, zpow_sub₀ (by norm_num : (2 : ℚ) ≠ 0), zpow_natCast, zpow_natCast]
    rw [e, hxe, div_lt_div_iff₀ hqpos (by positivity)]
    calc (x.num.natAbs : ℚ) * 2 ^ lq ≤ (x.num.natAbs : ℚ) * (x.den : ℚ) :=
          mul_le_mul_of_nonneg_left qa1 (by positivity)
      _ < 2 ^ (lp + 1) * (x.den : ℚ) := mul_lt_mul_of_pos_right pb1 hqpos
  have hlower : (2 : ℚ) ^ ((lp : Int) - (lq : Int) - 1) ≤ x := by
    have e : (2 : ℚ) ^ ((lp : Int) - (lq : Int) - 1) = 2 ^ lp / 2 ^ (lq + 1) := by
      have : ((lp : Int) - (lq : Int) - 1) = ((lp : ℕ) : Int) - ((lq + 1 : ℕ) : Int) := by
        push_cast; ring
      rw [this, zpow_sub₀ (by norm_num : (2 : ℚ) ≠ 0), zpow_natCast, zpow_natCast]
    rw [e, hxe, div_le_div_iff₀ (by positivity) hqpos]
    calc (2 : ℚ) ^ lp * (x.den : ℚ) ≤ (x.num.natAbs : ℚ) * (x.den : ℚ) :=
          mul_le_mul_of_nonneg_right pa1 hqpos.le
      _ ≤ (x.num.natAbs : ℚ) * 2 ^ (lq + 1) :=
          mul_le_mul_of_nonneg_left qb1.le (by positivity)
  unfold floatExponent
  dsimp only
  rw [← hlp, ← hlq]
  by_cases hc : (2 : ℚ) ^ ((lp : Int) - (lq : Int)) ≤ x
  · rw [if_pos hc]
    exact ⟨hc, hupper⟩
  · rw [if_neg hc]
    push_neg at hc
    refine ⟨hlower, ?_⟩
    have : (lp : Int) - (lq : Int) - 1 + 1 = (lp : Int) - (lq : Int) := by ring
    rw [this]
    exact hc

/-- The binary exponent does not decrease with the number. -/
theorem floatExponent_mono {x y : ℚ} (hx : 0 < x) (h : x ≤ y) :
    floatExponent x ≤ floatExponent y := by
  have hy : 0 < y := lt_of_lt_of_le hx h
  have h1 := (floatExponent_spec hx).1
  have h2 := (floatExponent_spec hy).2
  have h3 : (2 : ℚ) ^ floatExponent x < 2 ^ (floatExponent y + 1) := by linarith
  have := (zpow_lt_zpow_iff_right₀ (by norm_num : (1 : ℚ) < 2)).mp h3
  omega

/-- Rounding to the nearest integer gives the floor or the floor plus 1. -/
theorem roundHalfEven_bounds (q : ℚ) : ⌊q⌋ ≤ roundHalfEven q ∧ roundHalfEven q ≤ ⌊q⌋ + 1 := by
  unfold roundHalfEven
  dsimp only
  split_ifs <;> constructor <;> omega

/-- An integer rounds to itself. -/
theorem roundHalfEven_int (n : Int) : roundHalfEven (n : ℚ) = n := by
  unfold roundHalfEven
  simp

/-- Rounding to the nearest integer keeps the order. -/
theorem roundHalfEven_mono {q q1 : ℚ} (h : q ≤ q1) : roundHalfEven q ≤ roundHalfEven q1 := by
  have hf : ⌊q⌋ ≤ ⌊q1⌋ := Int.floor_le_floor h
  rcases hf.lt_or_eq with hlt | heq
  · have h1 := (roundHalfEven_bounds q).2
    have h2 := (roundHalfEven_bounds q1).1
    omega
  · unfold roundHalfEven
    dsimp only
    rw [← heq]
    have hr : q - (⌊q⌋ : ℚ) ≤ q1 - (⌊q⌋ : ℚ) := by linarith
    split_ifs <;> first | omega | (exfalso; linarith)

/-- A non-negative number rounds to a non-negative `float`. -/
theorem roundFloat_nonneg {x : ℚ} (hx : 0 ≤ x) : 0 ≤ roundFloat x := by
  unfold roundFloat
  split_ifs with h0
  · exact le_refl _
  · dsimp only
    have hu : (0 : ℚ) < 2 ^ (max (floatExponent |x|) (-126) - 23) := by positivity
    have h1 : roundHalfEven (0 : ℚ) ≤ roundHalfEven (x / 2 ^ (max (floatExponent |x|) (-126) - 23)) :=
      roundHalfEven_mono (div_nonneg hx hu.le)
    have h2 : roundHalfEven (0 : ℚ) = 0 := by simpa using roundHalfEven_int 0
    rw [h2] at h1
    exact mul_nonneg (by exact_mod_cast h1) hu.le

/-- A non-positive number rounds to a non-positive `float`. -/
theorem roundFloat_nonpos {x : ℚ} (hx : x ≤ 0) : roundFloat x ≤ 0 := by
  unfold roundFloat
  split_ifs with h0
  · exact le_refl _
  · dsimp only
    have hu : (0 : ℚ) < 2 ^ (max (floatExponent |x|) (-126) - 23) := by positivity
    have h1 : roundHalfEven (x / 2 ^ (max (floatExponent |x|) (-126) - 23)) ≤ roundHalfEven (0 : ℚ) :=
      roundHalfEven_mono (div_nonpos_of_nonpos_of_nonneg hx hu.le)
    have h2 : roundHalfEven (0 : ℚ) = 0 := by simpa using roundHalfEven_int 0
    rw [h2] at h1
    exact mul_nonpos_of_nonpos_of_nonneg (by exact_mod_cast h1) hu.le

/-- With exponent `e` at least the exponent of `|x|`, rounding to multiples of
`2 ^ (e - 23)` stays within `2 ^ (e + 1)`. -/
theorem round_le_pow {x : ℚ} {e : Int} (hx : |x| < 2 ^ (e + 1)) :
    |((roundHalfEven (x / 2 ^ (e - 23)) : Int) : ℚ) * 2 ^ (e - 23)| ≤ 2 ^ (e + 1) := by
  have hu : (0 : ℚ) < 2 ^ (e - 23) := by positivity
  have hsplit : (2 : ℚ) ^ (e + 1) = ((2 ^ 24 : Int) : ℚ) * 2 ^ (e - 23) := by
    have : e + 1 = 24 + (e - 23) := by ring
    rw [this, zpow_add₀ (by norm_num : (2 : ℚ) ≠ 0)]
    norm_num
  have hlt := abs_lt.mp hx
  have hup : roundHalfEven (x / 2 ^ (e - 23)) ≤ 2 ^ 24 := by
    have : x / 2 ^ (e - 23) ≤ ((2 ^ 24 : Int) : ℚ) := by
      rw [div_le_iff₀ hu, ← hsplit]; exact hlt.2.le
    have := roundHalfEven_mono this
    rwa [roundHalfEven_int] at this
  have hlo : -(2 ^ 24) ≤ roundHalfEven (x / 2 ^ (e - 23)) := by
    have : ((-(2 ^ 24) : Int) : ℚ) ≤ x / 2 ^ (e - 23) := by
      rw [le_div_iff₀ hu]
      have : ((-(2 ^ 24) : Int) : ℚ) * 2 ^ (e - 23) = -(2 : ℚ) ^ (e + 1) := by
        rw [hsplit]; push_cast; ring
      rw [this]; exact hlt.1.le
    have := roundHalfEven_mono this
    rwa [roundHalfEven_int] at this
  rw [abs_mul, abs_of_pos hu, hsplit]
  apply mul_le_mul_of_nonneg_right _ hu.le
  rw [abs_le]
  constructor
  · have : ((-(2 ^ 24) : Int) : ℚ) ≤ (roundHalfEven (x / 2 ^ (e - 23)) : ℚ) := by exact_mod_cast hlo
    push_cast at this ⊢; linarith
  · exact_mod_cast hup

/-- A positive number at least `2 ^ e` rounds, at exponent `e`, to at least `2 ^ e`. -/
theorem pow_le_round {x : ℚ} {e : Int} (hx : 2 ^ e ≤ x) :
    (2 : ℚ) ^ e ≤ ((roundHalfEven (x / 2 ^ (e - 23)) : Int) : ℚ) * 2 ^ (e - 23) := by
  have hu : (0 : ℚ) < 2 ^ (e - 23) := by positivity
  have hsplit : (2 : ℚ) ^ e = ((2 ^ 23 : Int) : ℚ) * 2 ^ (e - 23) := by
    have : e = 23 + (e - 23) := by ring
    nth_rewrite 1 [this]
    rw [zpow_add₀ (by norm_num : (2 : ℚ) ≠ 0)]
    norm_num
  have hlo : 2 ^ 23 ≤ roundHalfEven (x / 2 ^ (e - 23)) := by
    have : ((2 ^ 23 : Int) : ℚ) ≤ x / 2 ^ (e - 23) := by
      rw [le_div_iff₀ hu, ← hsplit]; exact hx
    have := roundHalfEven_mono this
    rwa [roundHalfEven_int] at this
  rw [hsplit]
  apply mul_le_mul_of_nonneg_right _ hu.le
  exact_mod_cast hlo

/-- Rounding to `float` keeps the order of positive numbers. -/
theorem roundFloat_pos_mono {x y : ℚ} (hx : 0 < x) (h : x ≤ y) :
    roundFloat x ≤ roundFloat y := by
  have hy : 0 < y := lt_of_lt_of_le hx h
  have hlog : floatExponent x ≤ floatExponent y := floatExponent_mono hx h
  unfold roundFloat
  rw [if_neg hx.ne', if_neg hy.ne', abs_of_pos hx, abs_of_pos hy]
  dsimp only
  rcases (max_le_max hlog (le_refl (-126 : Int))).lt_or_eq with hlt | heq
  · -- the exponent of y is larger
    have hey : max (floatExponent y) (-126) = floatExponent y := by
      apply max_eq_left
      by_contra hc
      push_neg at hc
      have : max (floatExponent y) (-126) = -126 := max_eq_right hc.le
      have h2 : (-126 : Int) ≤ max (floatExponent x) (-126) := le_max_right _ _
      omega
    rw [hey] at hlt ⊢
    set ex := max (floatExponent x) (-126) with hex
    have hxlt : |x| < 2 ^ (ex + 1) := by
      rw [abs_of_pos hx]
      calc x < (2 : ℚ) ^ (floatExponent x + 1) := (floatExponent_spec hx).2
        _ ≤ 2 ^ (ex + 1) := by
            apply zpow_le_zpow_right₀ (by norm_num)
            have : floatExponent x ≤ ex := le_max_left _ _
            omega
    have h1 := (abs_le.mp (round_le_pow hxlt)).2
    have hyge : (2 : ℚ) ^ (floatExponent y) ≤ y := (floatExponent_spec hy).1
    have h2 := pow_le_round hyge
    have h3 : (2 : ℚ) ^ (ex + 1) ≤ 2 ^ (floatExponent y) :=
      zpow_le_zpow_right₀ (by norm_num) (by omega)
    linarith
  · rw [heq]
    have hu : (0 : ℚ) < 2 ^ (max (floatExponent y) (-126) - 23) := by positivity
    apply mul_le_mul_of_nonneg_right _ hu.le
    have := roundHalfEven_mono (div_le_div_of_nonneg_right h hu.le)
    exact_mod_cast this

/-- Rounding to the nearest integer commutes with negation. -/
theorem roundHalfEven_neg (q : ℚ) : roundHalfEven (-q) = -roundHalfEven q := by
  unfold roundHalfEven
  dsimp only
  by_cases hq : (⌊q⌋ : ℚ) = q
  · have h1 : ⌊-q⌋ = -⌊q⌋ := by
      rw [Int.floor_eq_iff]
      push_cast
      constructor <;> linarith
    rw [h1]
    have e1 : -q - ((-⌊q⌋ : Int) : ℚ) = 0 := by push_cast; linarith
    have e2 : q - (⌊q⌋ : ℚ) = 0 := by linarith
    rw [e1, e2]
    norm_num
  · have hlt : (⌊q⌋ : ℚ) < q := lt_of_le_of_ne (Int.floor_le q) hq
    have h1 : ⌊-q⌋ = -⌊q⌋ - 1 := by
      rw [Int.floor_eq_iff]
      have := Int.lt_floor_add_one q
      push_cast
      constructor <;> linarith
    rw [h1]
    have e1 : -q - ((-⌊q⌋ - 1 : Int) : ℚ) = 1 - (q - (⌊q⌋ : ℚ)) := by push_cast; ring
    rw [e1]
    split_ifs <;> first | omega | (exfalso; linarith)

/-- Rounding to `float` commutes with negation. -/
theorem roundFloat_neg (x : ℚ) : roundFloat (-x) = -roundFloat x := by
  unfold roundFloat
  by_cases h0 : x = 0
  · simp [h0]
  · rw [if_neg h0, if_neg (neg_ne_zero.mpr h0), abs_neg]
    dsimp only
    rw [neg_div, roundHalfEven_neg]
    push_cast
    ring

/-- Rounding to `float` keeps the order. -/
theorem roundFloat_mono {x y : ℚ} (h : x ≤ y) : roundFloat x ≤ roundFloat y := by
  rcases lt_trichotomy 0 x with hx | hx | hx
  · exact roundFloat_pos_mono hx h
  · subst hx
    have : roundFloat 0 = 0 := by simp [roundFloat]
    rw [this]
    exact roundFloat_nonneg h
  · rcases le_or_lt 0 y with hy | hy
    · exact le_trans (roundFloat_nonpos hx.le) (roundFloat_nonneg hy)
    · have := roundFloat_pos_mono (neg_pos.mpr hy) (neg_le_neg h)
      rw [roundFloat_neg, roundFloat_neg] at this
      linarith

/-! ## Motor ramp and load-adjusted program values -/

/-- On non-negative values `static_cast<int>` is the floor. -/
theorem truncToInt_eq_floor (x : ℚ) (hx : 0 ≤ x) : truncToInt x = ⌊x⌋ := by
  unfold truncToInt
  rw [Rat.floor_def, Int.tdiv_eq_ediv (Rat.num_nonneg.mpr hx) (Int.ofNat_nonneg _)]

/-- On non-negative values `static_cast<int>` is non-negative. -/
theorem truncToInt_nonneg (x : ℚ) (hx : 0 ≤ x) : 0 ≤ truncToInt x := by
  rw [truncToInt_eq_floor x hx]
  exact Int.floor_nonneg.mpr hx

/-- The speed after one `update` of a motor that is running or still turning. -/
theorem update_currentRPM (m : MotorSystem) (δ : ℚ)
    (h : m.running = true ∨ m.currentRPM ≠ 0) :
    (m.update δ).currentRPM =
      (if m.currentRPM < m.targetRPM then
        min m.targetRPM (m.currentRPM + m.rampAmount δ)
      else if m.currentRPM > m.targetRPM then
        max m.targetRPM (m.currentRPM - m.rampAmount δ)
      else m.currentRPM) ∧
    (m.update δ).targetRPM = m.targetRPM ∧ (m.update δ).running = m.running ∧
    (m.update δ).rampRate = m.rampRate := by
  have hc : (!m.running && m.currentRPM == 0) = false := by
    rcases h with h | h
    · simp [h]
    · simp [h]
  unfold MotorSystem.update
  rw [hc]
  simp only [Bool.false_eq_true, if_false]
  generalize m.rampAmount δ = r
  refine ⟨?_, ?_, ?_, ?_⟩ <;> split_ifs <;> simp_all [min_def, max_def] <;> omega

/-- An `update` of a motor at rest changes neither speed nor target. -/
theorem update_at_rest (m : MotorSystem) (δ : ℚ)
    (hr : m.running = false) (h0 : m.currentRPM = 0) :
    (m.update δ).currentRPM = 0 ∧ (m.update δ).targetRPM = m.targetRPM ∧
    (m.update δ).running = false ∧ (m.update δ).rampRate = m.rampRate := by
  unfold MotorSystem.update
  simp [hr, h0]

/-- With the ramp rate at 200 the ramp amount is the truncated `float` product
`200 * delta`; it is not negative when `delta` is not. -/
theorem rampAmount_eq (m : MotorSystem) (δ : ℚ) (hrate : m.rampRate = 200) :
    m.rampAmount δ = truncToInt (roundFloat (200 * δ)) ∧
    (0 ≤ δ → 0 ≤ m.rampAmount δ) := by
  have h200 : roundFloat 200 = 200 := by decide!
  have e : m.rampAmount δ = truncToInt (roundFloat (200 * δ)) := by
    unfold MotorSystem.rampAmount
    rw [hrate]
    norm_num [h200]
  refine ⟨e, fun hδ => ?_⟩
  rw [e]
  exact truncToInt_nonneg _ (roundFloat_nonneg (by positivity))

/-- Arithmetic of a clamped ramp-down. -/
theorem ramp_down_arith (c r kr : Int) (hr : 0 ≤ r) (hk : 0 ≤ kr) :
    max 0 (max 0 (c - r) - kr) = max 0 (c - (kr + r)) ∧
    max 0 (c - (kr + r)) ≤ max 0 (c - kr) := by
  constructor <;> simp only [max_def] <;> split_ifs <;> omega

/-- Ramp-down of a stopped motor: speed after `k` updates of the same delta. -/
theorem stopped_ramp (δ : ℚ) (hδ : 0 ≤ δ) (k : ℕ) :
    ∀ m : MotorSystem, m.running = false → m.targetRPM = 0 → 0 ≤ m.currentRPM →
      m.rampRate = 200 →
      (m.updates (List.replicate k δ)).currentRPM =
        max 0 (m.currentRPM - (k : Int) * truncToInt (roundFloat (200 * δ))) := by
  have hramp : 0 ≤ truncToInt (roundFloat (200 * δ)) :=
    truncToInt_nonneg _ (roundFloat_nonneg (by positivity))
  induction k with
  | zero =>
    intro m _ _ h0 _
    simp [MotorSystem.updates, h0]
  | succ k ih =>
    intro m hr ht h0 hrate
    have hstep : (m.update δ).currentRPM =
          max 0 (m.currentRPM - truncToInt (roundFloat (200 * δ))) ∧
        (m.update δ).targetRPM = 0 ∧ (m.update δ).running = false ∧
        (m.update δ).rampRate = 200 := by
      by_cases hz : m.currentRPM = 0
      · obtain ⟨a, b, c, d⟩ := update_at_rest m δ hr hz
        refine ⟨?_, b.trans ht, c, d.trans hrate⟩
        rw [a, hz]
        simp [hramp]
      · obtain ⟨a, b, c, d⟩ := update_currentRPM m δ (Or.inr hz)
        refine ⟨?_, b.trans ht, c.trans hr, d.trans hrate⟩
        rw [a, ht, (rampAmount_eq m δ hrate).1]
        have hpos : 0 < m.currentRPM := lt_of_le_of_ne h0 (Ne.symm hz)
        rw [if_neg (not_lt.mpr h0), if_pos hpos]
    obtain ⟨s1, s2, s3, s4⟩ := hstep
    have hnn : 0 ≤ (m.update δ).currentRPM := by rw [s1]; exact le_max_left _ _
    have := ih (m.update δ) s3 s2 hnn s4
    show ((m.update δ).updates (List.replicate k δ)).currentRPM = _
    rw [this, s1]
    have e : ((k + 1 : ℕ) : Int) * truncToInt (roundFloat (200 * δ)) =
        (k : Int) * truncToInt (roundFloat (200 * δ)) + truncToInt (roundFloat (200 * δ)) := by
      push_cast; ring
    rw [e]
    exact (ramp_down_arith _ _ _ hramp (mul_nonneg (Int.ofNat_nonneg _) hramp)).1

/-- C28, as stated, fails.  The source truncates the `float` product, not the
exact one: 0.7f is the number 11744051 / 2^24, 200 times it is a little less
than 140 and truncates to 139, but the product rounded to `float` is 140, and
a motor started towards 1000 RPM is at 140 RPM after that update.  And not
every `delta >= 0` has a ramp amount: for `delta` = 10737419 s the product is
no `int`, so the conversion is undefined. -/
theorem ramp_truncates_the_rounded_product :
    roundFloat (11744051 / 16777216) = 11744051 / 16777216 ∧
    truncToInt (200 * (11744051 / 16777216)) = 139 ∧
    (MotorSystem.new.start 1000 .Clockwise).rampAmount (11744051 / 16777216) = 140 ∧
    ((MotorSystem.new.start 1000 .Clockwise).update (11744051 / 16777216)).currentRPM = 140 ∧
    (MotorSystem.new.start 1000 .Clockwise).currentRPM +
      min |(MotorSystem.new.start 1000 .Clockwise).targetRPM -
          (MotorSystem.new.start 1000 .Clockwise).currentRPM|
        (truncToInt (200 * (11744051 / 16777216))) = 139 ∧
    roundFloat 10737419 = 10737419 ∧
    ¬ fitsInt ((MotorSystem.new.start 1000 .Clockwise).rampAmount 10737419) := by
  refine ⟨by decide!, by decide!, by decide!, by decide!, by decide!, by decide!, by decide!⟩

/-- C28, amended: the ramp amount `r` of an update is the product
`200 * delta` rounded to `float` and then truncated.  With the ramp rate at
its constructor value 200 and `delta >= 0`: `r` is not negative; if `r` is an
`int` and the sum or difference the update forms does not leave the `int`
range, then an `update(delta)` of a motor that is running or has non-zero
current RPM moves the current RPM toward the target by exactly
`min(|target - current|, r)`: the distance to the target shrinks by that
amount and the new speed lies between the old speed and the target.  After
`stop()` from an `int` speed `r0 >= 0` and with `r` an `int`, the speed after
`k` updates is `max(0, r0 - k * r)`: it never increases, and it is 0 as soon
as `k * r >= r0`. -/
theorem motor_ramp (m : MotorSystem) (δ : ℚ) (hrate : m.rampRate = 200) (hδ : 0 ≤ δ) :
    m.rampAmount δ = truncToInt (roundFloat (200 * δ)) ∧
    0 ≤ m.rampAmount δ ∧
    (m.running = true ∨ m.currentRPM ≠ 0 →
      fitsInt (m.rampAmount δ) →
      (m.currentRPM < m.targetRPM → fitsInt (m.currentRPM + m.rampAmount δ)) →
      (m.targetRPM < m.currentRPM → fitsInt (m.currentRPM - m.rampAmount δ)) →
      (m.update δ).currentRPM =
        (if m.currentRPM ≤ m.targetRPM then
          m.currentRPM + min |m.targetRPM - m.currentRPM| (m.rampAmount δ)
        else m.currentRPM - min |m.targetRPM - m.currentRPM| (m.rampAmount δ)) ∧
      |m.targetRPM - (m.update δ).currentRPM| =
        |m.targetRPM - m.currentRPM| -
          min |m.targetRPM - m.currentRPM| (m.rampAmount δ) ∧
      (m.currentRPM ≤ m.targetRPM →
        m.currentRPM ≤ (m.update δ).currentRPM ∧ (m.update δ).currentRPM ≤ m.targetRPM) ∧
      (m.targetRPM ≤ m.currentRPM →
        m.targetRPM ≤ (m.update δ).currentRPM ∧ (m.update δ).currentRPM ≤ m.currentRPM)) ∧
    (0 ≤ m.currentRPM → fitsInt m.currentRPM → fitsInt (m.rampAmount δ) → ∀ k : ℕ,
      (m.stop.updates (List.replicate k δ)).currentRPM =
        max 0 (m.currentRPM - (k : Int) * m.rampAmount δ) ∧
      (m.stop.updates (List.replicate (k + 1) δ)).currentRPM ≤
        (m.stop.updates (List.replicate k δ)).currentRPM ∧
      (m.currentRPM ≤ (k : Int) * m.rampAmount δ →
        (m.stop.updates (List.replicate k δ)).currentRPM = 0)) := by
  obtain ⟨hamount, hnn⟩ := rampAmount_eq m δ hrate
  have hramp : 0 ≤ m.rampAmount δ := hnn hδ
  refine ⟨hamount, hramp, ?_, ?_⟩
  · intro h _ _ _
    obtain ⟨a, -, -, -⟩ := update_currentRPM m δ h
    rw [a]
    generalize m.rampAmount δ = r at hramp ⊢
    refine ⟨?_, ?_, ?_, ?_⟩ <;>
      simp only [min_def, max_def, abs_eq_max_neg] <;> split_ifs <;> omega
  · intro h0 _ _ k
    have hs := fun j => stopped_ramp δ hδ j m.stop rfl rfl h0 hrate
    have hc : m.stop.currentRPM = m.currentRPM := rfl
    rw [hs k, hs (k + 1), hc, ← hamount]
    have e : ((k + 1 : ℕ) : Int) * m.rampAmount δ =
        (k : Int) * m.rampAmount δ + m.rampAmount δ := by
      push_cast; ring
    rw [e]
    refine ⟨rfl,
      (ramp_down_arith _ _ _ hramp (mul_nonneg (Int.ofNat_nonneg _) hramp)).2, ?_⟩
    intro hle
    exact max_eq_left (by omega)

/-- A concrete instance of `motor_ramp`: a motor started towards 1000 RPM is at
20 RPM after 0.1 s and at 140 RPM after 0.7f s; a motor stopped at 50 RPM is
at 0 after three updates of 0.1 s. -/
theorem motor_ramp_witness :
    ((MotorSystem.new.start 1000 .Clockwise).update (1 / 10)).currentRPM = 20 ∧
    ((MotorSystem.new.start 1000 .Clockwise).update (11744051 / 16777216)).currentRPM = 140 ∧
    (({ MotorSystem.new with currentRPM := 50 }).stop.updates
      (List.replicate 3 (1 / 10))).currentRPM = 0 :=
  ⟨by
      have h := (motor_ramp (MotorSystem.new.start 1000 .Clockwise) (1 / 10) rfl
        (by norm_num)).2.2.1 (Or.inl rfl) (by decide!) (fun _ => by decide!)
        (fun _ => by decide!)
      rw [h.1]
      decide!,
    by
      have h := (motor_ramp (MotorSystem.new.start 1000 .Clockwise) (11744051 / 16777216) rfl
        (by norm_num)).2.2.1 (Or.inl rfl) (by decide!) (fun _ => by decide!)
        (fun _ => by decide!)
      rw [h.1]
      decide!,
    ((motor_ramp { MotorSystem.new with currentRPM := 50 } (1 / 10) rfl
      (by norm_num)).2.2.2 (by decide) (by decide!) (by decide!) 3).2.2 (by decide!)⟩

/-- C29, as stated, fails: for the default program (30 minutes) and a load of
0.25 kg, `getAdjustedDuration` is 30 and not 30.5; and the loads 0.2 kg and
0.4 kg get the same duration.  And not every load `kg >= 0` has an adjusted
duration: for the `float` 2000000000 the doubled load is no `int`, so the
conversion is undefined. -/
theorem duration_truncates_the_load :
    WashMode.new.durationMinutes = 30 ∧
    WashMode.new.getAdjustedDuration (1 / 4) = 30 ∧
    ((WashMode.new.getAdjustedDuration (1 / 4) : Int) : ℚ) ≠
      (WashMode.new.durationMinutes : ℚ) + 2 * (1 / 4) ∧
    (1 / 5 : ℚ) < 2 / 5 ∧
    WashMode.new.getAdjustedDuration (2 / 5) = WashMode.new.getAdjustedDuration (1 / 5) ∧
    roundFloat 2000000000 = 2000000000 ∧
    ¬ fitsInt (truncToInt ((2000000000 : ℚ) * 2)) := by
  decide!

/-- C29 (amended): for every program and every load `kg >= 0` whose double
truncates to an `int` (a load below 2^30 kg) and for which the sum
`durationMinutes + trunc(2 * kg)` stays in the `int` range,
`getAdjustedDuration(kg) = durationMinutes + floor(2 * kg)`; this is at most
`durationMinutes + 2 * kg` and misses it by less than 1, with equality exactly
when `2 * kg` is an integer; among such loads a heavier one never yields a
shorter duration, and one heavier by at least 0.5 kg yields a longer one. -/
theorem adjusted_duration_floor (m : WashMode) (kg : ℚ) (hkg : 0 ≤ kg)
    (_hdur : fitsInt m.durationMinutes) (_hcast : fitsInt (truncToInt (kg * 2)))
    (_hsum : fitsInt (m.getAdjustedDuration kg)) :
    m.getAdjustedDuration kg = m.durationMinutes + ⌊2 * kg⌋ ∧
    ((m.getAdjustedDuration kg : Int) : ℚ) ≤ (m.durationMinutes : ℚ) + 2 * kg ∧
    (m.durationMinutes : ℚ) + 2 * kg < ((m.getAdjustedDuration kg : Int) : ℚ) + 1 ∧
    (((m.getAdjustedDuration kg : Int) : ℚ) = (m.durationMinutes : ℚ) + 2 * kg ↔
      ∃ n : Int, 2 * kg = (n : ℚ)) ∧
    (∀ kg2 : ℚ, kg ≤ kg2 → fitsInt (truncToInt (kg2 * 2)) →
      fitsInt (m.getAdjustedDuration kg2) →
      m.getAdjustedDuration kg ≤ m.getAdjustedDuration kg2) ∧
    (∀ kg2 : ℚ, kg + 1 / 2 ≤ kg2 → fitsInt (truncToInt (kg2 * 2)) →
      fitsInt (m.getAdjustedDuration kg2) →
      m.getAdjustedDuration kg < m.getAdjustedDuration kg2) := by
  have hdef : ∀ x : ℚ, 0 ≤ x → m.getAdjustedDuration x = m.durationMinutes + ⌊2 * x⌋ := by
    intro x hx
    unfold WashMode.getAdjustedDuration
    rw [truncToInt_eq_floor _ (by positivity), mul_comm]
  have hle := Int.floor_le (2 * kg)
  have hlt := Int.lt_floor_add_one (2 * kg)
  refine ⟨hdef kg hkg, ?_, ?_, ?_, ?_, ?_⟩
  · rw [hdef kg hkg]; push_cast; linarith
  · rw [hdef kg hkg]; push_cast; linarith
  · rw [hdef kg hkg]; push_cast
    constructor
    · intro h
      exact ⟨⌊2 * kg⌋, by linarith⟩
    · rintro ⟨n, hn⟩
      rw [hn, Int.floor_intCast]
  · intro kg2 h2 _ _
    rw [hdef kg hkg, hdef kg2 (le_trans hkg h2)]
    have : ⌊2 * kg⌋ ≤ ⌊2 * kg2⌋ := Int.floor_le_floor (by linarith)
    omega
  · intro kg2 h2 _ _
    rw [hdef kg hkg, hdef kg2 (by linarith)]
    have h3 : ⌊2 * kg⌋ + 1 ≤ ⌊2 * kg2⌋ := by
      rw [← Int.floor_add_one]
      exact Int.floor_le_floor (by linarith)
    omega

/-- A concrete instance of `adjusted_duration_floor`: the default program with
3 kg lasts 36, which is longer than with 2.5 kg. -/
theorem adjusted_duration_floor_witness :
    WashMode.new.getAdjustedDuration 3 = 36 ∧
    WashMode.new.getAdjustedDuration (5 / 2) < WashMode.new.getAdjustedDuration 3 :=
  ⟨by
      rw [(adjusted_duration_floor WashMode.new 3 (by norm_num) (by decide!) (by decide!)
        (by decide!)).1]
      decide!,
    (adjusted_duration_floor WashMode.new (5 / 2) (by norm_num) (by decide!) (by decide!)
      (by decide!)).2.2.2.2.2 3 (by norm_num) (by decide!) (by decide!)⟩

/-- The adjusted water level is the rounded sum, capped at 50. -/
theorem getAdjustedWaterLevel_eq (m : WashMode) (x : ℚ) :
    m.getAdjustedWaterLevel x =
      min 50 (roundFloat (m.waterLevelLiters + roundFloat (3 * x))) := by
  unfold WashMode.getAdjustedWaterLevel
  rw [mul_comm x 3]
  simp only [min_def]
  split_ifs <;> first | rfl | linarith

/-- C30, as stated, fails.  The source rounds the product and the sum to
`float`: for the default program (30 litres) the loads 1 kg and 1.00000012 kg
(the next `float` after 1) both get 33 litres, below the cap of 50, so the
volume is not strictly increasing there, and for the second load it is not
`30 + 3 * kg`. -/
theorem water_level_rounds_the_sum :
    WashMode.new.waterLevelLiters = 30 ∧
    roundFloat 1 = 1 ∧
    roundFloat (8388609 / 8388608) = 8388609 / 8388608 ∧
    (1 : ℚ) < 8388609 / 8388608 ∧
    WashMode.new.getAdjustedWaterLevel 1 = 33 ∧
    WashMode.new.getAdjustedWaterLevel (8388609 / 8388608) = 33 ∧
    WashMode.new.getAdjustedWaterLevel 1 < 50 ∧
    ¬ (WashMode.new.getAdjustedWaterLevel 1 <
      WashMode.new.getAdjustedWaterLevel (8388609 / 8388608)) ∧
    WashMode.new.getAdjustedWaterLevel (8388609 / 8388608) ≠
      min 50 (WashMode.new.waterLevelLiters + 3 * (8388609 / 8388608)) := by
  refine ⟨by decide!, by decide!, by decide!, by decide!, by decide!, by decide!, by decide!,
    by decide!, by decide!⟩

/-- C30, amended: take a program and a load that is a number, such that
neither the product `3 * kg` nor the sum overflows to minus infinity.  Then
`getAdjustedWaterLevel(kg)` is the sum `waterLevelLiters + 3 * kg`, product and
sum each rounded to `float`, capped at 50; it never exceeds 50 and is
non-decreasing in the load.  Where neither the product nor the sum needs
rounding it is `min(50, waterLevelLiters + 3 * kg)`, and among such loads it is
strictly increasing in the load as long as the value is below 50. -/
theorem adjusted_water_level (m : WashMode) (kg : ℚ)
    (_hprod : -FLT_MAX ≤ roundFloat (3 * kg))
    (_hsum : -FLT_MAX ≤ roundFloat (m.waterLevelLiters + roundFloat (3 * kg))) :
    m.getAdjustedWaterLevel kg =
      min 50 (roundFloat (m.waterLevelLiters + roundFloat (3 * kg))) ∧
    m.getAdjustedWaterLevel kg ≤ 50 ∧
    (∀ kg2 : ℚ, kg ≤ kg2 → m.getAdjustedWaterLevel kg ≤ m.getAdjustedWaterLevel kg2) ∧
    (roundFloat (3 * kg) = 3 * kg →
      roundFloat (m.waterLevelLiters + 3 * kg) = m.waterLevelLiters + 3 * kg →
      m.getAdjustedWaterLevel kg = min 50 (m.waterLevelLiters + 3 * kg) ∧
      ∀ kg2 : ℚ, kg < kg2 → roundFloat (3 * kg2) = 3 * kg2 →
        roundFloat (m.waterLevelLiters + 3 * kg2) = m.waterLevelLiters + 3 * kg2 →
        m.getAdjustedWaterLevel kg < 50 →
        m.getAdjustedWaterLevel kg < m.getAdjustedWaterLevel kg2) := by
  have hexact : ∀ x : ℚ, roundFloat (3 * x) = 3 * x →
      roundFloat (m.waterLevelLiters + 3 * x) = m.waterLevelLiters + 3 * x →
      m.getAdjustedWaterLevel x = min 50 (m.waterLevelLiters + 3 * x) := by
    intro x h1 h2
    rw [getAdjustedWaterLevel_eq, h1, h2]
  refine ⟨getAdjustedWaterLevel_eq m kg, ?_, ?_, ?_⟩
  · rw [getAdjustedWaterLevel_eq]; exact min_le_left _ _
  · intro kg2 h
    rw [getAdjustedWaterLevel_eq, getAdjustedWaterLevel_eq]
    have h1 : roundFloat (3 * kg) ≤ roundFloat (3 * kg2) := roundFloat_mono (by linarith)
    exact min_le_min le_rfl (roundFloat_mono (by linarith))
  · intro e1 e2
    refine ⟨hexact kg e1 e2, ?_⟩
    intro kg2 h f1 f2 hcap
    rw [hexact kg e1 e2] at hcap ⊢
    rw [hexact kg2 f1 f2]
    have h1 : m.waterLevelLiters + 3 * kg < 50 := by
      by_contra hc
      rw [min_eq_left (not_lt.mp hc)] at hcap
      exact lt_irrefl _ hcap
    rw [min_eq_right h1.le]
    exact lt_min h1 (by linarith)

/-- A concrete instance of `adjusted_water_level`: for the default program
(30 litres) the level for 5 kg is not above the level for 10 kg, and the level
for 2 kg, 36 litres, is below the level for 5 kg. -/
theorem adjusted_water_level_witness :
    WashMode.new.getAdjustedWaterLevel 5 ≤ WashMode.new.getAdjustedWaterLevel 10 ∧
    WashMode.new.getAdjustedWaterLevel 2 = 36 ∧
    WashMode.new.getAdjustedWaterLevel 2 < WashMode.new.getAdjustedWaterLevel 5 :=
  ⟨(adjusted_water_level WashMode.new 5 (by decide!) (by decide!)).2.2.1 10 (by norm_num),
    ((adjusted_water_level WashMode.new 2 (by decide!) (by decide!)).2.2.2 (by decide!)
      (by decide!)).1.trans (by decide!),
    ((adjusted_water_level WashMode.new 2 (by decide!) (by decide!)).2.2.2 (by decide!)
      (by decide!)).2 5 (by norm_num) (by decide!) (by decide!) (by decide!)⟩

/-! ## Water system: level bounds and completion notifications -/

/-- The fill block of `update` is skipped unless the inlet valve is open and
the level is below the target. -/
theorem updateFill_skip (w : WaterSystem) (δ : ℚ)
    (hf : ¬(w.inletValveOpen = true ∧ w.currentLevel < w.targetLevel)) :
    w.updateFill δ = (w, []) := by
  unfold WaterSystem.updateFill
  rw [if_neg (by simpa using hf)]

/-- The drain block of `update` is skipped unless the drain valve is open and
there is water in the tub. -/
theorem updateDrain_skip (w : WaterSystem) (δ : ℚ)
    (hd : ¬(w.drainValveOpen = true ∧ 0 < w.currentLevel)) :
    w.updateDrain δ = (w, []) := by
  unfold WaterSystem.updateDrain
  rw [if_neg (by simpa using hd)]

/-- An `update` that enters neither block changes nothing and reports nothing. -/
theorem update_idle (w : WaterSystem) (δ : ℚ)
    (hf : ¬(w.inletValveOpen = true ∧ w.currentLevel < w.targetLevel))
    (hd : ¬(w.drainValveOpen = true ∧ 0 < w.currentLevel)) :
    w.update δ = (w, []) := by
  unfold WaterSystem.update
  simp only [updateFill_skip w δ hf, updateDrain_skip w δ hd, List.append_nil]

/-- The fill block of `update`, when it is entered, in closed form. -/
theorem updateFill_filling (w : WaterSystem) (δ : ℚ)
    (hin : w.inletValveOpen = true) (hlt : w.currentLevel < w.targetLevel) :
    w.updateFill δ =
      ({ w with
          currentLevel :=
            min w.targetLevel (w.currentLevel + min (w.fillRate * δ) w.reservoirLevel)
          inletValveOpen :=
            decide (w.currentLevel + min (w.fillRate * δ) w.reservoirLevel < w.targetLevel)
          reservoirLevel :=
            if w.reservoirLevel - min (w.fillRate * δ) w.reservoirLevel < w.lowThreshold then
              w.maxReservoir
            else w.reservoirLevel - min (w.fillRate * δ) w.reservoirLevel },
        if w.targetLevel ≤ w.currentLevel + min (w.fillRate * δ) w.reservoirLevel then
          (if w.eventCallback then [.SYS_WATER_LEVEL_REACHED] else [])
        else []) := by
  have hamt : (if w.fillRate * δ > w.reservoirLevel then w.reservoirLevel else w.fillRate * δ) =
      min (w.fillRate * δ) w.reservoirLevel := by
    rw [min_def]
    split_ifs <;> first | rfl | linarith
  unfold WaterSystem.updateFill
  simp only [hin, hlt, decide_True, Bool.and_self, if_true, hamt, WaterSystem.autoReplenish]
  by_cases hc : w.targetLevel ≤ w.currentLevel + min (w.fillRate * δ) w.reservoirLevel
  · simp only [ge_iff_le, hc, if_true, min_eq_left hc, not_lt.mpr hc, decide_False]
    split_ifs <;> rfl
  · simp only [ge_iff_le, hc, if_false, min_eq_right (not_le.mp hc).le, not_le.mp hc,
      decide_True]
    split_ifs <;> rfl

/-- The drain block of `update`, when it is entered, in closed form. -/
theorem updateDrain_draining (w : WaterSystem) (δ : ℚ)
    (hdr : w.drainValveOpen = true) (hpos : 0 < w.currentLevel) :
    w.updateDrain δ =
      ({ w with
          currentLevel := max 0 (w.currentLevel - w.drainRate * δ)
          drainValveOpen := decide (0 < w.currentLevel - w.drainRate * δ) },
        if w.currentLevel - w.drainRate * δ ≤ 0 then
          (if w.eventCallback then [.SYS_DRAIN_COMPLETE] else [])
        else []) := by
  unfold WaterSystem.updateDrain
  simp only [hdr, hpos, gt_iff_lt, decide_True, Bool.and_self, if_true]
  by_cases hc : w.currentLevel - w.drainRate * δ ≤ 0
  · simp only [hc, if_true, max_eq_left hc, not_lt.mpr hc, decide_False]
  · simp only [hc, if_false, max_eq_right (not_le.mp hc).le, not_le.mp hc, decide_True]

/-- An `update` of a sound water system that is filling. -/
theorem update_filling (w : WaterSystem) (δ : ℚ) (hs : w.Sound)
    (hin : w.inletValveOpen = true) (hlt : w.currentLevel < w.targetLevel) :
    w.update δ =
      ({ w with
          currentLevel := min w.targetLevel (w.currentLevel + min (10 * δ) w.reservoirLevel)
          inletValveOpen :=
            decide (w.currentLevel + min (10 * δ) w.reservoirLevel < w.targetLevel)
          reservoirLevel :=
            if w.reservoirLevel - min (10 * δ) w.reservoirLevel < 10 then 100
            else w.reservoirLevel - min (10 * δ) w.reservoirLevel },
        if w.targetLevel ≤ w.currentLevel + min (10 * δ) w.reservoirLevel then
          (if w.eventCallback then [.SYS_WATER_LEVEL_REACHED] else [])
        else []) := by
  obtain ⟨h1, h2, h3, h4, h5, h6, h7⟩ := hs
  have hdr : w.drainValveOpen = false := by
    rcases h7 with h | h
    · rw [hin] at h; cases h
    · exact h
  unfold WaterSystem.update
  rw [updateFill_filling w δ hin hlt]
  dsimp only
  rw [updateDrain_skip _ δ (by simp [hdr])]
  simp only [h1, h3, h4, List.append_nil]

/-- An `update` of a sound water system that is draining. -/
theorem update_draining (w : WaterSystem) (δ : ℚ) (hs : w.Sound)
    (hdr : w.drainValveOpen = true) (hpos : 0 < w.currentLevel) :
    w.update δ =
      ({ w with
          currentLevel := max 0 (w.currentLevel - 15 * δ)
          drainValveOpen := decide (0 < w.currentLevel - 15 * δ) },
        if w.currentLevel - 15 * δ ≤ 0 then
          (if w.eventCallback then [.SYS_DRAIN_COMPLETE] else [])
        else []) := by
  obtain ⟨h1, h2, h3, h4, h5, h6, h7⟩ := hs
  have hin : w.inletValveOpen = false := by
    rcases h7 with h | h
    · exact h
    · rw [hdr] at h; cases h
  unfold WaterSystem.update
  rw [updateFill_skip w δ (by simp [hin])]
  dsimp only
  rw [updateDrain_draining w δ hdr hpos]
  simp only [h2, List.nil_append]

/-- The reset state is sound. -/
theorem sound_fresh (callback : Bool) : (WaterSystem.fresh callback).Sound := by
  constructor <;>
    norm_num [WaterSystem.fresh, WaterSystem.reset, WaterSystem.setEventCallback,
      WaterSystem.new]

/-- In a sound state the reservoir is not low, so `startFilling` opens the
inlet valve and reports nothing. -/
theorem startFilling_eq (w : WaterSystem) (T : ℚ) (hs : w.Sound) :
    w.startFilling T =
      ({ w with targetLevel := T, inletValveOpen := true, drainValveOpen := false }, []) := by
  unfold WaterSystem.startFilling
  have : ¬(w.reservoirLevel < w.lowThreshold) := by
    rw [hs.lowThreshold]
    exact not_lt.mpr hs.reservoir
  simp only [this, if_false]

theorem sound_startFilling (w : WaterSystem) (T : ℚ) (hs : w.Sound) :
    (w.startFilling T).1.Sound := by
  rw [startFilling_eq w T hs]
  exact ⟨hs.fillRate, hs.drainRate, hs.lowThreshold, hs.maxReservoir, hs.reservoir, hs.level,
    Or.inr rfl⟩

theorem sound_stopFilling (w : WaterSystem) (hs : w.Sound) : w.stopFilling.Sound :=
  ⟨hs.fillRate, hs.drainRate, hs.lowThreshold, hs.maxReservoir, hs.reservoir, hs.level,
    Or.inl rfl⟩

theorem sound_startDraining (w : WaterSystem) (hs : w.Sound) : w.startDraining.Sound :=
  ⟨hs.fillRate, hs.drainRate, hs.lowThreshold, hs.maxReservoir, hs.reservoir, hs.level,
    Or.inl rfl⟩

theorem sound_stopDraining (w : WaterSystem) (hs : w.Sound) : w.stopDraining.Sound :=
  ⟨hs.fillRate, hs.drainRate, hs.lowThreshold, hs.maxReservoir, hs.reservoir, hs.level,
    Or.inr rfl⟩

/-- One `update` with non-negative delta keeps the water system sound, keeps
target and callback, and never lifts the level above the larger of the old
level and the target. -/
theorem sound_update (w : WaterSystem) (δ : ℚ) (hs : w.Sound) (hδ : 0 ≤ δ) :
    (w.update δ).1.Sound ∧ (w.update δ).1.targetLevel = w.targetLevel ∧
    (w.update δ).1.eventCallback = w.eventCallback ∧
    (w.update δ).1.currentLevel ≤ max w.currentLevel w.targetLevel ∧
    (w.currentLevel ≤ w.targetLevel →
      (w.update δ).1.currentLevel ≤ (w.update δ).1.targetLevel) := by
  have hamt : 0 ≤ min (10 * δ) w.reservoirLevel :=
    le_min (by positivity) (le_trans (by norm_num) hs.reservoir)
  by_cases hA : w.inletValveOpen = true ∧ w.currentLevel < w.targetLevel
  · rw [update_filling w δ hs hA.1 hA.2]
    have hdr : w.drainValveOpen = false := by
      rcases hs.valves with h | h
      · rw [hA.1] at h; cases h
      · exact h
    refine ⟨⟨hs.fillRate, hs.drainRate, hs.lowThreshold, hs.maxReservoir, ?_, ?_, Or.inr hdr⟩,
      rfl, rfl, ?_, ?_⟩
    · show (10 : ℚ) ≤ if _ then _ else _
      split_ifs with h
      · norm_num
      · exact not_lt.mp h
    · exact le_min (le_trans hs.level hA.2.le) (add_nonneg hs.level hamt)
    · exact le_trans (min_le_left _ _) (le_max_right _ _)
    · intro _
      exact min_le_left _ _
  · by_cases hB : w.drainValveOpen = true ∧ 0 < w.currentLevel
    · rw [update_draining w δ hs hB.1 hB.2]
      have hin : w.inletValveOpen = false := by
        rcases hs.valves with h | h
        · exact h
        · rw [hB.1] at h; cases h
      have hdown : max 0 (w.currentLevel - 15 * δ) ≤ w.currentLevel :=
        max_le hs.level (by linarith)
      refine ⟨⟨hs.fillRate, hs.drainRate, hs.lowThreshold, hs.maxReservoir, hs.reservoir,
        le_max_left _ _, Or.inl hin⟩, rfl, rfl, le_trans hdown (le_max_left _ _), ?_⟩
      intro hle
      exact le_trans hdown hle
    · rw [update_idle w δ hA hB]
      exact ⟨hs, rfl, rfl, le_max_left _ _, fun h => h⟩

/-- Every command and every `update` with non-negative delta keeps the water
system sound. -/
theorem sound_applyOp (w : WaterSystem) (op : WaterOp) (hs : w.Sound)
    (hop : op.nonNegative) : (w.applyOp op).1.Sound := by
  cases op with
  | startFilling T => exact sound_startFilling w T hs
  | stopFilling => exact sound_stopFilling w hs
  | startDraining => exact sound_startDraining w hs
  | stopDraining => exact sound_stopDraining w hs
  | update δ => exact (sound_update w δ hs hop).1

theorem sound_runOps (ops : List WaterOp) :
    ∀ w : WaterSystem, w.Sound → (∀ op ∈ ops, op.nonNegative) → (w.runOps ops).Sound := by
  induction ops with
  | nil => intro w hs _; exact hs
  | cons op rest ih =>
    intro w hs hnn
    exact ih _ (sound_applyOp w op hs (hnn op (List.mem_cons_self _ _)))
      (fun o ho => hnn o (List.mem_cons_of_mem _ ho))

/-- The level stays at or below the target along a sequence of calls in which
no `startFilling` asks for a target below the current level. -/
theorem level_le_target_runOps (ops : List WaterOp) :
    ∀ w : WaterSystem, w.Sound → w.currentLevel ≤ w.targetLevel →
      (∀ op ∈ ops, op.nonNegative) → w.fillsUpward ops = true →
      (w.runOps ops).currentLevel ≤ (w.runOps ops).targetLevel := by
  induction ops with
  | nil => intro w _ hle _ _; exact hle
  | cons op rest ih =>
    intro w hs hle hnn hup
    have hop := hnn op (List.mem_cons_self _ _)
    simp only [WaterSystem.fillsUpward, Bool.and_eq_true] at hup
    refine ih _ (sound_applyOp w op hs hop) ?_
      (fun o ho => hnn o (List.mem_cons_of_mem _ ho)) hup.2
    cases op with
    | startFilling T =>
      have h1 : w.currentLevel ≤ T := by simpa using hup.1
      show (w.startFilling T).1.currentLevel ≤ (w.startFilling T).1.targetLevel
      rw [startFilling_eq w T hs]
      exact h1
    | stopFilling => exact hle
    | startDraining => exact hle
    | stopDraining => exact hle
    | update δ => exact (sound_update w δ hs hop).2.2.2.2 hle

/-- C24, as stated, fails: from the reset state, `startFilling(10)` and
`update(1)` bring the level to 10; `startFilling(5)` then sets the target to 5
while the level is 10, and a further `update(1)` leaves the level at 10. -/
theorem level_above_lowered_target :
    ((WaterSystem.fresh true).runOps [.startFilling 10, .update 1]).currentLevel = 10 ∧
    ((WaterSystem.fresh true).runOps
      [.startFilling 10, .update 1, .startFilling 5]).currentLevel = 10 ∧
    ((WaterSystem.fresh true).runOps
      [.startFilling 10, .update 1, .startFilling 5]).targetLevel = 5 ∧
    ((WaterSystem.fresh true).runOps
      [.startFilling 10, .update 1, .startFilling 5, .update 1]).currentLevel = 10 := by
  decide!

/-- C24 (amended): from the reset state, after every sequence of commands and
`update` calls with non-negative delta in which no `startFilling` asks for a
target below the level the tub has at that call, current level <= target
level.  After any sequence (this restriction dropped) an `update` with
non-negative delta never lifts the level above the larger of the old level and
the target, and an `update` that would overshoot (inlet open, level below the
target, level plus fill amount at or above it) sets the level exactly to the
target and closes the inlet valve. -/
theorem fill_level_bounded_by_target (callback : Bool) (ops : List WaterOp)
    (hnn : ∀ op ∈ ops, op.nonNegative) :
    ((WaterSystem.fresh callback).fillsUpward ops = true →
      ((WaterSystem.fresh callback).runOps ops).currentLevel ≤
        ((WaterSystem.fresh callback).runOps ops).targetLevel) ∧
    (∀ δ : ℚ, 0 ≤ δ →
      (((WaterSystem.fresh callback).runOps ops).update δ).1.currentLevel ≤
        max ((WaterSystem.fresh callback).runOps ops).currentLevel
          ((WaterSystem.fresh callback).runOps ops).targetLevel ∧
      (((WaterSystem.fresh callback).runOps ops).inletValveOpen = true →
        ((WaterSystem.fresh callback).runOps ops).currentLevel <
          ((WaterSystem.fresh callback).runOps ops).targetLevel →
        ((WaterSystem.fresh callback).runOps ops).targetLevel ≤
          ((WaterSystem.fresh callback).runOps ops).currentLevel +
            min (((WaterSystem.fresh callback).runOps ops).fillRate * δ)
              ((WaterSystem.fresh callback).runOps ops).reservoirLevel →
        (((WaterSystem.fresh callback).runOps ops).update δ).1.currentLevel =
          ((WaterSystem.fresh callback).runOps ops).targetLevel ∧
        (((WaterSystem.fresh callback).runOps ops).update δ).1.inletValveOpen = false)) := by
  have hs := sound_runOps ops _ (sound_fresh callback) hnn
  refine ⟨fun hup => level_le_target_runOps ops _ (sound_fresh callback) ?_ hnn hup, ?_⟩
  · simp [WaterSystem.fresh, WaterSystem.reset]
  · intro δ hδ
    refine ⟨(sound_update _ δ hs hδ).2.2.2.1, ?_⟩
    intro hin hlt hover
    rw [hs.fillRate] at hover
    rw [update_filling _ δ hs hin hlt]
    exact ⟨min_eq_left hover, by simp [not_lt.mpr hover]⟩

/-- A concrete instance of `fill_level_bounded_by_target`: filling towards 10,
then towards 20. -/
theorem fill_level_bounded_by_target_witness :
    ((WaterSystem.fresh true).runOps
      [.startFilling 10, .update (1 / 2), .startFilling 20, .update 3]).currentLevel ≤
    ((WaterSystem.fresh true).runOps
      [.startFilling 10, .update (1 / 2), .startFilling 20, .update 3]).targetLevel :=
  (fill_level_bounded_by_target true
    [.startFilling 10, .update (1 / 2), .startFilling 20, .update 3]
    (by decide!)).1 (by decide!)

/-- C25: from the reset state, after every sequence of commands and `update`
calls with non-negative delta, current level >= 0; and in such a state a drain
update that would undershoot (drain valve open, water in the tub, level minus
drain amount at or below 0) sets the level exactly to 0 and closes the drain
valve. -/
theorem level_never_negative (callback : Bool) (ops : List WaterOp)
    (hnn : ∀ op ∈ ops, op.nonNegative) :
    0 ≤ ((WaterSystem.fresh callback).runOps ops).currentLevel ∧
    (∀ δ : ℚ, 0 ≤ δ →
      ((WaterSystem.fresh callback).runOps ops).drainValveOpen = true →
      0 < ((WaterSystem.fresh callback).runOps ops).currentLevel →
      ((WaterSystem.fresh callback).runOps ops).currentLevel -
        ((WaterSystem.fresh callback).runOps ops).drainRate * δ ≤ 0 →
      (((WaterSystem.fresh callback).runOps ops).update δ).1.currentLevel = 0 ∧
      (((WaterSystem.fresh callback).runOps ops).update δ).1.drainValveOpen = false) := by
  have hs := sound_runOps ops _ (sound_fresh callback) hnn
  refine ⟨hs.level, ?_⟩
  intro δ _ hdr hpos hunder
  rw [hs.drainRate] at hunder
  rw [update_draining _ δ hs hdr hpos]
  exact ⟨max_eq_left hunder, by simp [not_lt.mpr hunder]⟩

/-- A concrete instance of `level_never_negative`: a tub filled to 10 and
drained for 0.5 s holds 2.5 litres; the next `update(1)` empties it. -/
theorem level_never_negative_witness :
    0 ≤ ((WaterSystem.fresh true).runOps
      [.startFilling 10, .update 1, .startDraining, .update (1 / 2)]).currentLevel ∧
    (((WaterSystem.fresh true).runOps
      [.startFilling 10, .update 1, .startDraining, .update (1 / 2)]).update 1).1.currentLevel
      = 0 :=
  ⟨(level_never_negative true [.startFilling 10, .update 1, .startDraining, .update (1 / 2)]
      (by decide!)).1,
    ((level_never_negative true [.startFilling 10, .update 1, .startDraining, .update (1 / 2)]
      (by decide!)).2 1 (by norm_num) (by decide!) (by decide!) (by decide!)).1⟩

/-- One `update` of a fill cycle: the notification is reported exactly when
this update brings the level from below the target to the target. -/
theorem fill_cycle_step (w : WaterSystem) (T δ : ℚ) (hc : w.FillCycle T) (hδ : 0 ≤ δ) :
    (w.update δ).1.FillCycle T ∧
    (w.update δ).2 =
      (if w.currentLevel < T ∧ (w.update δ).1.currentLevel = T then
        [EventType.SYS_WATER_LEVEL_REACHED] else []) ∧
    (¬ w.currentLevel < T → (w.update δ).1 = w) ∧
    (w.currentLevel < T →
      (w.update δ).1.currentLevel = min T (w.currentLevel + min (10 * δ) w.reservoirLevel)) := by
  obtain ⟨hs, ht, hd, hcb, hin⟩ := hc
  have hsu := sound_update w δ hs hδ
  by_cases hlt : w.currentLevel < T
  · have hi := hin hlt
    have hlt2 : w.currentLevel < w.targetLevel := by rw [ht]; exact hlt
    have hu := update_filling w δ hs hi hlt2
    rw [ht, hcb] at hu
    have hlev : (w.update δ).1.currentLevel =
        min T (w.currentLevel + min (10 * δ) w.reservoirLevel) := by rw [hu]
    have hinl : (w.update δ).1.inletValveOpen =
        decide (w.currentLevel + min (10 * δ) w.reservoirLevel < T) := by rw [hu]
    have hev : (w.update δ).2 =
        if T ≤ w.currentLevel + min (10 * δ) w.reservoirLevel then
          [EventType.SYS_WATER_LEVEL_REACHED] else [] := by rw [hu]; simp
    have hdr : (w.update δ).1.drainValveOpen = false := by rw [hu]; exact hd
    refine ⟨⟨hsu.1, hsu.2.1.trans ht, hdr, hsu.2.2.1.trans hcb, ?_⟩, ?_,
      fun h => absurd hlt h, fun _ => hlev⟩
    · intro hbelow
      rw [hinl]
      rw [hlev] at hbelow
      by_contra hne
      have : T ≤ w.currentLevel + min (10 * δ) w.reservoirLevel := by
        simpa using hne
      rw [min_eq_left this] at hbelow
      exact lt_irrefl _ hbelow
    · rw [hev, hlev]
      by_cases hover : T ≤ w.currentLevel + min (10 * δ) w.reservoirLevel
      · rw [if_pos hover, if_pos ⟨hlt, min_eq_left hover⟩]
      · rw [if_neg hover, if_neg]
        rintro ⟨-, h⟩
        rw [min_eq_right (not_le.mp hover).le] at h
        exact hover h.ge
  · have hidle : w.update δ = (w, []) :=
      update_idle w δ (by rw [ht]; exact fun h => hlt h.2) (by simp [hd])
    rw [hidle]
    exact ⟨⟨hs, ht, hd, hcb, hin⟩, by rw [if_neg (fun h => hlt h.1)], fun _ => rfl,
      fun h => absurd h hlt⟩

/-- A whole fill cycle: the notification is reported once if the cycle starts
below the target and ends at it, and not at all otherwise. -/
theorem fill_cycle_updates (T : ℚ) (ds : List ℚ) :
    ∀ w : WaterSystem, w.FillCycle T → (∀ δ ∈ ds, 0 ≤ δ) →
      (w.updates ds).1.FillCycle T ∧
      (w.updates ds).2 =
        (if w.currentLevel < T ∧ (w.updates ds).1.currentLevel = T then
          [EventType.SYS_WATER_LEVEL_REACHED] else []) ∧
      (¬ w.currentLevel < T → (w.updates ds).1 = w) := by
  induction ds with
  | nil =>
    intro w hc _
    refine ⟨hc, ?_, fun _ => rfl⟩
    show [] = _
    rw [if_neg]
    rintro ⟨h1, h2⟩
    have h3 : w.currentLevel = T := h2
    rw [h3] at h1
    exact lt_irrefl _ h1
  | cons δ rest ih =>
    intro w hc hnn
    obtain ⟨s1, s2, s3, s4⟩ := fill_cycle_step w T δ hc (hnn δ (List.mem_cons_self _ _))
    obtain ⟨i1, i2, i3⟩ := ih (w.update δ).1 s1 (fun d hd => hnn d (List.mem_cons_of_mem _ hd))
    have hfin : (w.updates (δ :: rest)).1 = ((w.update δ).1.updates rest).1 := rfl
    have hev : (w.updates (δ :: rest)).2 = (w.update δ).2 ++ ((w.update δ).1.updates rest).2 :=
      rfl
    rw [hfin, hev]
    refine ⟨i1, ?_, ?_⟩
    · by_cases hlt : w.currentLevel < T
      · by_cases hreach : (w.update δ).1.currentLevel = T
        · have hnot : ¬ (w.update δ).1.currentLevel < T := by rw [hreach]; exact lt_irrefl _
          rw [s2, i2, if_pos ⟨hlt, hreach⟩, if_neg (fun h => hnot h.1), i3 hnot,
            if_pos ⟨hlt, hreach⟩]
          rfl
        · have hle : (w.update δ).1.currentLevel ≤ T := by
            rw [s4 hlt]; exact min_le_left _ _
          have hlt2 : (w.update δ).1.currentLevel < T := lt_of_le_of_ne hle hreach
          rw [s2, i2, if_neg (fun h => hreach h.2)]
          by_cases hend : ((w.update δ).1.updates rest).1.currentLevel = T
          · rw [if_pos ⟨hlt2, hend⟩, if_pos ⟨hlt, hend⟩]
            rfl
          · rw [if_neg (fun h => hend h.2), if_neg (fun h => hend h.2)]
            rfl
      · rw [s2, i2, if_neg (fun h => hlt h.1), s3 hlt, if_neg (fun h => hlt h.1)]
        rfl
    · intro hlt
      rw [s3 hlt] at i3 ⊢
      exact i3 hlt

/-- One `update` of a drain cycle: the notification is reported exactly when
this update empties the tub. -/
theorem drain_cycle_step (w : WaterSystem) (δ : ℚ) (hc : w.DrainCycle) (hδ : 0 ≤ δ) :
    (w.update δ).1.DrainCycle ∧
    (w.update δ).2 =
      (if 0 < w.currentLevel ∧ (w.update δ).1.currentLevel = 0 then
        [EventType.SYS_DRAIN_COMPLETE] else []) ∧
    (¬ 0 < w.currentLevel → (w.update δ).1 = w) ∧
    (0 < w.currentLevel → (w.update δ).1.currentLevel = max 0 (w.currentLevel - 15 * δ)) := by
  obtain ⟨hs, hin, hcb, hdr⟩ := hc
  have hsu := sound_update w δ hs hδ
  by_cases hpos : 0 < w.currentLevel
  · have hd := hdr hpos
    have hu := update_draining w δ hs hd hpos
    rw [hcb] at hu
    have hlev : (w.update δ).1.currentLevel = max 0 (w.currentLevel - 15 * δ) := by rw [hu]
    have hdv : (w.update δ).1.drainValveOpen = decide (0 < w.currentLevel - 15 * δ) := by
      rw [hu]
    have hev : (w.update δ).2 =
        if w.currentLevel - 15 * δ ≤ 0 then [EventType.SYS_DRAIN_COMPLETE] else [] := by
      rw [hu]; simp
    have hinl : (w.update δ).1.inletValveOpen = false := by rw [hu]; exact hin
    refine ⟨⟨hsu.1, hinl, hsu.2.2.1.trans hcb, ?_⟩, ?_, fun h => absurd hpos h, fun _ => hlev⟩
    · intro hab
      rw [hdv]
      rw [hlev] at hab
      by_contra hne
      have : w.currentLevel - 15 * δ ≤ 0 := by simpa using hne
      rw [max_eq_left this] at hab
      exact lt_irrefl _ hab
    · rw [hev, hlev]
      by_cases hunder : w.currentLevel - 15 * δ ≤ 0
      · rw [if_pos hunder, if_pos ⟨hpos, max_eq_left hunder⟩]
      · rw [if_neg hunder, if_neg]
        rintro ⟨-, h⟩
        rw [max_eq_right (not_le.mp hunder).le] at h
        exact hunder h.le
  · have hidle : w.update δ = (w, []) :=
      update_idle w δ (by simp [hin]) (fun h => hpos h.2)
    rw [hidle]
    exact ⟨⟨hs, hin, hcb, hdr⟩, by rw [if_neg (fun h => hpos h.1)], fun _ => rfl,
      fun h => absurd h hpos⟩

/-- A whole drain cycle: the notification is reported once if the cycle starts
with water in the tub and ends empty, and not at all otherwise. -/
theorem drain_cycle_updates (ds : List ℚ) :
    ∀ w : WaterSystem, w.DrainCycle → (∀ δ ∈ ds, 0 ≤ δ) →
      (w.updates ds).1.DrainCycle ∧
      (w.updates ds).2 =
        (if 0 < w.currentLevel ∧ (w.updates ds).1.currentLevel = 0 then
          [EventType.SYS_DRAIN_COMPLETE] else []) ∧
      (¬ 0 < w.currentLevel → (w.updates ds).1 = w) := by
  induction ds with
  | nil =>
    intro w hc _
    refine ⟨hc, ?_, fun _ => rfl⟩
    show [] = _
    rw [if_neg]
    rintro ⟨h1, h2⟩
    have h3 : w.currentLevel = 0 := h2
    rw [h3] at h1
    exact lt_irrefl _ h1
  | cons δ rest ih =>
    intro w hc hnn
    obtain ⟨s1, s2, s3, s4⟩ := drain_cycle_step w δ hc (hnn δ (List.mem_cons_self _ _))
    obtain ⟨i1, i2, i3⟩ := ih (w.update δ).1 s1 (fun d hd => hnn d (List.mem_cons_of_mem _ hd))
    have hfin : (w.updates (δ :: rest)).1 = ((w.update δ).1.updates rest).1 := rfl
    have hev : (w.updates (δ :: rest)).2 = (w.update δ).2 ++ ((w.update δ).1.updates rest).2 :=
      rfl
    rw [hfin, hev]
    refine ⟨i1, ?_, ?_⟩
    · by_cases hpos : 0 < w.currentLevel
      · by_cases hreach : (w.update δ).1.currentLevel = 0
        · have hnot : ¬ 0 < (w.update δ).1.currentLevel := by rw [hreach]; exact lt_irrefl _
          rw [s2, i2, if_pos ⟨hpos, hreach⟩, if_neg (fun h => hnot h.1), i3 hnot,
            if_pos ⟨hpos, hreach⟩]
          rfl
        · have hge : 0 ≤ (w.update δ).1.currentLevel := s1.sound.level
          have hpos2 : 0 < (w.update δ).1.currentLevel := lt_of_le_of_ne hge (Ne.symm hreach)
          rw [s2, i2, if_neg (fun h => hreach h.2)]
          by_cases hend : ((w.update δ).1.updates rest).1.currentLevel = 0
          · rw [if_pos ⟨hpos2, hend⟩, if_pos ⟨hpos, hend⟩]
            rfl
          · rw [if_neg (fun h => hend h.2), if_neg (fun h => hend h.2)]
            rfl
      · rw [s2, i2, if_neg (fun h => hpos h.1), s3 hpos, if_neg (fun h => hpos h.1)]
        rfl
    · intro hpos
      rw [s3 hpos] at i3 ⊢
      exact i3 hpos

/-- The call `startFilling(T)` starts a fill cycle, reports nothing and keeps
the level. -/
theorem fillCycle_startFilling (w : WaterSystem) (T : ℚ) (hs : w.Sound)
    (hcb : w.eventCallback = true) :
    (w.startFilling T).1.FillCycle T ∧ (w.startFilling T).2 = [] ∧
    (w.startFilling T).1.currentLevel = w.currentLevel := by
  have hsf := sound_startFilling w T hs
  rw [startFilling_eq w T hs] at hsf ⊢
  exact ⟨⟨hsf, rfl, rfl, hcb, fun _ => rfl⟩, rfl, rfl⟩

/-- The call `startDraining()` starts a drain cycle. -/
theorem drainCycle_startDraining (w : WaterSystem) (hs : w.Sound)
    (hcb : w.eventCallback = true) : w.startDraining.DrainCycle :=
  ⟨sound_startDraining w hs, rfl, hcb, fun _ => rfl⟩

/-- Reachable water-system states are sound. -/
theorem sound_reachable (w : WaterSystem) (hr : w.Reachable) : w.Sound := by
  obtain ⟨callback, ops, hnn, rfl⟩ := hr
  exact sound_runOps ops _ (sound_fresh callback) hnn

/-- C26, as stated, fails: with a callback registered and the tub at 10
litres, the fill cycle `startFilling(5)` followed by three `update(1)` reports
no event and leaves the water system as it was, so no later update reports one
either; likewise the drain cycle `startDraining()` on the empty tub of the reset
state. -/
theorem no_notification_without_crossing :
    ((WaterSystem.fresh true).runOps [.startFilling 10, .update 1]).currentLevel = 10 ∧
    ((((WaterSystem.fresh true).runOps [.startFilling 10, .update 1]).startFilling 5).1.updates
      [1, 1, 1]) =
      ((((WaterSystem.fresh true).runOps [.startFilling 10, .update 1]).startFilling 5).1, []) ∧
    (WaterSystem.fresh true).currentLevel = 0 ∧
    (WaterSystem.fresh true).startDraining.updates [1, 1, 1] =
      ((WaterSystem.fresh true).startDraining, []) := by
  decide!

/-- C26 (amended): let the water system be in a state reachable from the reset
state, with a callback registered.  In the fill cycle `startFilling(T)` followed
by `update` calls with non-negative delta, `startFilling` itself reports
nothing, an update reports `SYS_WATER_LEVEL_REACHED` (and only that) exactly
when it brings the level from below `T` to `T`, and the cycle as a whole reports
the event once if it started below `T` and has reached `T`, and otherwise
nothing.  The same holds for the drain cycle `startDraining()` with
`SYS_DRAIN_COMPLETE` and level 0: reported exactly at the update that empties a
tub that held water, once per cycle, never for a tub that was already empty.
Whether a cycle ever reaches its clamp is not part of the statement. -/
theorem notification_at_the_clamp (w : WaterSystem) (hr : w.Reachable)
    (hcb : w.eventCallback = true) (T : ℚ) (ds : List ℚ) (hds : ∀ δ ∈ ds, 0 ≤ δ) :
    ((w.startFilling T).2 = [] ∧
      (∀ (pre : List ℚ) (δ : ℚ) (post : List ℚ), ds = pre ++ δ :: post →
        (((w.startFilling T).1.updates pre).1.update δ).2 =
          if ((w.startFilling T).1.updates pre).1.currentLevel < T ∧
              (((w.startFilling T).1.updates pre).1.update δ).1.currentLevel = T then
            [EventType.SYS_WATER_LEVEL_REACHED]
          else []) ∧
      ((w.startFilling T).1.updates ds).2 =
        (if w.currentLevel < T ∧ ((w.startFilling T).1.updates ds).1.currentLevel = T then
          [EventType.SYS_WATER_LEVEL_REACHED]
        else [])) ∧
    ((∀ (pre : List ℚ) (δ : ℚ) (post : List ℚ), ds = pre ++ δ :: post →
        ((w.startDraining.updates pre).1.update δ).2 =
          if 0 < (w.startDraining.updates pre).1.currentLevel ∧
              ((w.startDraining.updates pre).1.update δ).1.currentLevel = 0 then
            [EventType.SYS_DRAIN_COMPLETE]
          else []) ∧
      (w.startDraining.updates ds).2 =
        (if 0 < w.currentLevel ∧ (w.startDraining.updates ds).1.currentLevel = 0 then
          [EventType.SYS_DRAIN_COMPLETE]
        else [])) := by
  have hs := sound_reachable w hr
  obtain ⟨hf, hfe, hfl⟩ := fillCycle_startFilling w T hs hcb
  have hd := drainCycle_startDraining w hs hcb
  have hpre : ∀ (pre : List ℚ) (δ : ℚ) (post : List ℚ), ds = pre ++ δ :: post →
      (∀ d ∈ pre, 0 ≤ d) ∧ 0 ≤ δ := by
    intro pre δ post h
    subst h
    exact ⟨fun d hd => hds d (List.mem_append_left _ hd),
      hds δ (List.mem_append_right _ (List.mem_cons_self _ _))⟩
  refine ⟨⟨hfe, ?_, ?_⟩, ?_, ?_⟩
  · intro pre δ post h
    obtain ⟨h1, h2⟩ := hpre pre δ post h
    exact (fill_cycle_step _ T δ (fill_cycle_updates T pre _ hf h1).1 h2).2.1
  · have := (fill_cycle_updates T ds _ hf hds).2.1
    rw [hfl] at this
    exact this
  · intro pre δ post h
    obtain ⟨h1, h2⟩ := hpre pre δ post h
    exact (drain_cycle_step _ δ (drain_cycle_updates pre _ hd h1).1 h2).2.1
  · exact (drain_cycle_updates ds _ hd hds).2.1

/-- A concrete instance of `notification_at_the_clamp`: from the reset state,
`startFilling(5)` and three updates of 0.25 s report the event once. -/
theorem notification_at_the_clamp_witness :
    (((WaterSystem.fresh true).startFilling 5).1.updates [1 / 4, 1 / 4, 1 / 4]).2 =
      [EventType.SYS_WATER_LEVEL_REACHED] := by
  have h := (notification_at_the_clamp (WaterSystem.fresh true)
    ⟨true, [], by simp, rfl⟩ rfl 5 [1 / 4, 1 / 4, 1 / 4] (by decide!)).1.2.2
  rw [h]
  decide!

/-! ## Program lookup and the event channel -/

/-- On a non-empty program list `getMode` returns an element of the list: the
one at the index when that is in range, the first one otherwise. -/
theorem getMode_spec (c : ConfigManager) (i : Int) (hne : c.modes ≠ []) :
    (0 ≤ i ∧ i < c.getModeCount → c.modes[i.toNat]? = some (c.getMode i)) ∧
    (¬(0 ≤ i ∧ i < c.getModeCount) → c.modes.head? = some (c.getMode i)) ∧
    c.getMode i ∈ c.modes := by
  have hhead : c.modes.head? = some (c.modes.getD 0 WashMode.new) := by
    cases hm : c.modes with
    | nil => exact absurd hm hne
    | cons a l => rfl
  have hin : 0 ≤ i ∧ i < c.getModeCount →
      c.modes[i.toNat]? = some (c.modes.getD i.toNat WashMode.new) := by
    rintro ⟨h0, h1⟩
    have hlt : i.toNat < c.modes.length := by
      unfold ConfigManager.getModeCount at h1
      omega
    rw [List.getD_eq_getElem?_getD, List.getElem?_eq_getElem hlt]
    rfl
  by_cases hr : 0 ≤ i ∧ i < c.getModeCount
  · have hg : c.getMode i = c.modes.getD i.toNat WashMode.new := by
      unfold ConfigManager.getMode
      rw [if_neg]
      unfold ConfigManager.getModeCount at hr
      omega
    rw [hg]
    refine ⟨hin, fun h => absurd hr h, ?_⟩
    exact List.getElem?_mem (hin hr)
  · have hg : c.getMode i = c.modes.getD 0 WashMode.new := by
      unfold ConfigManager.getMode
      rw [if_pos]
      unfold ConfigManager.getModeCount at hr
      omega
    rw [hg]
    refine ⟨fun h => absurd h hr, fun _ => hhead, ?_⟩
    exact List.mem_of_mem_head? hhead

/-- C31: the constructor leaves the four default programs Quick Wash, Normal,
Heavy, Delicate; `loadConfig` on a file that cannot be opened or holds no
program falls back to these defaults and returns false, and on a file with
programs keeps exactly those; so the program list is non-empty after
construction and after every `loadConfig`, and there, for every integer `i`,
`getMode(i)` is the `i`-th program when `0 <= i < count` and the first program
otherwise, always an element of the list. -/
theorem program_lookup_never_fails (c : ConfigManager) (parsed : Option (List WashMode))
    (i : Int) :
    ConfigManager.new.modes.map WashMode.name =
      ["Quick Wash", "Normal", "Heavy", "Delicate"] ∧
    ((parsed = none ∨ parsed = some []) →
      c.loadConfig parsed = (false, ConfigManager.new)) ∧
    (∀ ms : List WashMode, parsed = some ms → ms ≠ [] →
      c.loadConfig parsed = (true, { modes := ms })) ∧
    (c.loadConfig parsed).2.modes ≠ [] ∧
    (∀ cfg : ConfigManager, cfg = ConfigManager.new ∨ cfg = (c.loadConfig parsed).2 →
      (0 ≤ i ∧ i < cfg.getModeCount → cfg.modes[i.toNat]? = some (cfg.getMode i)) ∧
      (¬(0 ≤ i ∧ i < cfg.getModeCount) → cfg.modes.head? = some (cfg.getMode i)) ∧
      cfg.getMode i ∈ cfg.modes) := by
  have hload : (c.loadConfig parsed).2.modes ≠ [] := by
    unfold ConfigManager.loadConfig
    cases parsed with
    | none => simp [ConfigManager.loadDefaultConfig]
    | some ms =>
      cases ms with
      | nil => simp [ConfigManager.loadDefaultConfig]
      | cons a l => simp
  refine ⟨rfl, ?_, ?_, hload, ?_⟩
  · rintro (h | h) <;> subst h <;> rfl
  · intro ms h hne
    subst h
    cases ms with
    | nil => exact absurd rfl hne
    | cons a l => rfl
  · rintro cfg (h | h)
    · subst h
      exact getMode_spec _ i (by simp [ConfigManager.new, ConfigManager.loadDefaultConfig])
    · subst h
      exact getMode_spec _ i hload

/-- A concrete instance of `program_lookup_never_fails`: after `loadConfig` on
an empty file the defaults are back, `getMode(2)` is the third program and
`getMode(7)` the first. -/
theorem program_lookup_never_fails_witness :
    (ConfigManager.new.loadConfig (some [])).2.modes[2]? =
      some ((ConfigManager.new.loadConfig (some [])).2.getMode 2) ∧
    (ConfigManager.new.loadConfig (some [])).2.modes.head? =
      some ((ConfigManager.new.loadConfig (some [])).2.getMode 7) ∧
    ConfigManager.new.loadConfig (some []) = (false, ConfigManager.new) :=
  ⟨((program_lookup_never_fails ConfigManager.new (some []) 2).2.2.2.2 _ (Or.inr rfl)).1
      (by decide),
    ((program_lookup_never_fails ConfigManager.new (some []) 7).2.2.2.2 _ (Or.inr rfl)).2.1
      (by decide),
    (program_lookup_never_fails ConfigManager.new (some []) 0).2.1 (Or.inr rfl)⟩

/-- Pops and queue together always hold the old queue followed by the pushes. -/
theorem runOps_fifo (ops : List QueueOp) :
    ∀ ee : EventEngine,
      (ee.runOps ops).2 ++ (ee.runOps ops).1.eventQueue = ee.eventQueue ++ QueueOp.pushed ops := by
  induction ops with
  | nil => intro ee; simp [EventEngine.runOps, QueueOp.pushed]
  | cons op rest ih =>
    intro ee
    cases op with
    | push ev =>
      show ((ee.pushEvent ev).runOps rest).2 ++ ((ee.pushEvent ev).runOps rest).1.eventQueue = _
      rw [ih]
      simp [EventEngine.pushEvent, QueueOp.pushed]
    | pop =>
      show (ee.popEvent.1.toList ++ (ee.popEvent.2.runOps rest).2) ++
        (ee.popEvent.2.runOps rest).1.eventQueue = _
      rw [List.append_assoc, ih]
      unfold EventEngine.popEvent
      cases hq : ee.eventQueue with
      | nil => simp [hq, QueueOp.pushed]
      | cons a l => simp [QueueOp.pushed]

/-- C32: for every sequence of `pushEvent` and `popEvent` calls on a new event
engine, the events returned by the successful pops followed by the events still
queued are exactly the pushed events in insertion order, so the popped events
are a prefix of the pushed ones, unchanged, none dropped, duplicated or
reordered; `pushEvent` appends at the back, `popEvent` takes from the front,
and on an empty queue it returns nothing and leaves the queue empty. -/
theorem event_channel_fifo (ops : List QueueOp) (running : Bool) :
    (EventEngine.new.runOps ops).2 ++ (EventEngine.new.runOps ops).1.eventQueue =
      QueueOp.pushed ops ∧
    (EventEngine.new.runOps ops).2 <+: QueueOp.pushed ops ∧
    (∀ (ee : EventEngine) (event : Event),
      (ee.pushEvent event).eventQueue = ee.eventQueue ++ [event]) ∧
    (∀ (event : Event) (rest : List Event),
      ({ eventQueue := event :: rest, running := running } : EventEngine).popEvent =
        (some event, { eventQueue := rest, running := running })) ∧
    ({ eventQueue := [], running := running } : EventEngine).popEvent =
      (none, { eventQueue := [], running := running }) := by
  have h := runOps_fifo ops EventEngine.new
  have h2 : (EventEngine.new.runOps ops).2 ++ (EventEngine.new.runOps ops).1.eventQueue =
      QueueOp.pushed ops := by
    rw [h]; rfl
  exact ⟨h2, ⟨_, h2⟩, fun _ _ => rfl, fun _ _ => rfl, rfl⟩

/-! ## The simulation tick, `start()` and the program of a running cycle -/

/-- What the entry observer never touches: the cycle timing, the selected
program, the load, the configuration and the water level. -/
theorem onStateEnter_keeps (a b : State) (wm : WashingMachine) :
    (WashingMachine.onStateEnter a b wm).cycleTimeElapsed = wm.cycleTimeElapsed ∧
    (WashingMachine.onStateEnter a b wm).cycleProgress = wm.cycleProgress ∧
    (WashingMachine.onStateEnter a b wm).totalCycleTime = wm.totalCycleTime ∧
    (WashingMachine.onStateEnter a b wm).currentModeIndex = wm.currentModeIndex ∧
    (WashingMachine.onStateEnter a b wm).loadWeight = wm.loadWeight ∧
    (WashingMachine.onStateEnter a b wm).config = wm.config ∧
    (WashingMachine.onStateEnter a b wm).water.currentLevel = wm.water.currentLevel := by
  cases a <;> try exact ⟨rfl, rfl, rfl, rfl, rfl, rfl, rfl⟩
  refine ⟨rfl, rfl, rfl, rfl, rfl, rfl, ?_⟩
  show (wm.water.startFilling _).1.currentLevel = _
  unfold WaterSystem.startFilling
  split <;> rfl

/-- `forceState` on the orchestrator leaves the same members alone. -/
theorem smForceState_keeps (wm : WashingMachine) (d : State) :
    (wm.smForceState d).cycleTimeElapsed = wm.cycleTimeElapsed ∧
    (wm.smForceState d).cycleProgress = wm.cycleProgress ∧
    (wm.smForceState d).totalCycleTime = wm.totalCycleTime ∧
    (wm.smForceState d).currentModeIndex = wm.currentModeIndex ∧
    (wm.smForceState d).loadWeight = wm.loadWeight ∧
    (wm.smForceState d).config = wm.config ∧
    (wm.smForceState d).water.currentLevel = wm.water.currentLevel := by
  rw [smForceState_eq]
  exact onStateEnter_keeps d _ _

/-- `transition` on the orchestrator leaves the same members alone. -/
theorem smTransition_keeps (wm : WashingMachine) (e : EventType) :
    (wm.smTransition e).2.cycleTimeElapsed = wm.cycleTimeElapsed ∧
    (wm.smTransition e).2.cycleProgress = wm.cycleProgress ∧
    (wm.smTransition e).2.totalCycleTime = wm.totalCycleTime ∧
    (wm.smTransition e).2.currentModeIndex = wm.currentModeIndex ∧
    (wm.smTransition e).2.loadWeight = wm.loadWeight ∧
    (wm.smTransition e).2.config = wm.config ∧
    (wm.smTransition e).2.water.currentLevel = wm.water.currentLevel := by
  rw [smTransition_eq]
  cases specTable wm.stateMachine.currentState e with
  | none => exact ⟨rfl, rfl, rfl, rfl, rfl, rfl, rfl⟩
  | some d => exact smForceState_keeps wm d

/-- The start logic of a phase leaves the same members alone. -/
theorem startPhase_keeps (wm : WashingMachine) (r : State) :
    (wm.startPhase r).cycleTimeElapsed = wm.cycleTimeElapsed ∧
    (wm.startPhase r).cycleProgress = wm.cycleProgress ∧
    (wm.startPhase r).totalCycleTime = wm.totalCycleTime ∧
    (wm.startPhase r).currentModeIndex = wm.currentModeIndex ∧
    (wm.startPhase r).loadWeight = wm.loadWeight ∧
    (wm.startPhase r).config = wm.config ∧
    (wm.startPhase r).water.currentLevel = wm.water.currentLevel := by
  cases r <;> try exact ⟨rfl, rfl, rfl, rfl, rfl, rfl, rfl⟩
  exact onStateEnter_keeps .Filling .Idle wm

/-- The queue after the callback has pushed the reported event types. -/
theorem pushEvents_queue (wm : WashingMachine) (ts : List EventType) :
    (wm.pushEvents ts).eventEngine.eventQueue =
      wm.eventEngine.eventQueue ++ ts.map (fun t => { type := t, data := .none }) := by
  have key : ∀ (l : List EventType) (ee : EventEngine),
      (l.foldl (fun acc t => acc.pushEventType t) ee).eventQueue =
        ee.eventQueue ++ l.map (fun t => ({ type := t, data := .none } : Event)) := by
    intro l
    induction l with
    | nil => intro ee; simp
    | cons t rest ih =>
      intro ee
      rw [List.foldl_cons, ih]
      simp [EventEngine.pushEventType, EventEngine.pushEvent]
  exact key ts wm.eventEngine

/-- The members of the machine after the first part of the active block of
`updateSimulation`. -/
theorem advanceCycle_parts (wm : WashingMachine) (δ : ℚ) :
    (wm.advanceCycle δ).water = (wm.water.update δ).1 ∧
    (wm.advanceCycle δ).motor = wm.motor.update δ ∧
    (wm.advanceCycle δ).cycleTimeElapsed = wm.cycleTimeElapsed + δ ∧
    (wm.advanceCycle δ).phaseTimeElapsed = wm.phaseTimeElapsed + δ ∧
    (wm.advanceCycle δ).currentPhaseTime = wm.currentPhaseTime ∧
    (wm.advanceCycle δ).totalCycleTime = wm.totalCycleTime ∧
    (wm.advanceCycle δ).currentModeIndex = wm.currentModeIndex ∧
    (wm.advanceCycle δ).loadWeight = wm.loadWeight ∧
    (wm.advanceCycle δ).cycleProgress =
      (if wm.totalCycleTime > 0 then
        (if (wm.cycleTimeElapsed + δ) / wm.totalCycleTime * 100 > 100 then 100
          else (wm.cycleTimeElapsed + δ) / wm.totalCycleTime * 100)
      else wm.cycleProgress) := by
  unfold WashingMachine.advanceCycle WashingMachine.pushEvents
  dsimp only
  by_cases h : wm.totalCycleTime > 0
  · rw [if_pos h, if_pos h]
    exact ⟨rfl, rfl, rfl, rfl, rfl, rfl, rfl, rfl, rfl⟩
  · rw [if_neg h, if_neg h]
    exact ⟨rfl, rfl, rfl, rfl, rfl, rfl, rfl, rfl, rfl⟩

/-- The `switch` of the active block only appends to the queue. -/
theorem raisePhaseComplete_parts (wm : WashingMachine) (s : State) :
    (wm.raisePhaseComplete s).water = wm.water ∧
    (wm.raisePhaseComplete s).motor = wm.motor ∧
    (wm.raisePhaseComplete s).cycleTimeElapsed = wm.cycleTimeElapsed ∧
    (wm.raisePhaseComplete s).phaseTimeElapsed = wm.phaseTimeElapsed ∧
    (wm.raisePhaseComplete s).cycleProgress = wm.cycleProgress ∧
    (wm.raisePhaseComplete s).totalCycleTime = wm.totalCycleTime ∧
    (wm.raisePhaseComplete s).currentModeIndex = wm.currentModeIndex ∧
    (wm.raisePhaseComplete s).loadWeight = wm.loadWeight ∧
    (wm.raisePhaseComplete s).eventEngine.eventQueue =
      wm.eventEngine.eventQueue ++
        (if wm.phaseTimeElapsed ≥ wm.currentPhaseTime then
          (phaseCompleteEvent s).toList.map (fun t => { type := t, data := .none })
        else []) := by
  unfold WashingMachine.raisePhaseComplete
  cases s <;> dsimp only <;> (try split) <;>
    simp [phaseCompleteEvent, EventEngine.pushEventType, EventEngine.pushEvent, *]

/-- The members of the machine after the `EmergencyStop` block of
`updateSimulation`. -/
theorem drainInEmergency_parts (wm : WashingMachine) (δ : ℚ) :
    (wm.drainInEmergency δ).water = (wm.water.update δ).1 ∧
    (wm.drainInEmergency δ).motor = wm.motor ∧
    (wm.drainInEmergency δ).cycleTimeElapsed = wm.cycleTimeElapsed ∧
    (wm.drainInEmergency δ).phaseTimeElapsed = wm.phaseTimeElapsed ∧
    (wm.drainInEmergency δ).cycleProgress = wm.cycleProgress ∧
    (wm.drainInEmergency δ).totalCycleTime = wm.totalCycleTime ∧
    (wm.drainInEmergency δ).currentModeIndex = wm.currentModeIndex ∧
    (wm.drainInEmergency δ).loadWeight = wm.loadWeight ∧
    (wm.drainInEmergency δ).door =
      (if (wm.water.update δ).1.currentLevel ≤ 0 ∧ wm.motor.currentRPM = 0 then
        wm.door.unlock else wm.door) := by
  unfold WashingMachine.drainInEmergency WashingMachine.pushEvents
  dsimp only [WaterSystem.getCurrentLevel, MotorSystem.getCurrentRPM]
  by_cases h : (wm.water.update δ).1.currentLevel ≤ 0 ∧ wm.motor.currentRPM = 0
  · rw [if_pos h, if_pos h]
    exact ⟨rfl, rfl, rfl, rfl, rfl, rfl, rfl, rfl, rfl⟩
  · rw [if_neg h, if_neg h]
    exact ⟨rfl, rfl, rfl, rfl, rfl, rfl, rfl, rfl, rfl⟩

/-- `updateSimulation` by kind of state. -/
theorem updateSimulation_cases (wm : WashingMachine) (δ : ℚ) :
    (wm.stateMachine.isActiveState = true →
      wm.updateSimulation δ =
        (wm.advanceCycle δ).raisePhaseComplete wm.stateMachine.currentState) ∧
    (wm.stateMachine.currentState = .Paused →
      wm.updateSimulation δ = { wm with motor := wm.motor.update δ }) ∧
    (wm.stateMachine.currentState = .EmergencyStop →
      wm.updateSimulation δ = wm.drainInEmergency δ) ∧
    (wm.stateMachine.currentState ∈ [State.Idle, .DoorOpen, .Ready, .Completed, .Fault] →
      wm.updateSimulation δ = wm) := by
  rw [updateSimulation_eq]
  cases hs : wm.stateMachine.currentState <;>
    simp [StateMachine.isActiveState, hs]

/-- C33, as stated, fails: on `pausedMachine` (state `Paused`, 3 s elapsed)
`updateSimulation(1)` leaves cycle elapsed time at 3, and leaves phase elapsed
time and the water system as they are. -/
theorem updateSimulation_skips_time_while_paused :
    pausedMachine.stateMachine.currentState = .Paused ∧
    pausedMachine.cycleTimeElapsed = 3 ∧
    (pausedMachine.updateSimulation 1).cycleTimeElapsed = 3 ∧
    (pausedMachine.updateSimulation 1).phaseTimeElapsed = pausedMachine.phaseTimeElapsed ∧
    (pausedMachine.updateSimulation 1).water = pausedMachine.water := by
  decide!

/-- C33 (amended): in an active state `updateSimulation(delta)` replaces the
water system by `water.update(delta)` and the motor by `motor.update(delta)` and
adds `delta` to cycle elapsed time and phase elapsed time; in `Paused` it only
advances the motor (`motor.update(delta)`) and changes nothing else; in `Idle`,
`DoorOpen`, `Ready`, `Completed` and `Fault` it changes nothing. -/
theorem per_tick_advance (wm : WashingMachine) (δ : ℚ) :
    (wm.stateMachine.isActiveState = true →
      (wm.updateSimulation δ).water = (wm.water.update δ).1 ∧
      (wm.updateSimulation δ).motor = wm.motor.update δ ∧
      (wm.updateSimulation δ).cycleTimeElapsed = wm.cycleTimeElapsed + δ ∧
      (wm.updateSimulation δ).phaseTimeElapsed = wm.phaseTimeElapsed + δ) ∧
    (wm.stateMachine.currentState = .Paused →
      wm.updateSimulation δ = { wm with motor := wm.motor.update δ }) ∧
    (wm.stateMachine.currentState ∈ [State.Idle, .DoorOpen, .Ready, .Completed, .Fault] →
      wm.updateSimulation δ = wm) := by
  obtain ⟨h1, h2, -, h4⟩ := updateSimulation_cases wm δ
  refine ⟨?_, h2, h4⟩
  intro hact
  rw [h1 hact]
  obtain ⟨r1, r2, r3, r4, -⟩ :=
    raisePhaseComplete_parts (wm.advanceCycle δ) wm.stateMachine.currentState
  obtain ⟨a1, a2, a3, a4, -⟩ := advanceCycle_parts wm δ
  exact ⟨r1.trans a1, r2.trans a2, r3.trans a3, r4.trans a4⟩

/-- A concrete instance of `per_tick_advance`: `washingMachine` gains 1 s of
cycle time, `pausedMachine` none, `readyMachine` is unchanged. -/
theorem per_tick_advance_witness :
    (washingMachine.updateSimulation 1).cycleTimeElapsed = washingMachine.cycleTimeElapsed + 1 ∧
    (washingMachine.updateSimulation 1).motor = washingMachine.motor.update 1 ∧
    (pausedMachine.updateSimulation 1).cycleTimeElapsed = pausedMachine.cycleTimeElapsed ∧
    readyMachine.updateSimulation 1 = readyMachine :=
  ⟨((per_tick_advance washingMachine 1).1 (by decide!)).2.2.1,
    ((per_tick_advance washingMachine 1).1 (by decide!)).2.1,
    by rw [(per_tick_advance pausedMachine 1).2.1 (by decide!)],
    (per_tick_advance readyMachine 1).2.2 (by decide!)⟩

/-- C34: in an active state `updateSimulation(delta)` appends to the queue the
notifications of the water system (`SYS_WATER_LEVEL_REACHED`,
`SYS_DRAIN_COMPLETE`) and then, iff phase elapsed time plus `delta` is at least
the stored phase estimate `currentPhaseTime`, the phase-complete event of the
current state: `SYS_WASH_COMPLETE` in `Washing`, `SYS_RINSE_COMPLETE` in
`Rinsing`, `SYS_SPIN_COMPLETE` in `Spinning`, none in `Filling` and `Draining`;
nothing else is appended. -/
theorem phase_completion (wm : WashingMachine) (δ : ℚ) :
    (wm.stateMachine.isActiveState = true →
      (wm.updateSimulation δ).eventEngine.eventQueue =
        wm.eventEngine.eventQueue ++
          (wm.water.update δ).2.map (fun t => { type := t, data := .none }) ++
          (if wm.phaseTimeElapsed + δ ≥ wm.currentPhaseTime then
            (phaseCompleteEvent wm.stateMachine.currentState).toList.map
              (fun t => { type := t, data := .none })
          else [])) ∧
    (∀ t ∈ (wm.water.update δ).2,
      t = EventType.SYS_WATER_LEVEL_REACHED ∨ t = EventType.SYS_DRAIN_COMPLETE) ∧
    phaseCompleteEvent .Washing = some .SYS_WASH_COMPLETE ∧
    phaseCompleteEvent .Rinsing = some .SYS_RINSE_COMPLETE ∧
    phaseCompleteEvent .Spinning = some .SYS_SPIN_COMPLETE ∧
    phaseCompleteEvent .Filling = none ∧ phaseCompleteEvent .Draining = none := by
  refine ⟨?_, fun t ht => update_events wm.water δ t ht, rfl, rfl, rfl, rfl, rfl⟩
  intro hact
  rw [(updateSimulation_cases wm δ).1 hact]
  obtain ⟨-, -, -, -, -, -, -, -, r9⟩ :=
    raisePhaseComplete_parts (wm.advanceCycle δ) wm.stateMachine.currentState
  obtain ⟨-, -, -, a4, a5, -⟩ := advanceCycle_parts wm δ
  rw [r9, a4, a5, (advanceCycle_frame wm δ).2.2.2, pushEvents_queue]

/-- A concrete instance of `phase_completion`: `washingMachine` queues
`SYS_WASH_COMPLETE` after 2000 s and nothing after 1 s. -/
theorem phase_completion_witness :
    washingMachine.phaseTimeElapsed + 2000 ≥ washingMachine.currentPhaseTime ∧
    (washingMachine.updateSimulation 2000).eventEngine.eventQueue =
      [{ type := .SYS_WASH_COMPLETE, data := .none }] ∧
    (washingMachine.updateSimulation 1).eventEngine.eventQueue = [] := by
  refine ⟨by decide!, ?_, ?_⟩
  · rw [(phase_completion washingMachine 2000).1 (by decide!)]
    decide!
  · rw [(phase_completion washingMachine 1).1 (by decide!)]
    decide!

/-- The table has no `CMD_START` row in the active states and `Paused`. -/
theorem specTable_start_in_cycle (s : State)
    (hs : s ∈ [State.Filling, .Washing, .Rinsing, .Spinning, .Draining, .Paused]) :
    specTable s .CMD_START = none := by
  simp only [List.mem_cons, List.mem_singleton, List.mem_nil_iff, or_false] at hs
  rcases hs with h | h | h | h | h | h <;> subst h <;> rfl

/-- C39, as stated, fails: on `washingMachine` (state `Washing`, 3 s elapsed,
progress 3000/11369) `start()` sets cycle elapsed time and progress to 0 and
replaces the total cycle time. -/
theorem start_resets_running_cycle :
    washingMachine.stateMachine.currentState = .Washing ∧
    washingMachine.cycleTimeElapsed = 3 ∧
    washingMachine.start.cycleTimeElapsed = 0 ∧
    washingMachine.cycleProgress = 3000 / 11369 ∧
    washingMachine.start.cycleProgress = 0 ∧
    washingMachine.totalCycleTime = 11369 / 10 ∧
    washingMachine.start.totalCycleTime = 6833 / 6 := by
  decide!

/-- C39 (amended): in an active state or in `Paused`, `start()` leaves the
state machine as it is.  When `validateStart` fails it changes nothing; when it
passes (door closed, load in range, reservoir not low) it recomputes the total
cycle time, sets cycle elapsed time and progress to 0 and queues `CMD_START`.
With no other event pending, processing the queue leaves the state machine
unchanged (`CMD_START` has no edge there) and keeps the three values `start()`
left. -/
theorem start_during_cycle (wm : WashingMachine)
    (hs : wm.stateMachine.currentState ∈
      [State.Filling, .Washing, .Rinsing, .Spinning, .Draining, .Paused]) :
    wm.start.stateMachine = wm.stateMachine ∧
    (wm.validateStart = false → wm.start = wm) ∧
    (wm.validateStart = true →
      wm.start.totalCycleTime = wm.calculateTotalCycleTime ∧
      wm.start.cycleTimeElapsed = 0 ∧ wm.start.cycleProgress = 0 ∧
      wm.start.eventEngine.eventQueue =
        wm.eventEngine.eventQueue ++ [{ type := .CMD_START, data := .none }]) ∧
    (wm.eventEngine.eventQueue = [] →
      ∃ wm1, wm.start.processEvents = some wm1 ∧ wm1.stateMachine = wm.stateMachine ∧
        wm1.totalCycleTime = wm.start.totalCycleTime ∧
        wm1.cycleTimeElapsed = wm.start.cycleTimeElapsed ∧
        wm1.cycleProgress = wm.start.cycleProgress) := by
  have hfalse : wm.validateStart = false → wm.start = wm := by
    intro h
    simp [WashingMachine.start, h]
  have htrue : wm.validateStart = true → wm.start =
      { wm with
        totalCycleTime := wm.calculateTotalCycleTime
        cycleTimeElapsed := 0
        cycleProgress := 0
        eventEngine := wm.eventEngine.pushEventType .CMD_START } := by
    intro h
    simp [WashingMachine.start, h]
  refine ⟨?_, hfalse, ?_, ?_⟩
  · cases hv : wm.validateStart
    · rw [hfalse hv]
    · rw [htrue hv]
  · intro hv
    rw [htrue hv]
    exact ⟨rfl, rfl, rfl, rfl⟩
  · intro hq
    cases hv : wm.validateStart
    · rw [hfalse hv]
      refine ⟨wm, ?_, rfl, rfl, rfl, rfl⟩
      unfold WashingMachine.processEvents
      rw [hq]
      rfl
    · have hq2 : wm.start.eventEngine.eventQueue = [{ type := .CMD_START, data := .none }] := by
        rw [htrue hv]
        simp [EventEngine.pushEventType, EventEngine.pushEvent, hq]
      refine ⟨_, processEvents_single _ _ hq2, ?_⟩
      rw [smTransition_eq]
      have hst : specTable
          (WashingMachine.stateMachine
            { wm.start with
              eventEngine := { wm.start.eventEngine with eventQueue := [] } }).currentState
          .CMD_START = none := by
        show specTable wm.start.stateMachine.currentState .CMD_START = none
        rw [htrue hv]
        exact specTable_start_in_cycle _ hs
      simp only [hst]
      rw [htrue hv]
      exact ⟨by trivial, by trivial, by trivial, by trivial⟩

/-- A concrete instance of `start_during_cycle`: `washingMachine`. -/
theorem start_during_cycle_witness :
    washingMachine.start.cycleTimeElapsed = 0 ∧
    ∃ wm1, washingMachine.start.processEvents = some wm1 ∧
      wm1.stateMachine = washingMachine.stateMachine :=
  ⟨((start_during_cycle washingMachine (by decide!)).2.2.1 (by decide!)).2.1,
    by
      obtain ⟨wm1, h1, h2, -⟩ :=
        (start_during_cycle washingMachine (by decide!)).2.2.2 (by decide!)
      exact ⟨wm1, h1, h2⟩⟩

/-- Handling an event that is neither `CMD_SELECT_MODE` nor `CMD_SET_LOAD` only
hands its type to the state machine. -/
theorem handleEvent_plain (wm : WashingMachine) (ev : Event)
    (h1 : ev.type ≠ .CMD_SELECT_MODE) (h2 : ev.type ≠ .CMD_SET_LOAD) :
    wm.handleEvent ev = some (wm.smTransition ev.type).2 := by
  unfold WashingMachine.handleEvent
  simp [Event.getType, h1, h2]

/-- A queue without `CMD_SELECT_MODE` and `CMD_SET_LOAD` is processed to the
end, and the selected program and the load stay as they are. -/
theorem processEventsLoop_plain (fuel : Nat) :
    ∀ wm : WashingMachine,
      (∀ e ∈ wm.eventEngine.eventQueue, e.type ≠ .CMD_SELECT_MODE ∧ e.type ≠ .CMD_SET_LOAD) →
      ∃ wm1, WashingMachine.processEventsLoop fuel wm = some wm1 ∧
        wm1.currentModeIndex = wm.currentModeIndex ∧ wm1.loadWeight = wm.loadWeight := by
  induction fuel with
  | zero => intro wm _; exact ⟨wm, rfl, rfl, rfl⟩
  | succ n ih =>
    intro wm hq
    unfold WashingMachine.processEventsLoop
    cases hqueue : wm.eventEngine.eventQueue with
    | nil =>
      refine ⟨wm, ?_, rfl, rfl⟩
      simp [EventEngine.hasEvents, hqueue]
    | cons ev rest =>
      have hev := hq ev (by rw [hqueue]; exact List.mem_cons_self _ _)
      simp only [EventEngine.hasEvents, EventEngine.popEvent, hqueue, List.isEmpty_cons,
        Bool.not_false, if_true]
      rw [handleEvent_plain _ ev hev.1 hev.2]
      simp only [Option.some_bind]
      have hk := smTransition_keeps
        { wm with eventEngine := { wm.eventEngine with eventQueue := rest } } ev.type
      have hee := smTransition_eventEngine
        { wm with eventEngine := { wm.eventEngine with eventQueue := rest } } ev.type
      obtain ⟨wm1, r1, r2, r3⟩ := ih
        (WashingMachine.smTransition
          { wm with eventEngine := { wm.eventEngine with eventQueue := rest } } ev.type).2
        (by
          rw [hee]
          intro e he
          exact hq e (by rw [hqueue]; exact List.mem_cons_of_mem _ he))
      exact ⟨wm1, r1, r2.trans hk.2.2.2.1, r3.trans hk.2.2.2.2.1⟩

/-- C40, as stated, fails: on `pausedMachine` (paused from `Washing`, program
0, load 3) `selectMode(1)` and `setLoad(5)` are accepted; after a tick and
`resume()` the cycle continues in `Washing` with program 1 and load 5. -/
theorem paused_cycle_accepts_new_program :
    pausedMachine.stateMachine.currentState = .Paused ∧
    pausedMachine.currentModeIndex = 0 ∧ pausedMachine.loadWeight = 3 ∧
    (pausedMachine.selectMode 1).currentModeIndex = 1 ∧
    (pausedMachine.setLoad 5).loadWeight = 5 ∧
    ((pausedMachine.run [.selectMode 1, .setLoad 5, .tick 0, .resume]).map fun wm =>
      (wm.stateMachine.currentState, wm.currentModeIndex, wm.loadWeight)) =
      some (.Washing, 1, 5) := by
  decide!

/-- C40 (amended): in an active state `selectMode` and `setLoad` are rejected
and change nothing; `openDoor`, `closeDoor`, `start`, `pause`, `resume`, `stop`,
`emergencyStop`, `clearFault` and `updateSimulation` never change the current
mode index or the load weight; `processEvents` keeps them when no
`CMD_SELECT_MODE` or `CMD_SET_LOAD` event is pending (and then runs to the end).
In every state that is not active, `Paused` and `EmergencyStop` included,
`selectMode(i)` with `i` in range sets the mode index to `i` and `setLoad(kg)`
with `kg >= 0` sets the load to `kg`. -/
theorem program_and_load_changes (wm : WashingMachine) :
    (wm.stateMachine.isActiveState = true →
      ∀ (i : Int) (kg : ℚ), wm.selectMode i = wm ∧ wm.setLoad kg = wm) ∧
    (∀ wm1 ∈ [wm.openDoor, wm.closeDoor, wm.start, wm.pause, wm.resume, wm.stop,
        wm.emergencyStop, wm.clearFault],
      wm1.currentModeIndex = wm.currentModeIndex ∧ wm1.loadWeight = wm.loadWeight) ∧
    (∀ δ : ℚ, (wm.updateSimulation δ).currentModeIndex = wm.currentModeIndex ∧
      (wm.updateSimulation δ).loadWeight = wm.loadWeight) ∧
    ((∀ e ∈ wm.eventEngine.eventQueue,
        e.type ≠ .CMD_SELECT_MODE ∧ e.type ≠ .CMD_SET_LOAD) →
      ∃ wm1, wm.processEvents = some wm1 ∧
        wm1.currentModeIndex = wm.currentModeIndex ∧ wm1.loadWeight = wm.loadWeight) ∧
    (wm.stateMachine.isActiveState = false →
      (∀ i : Int, 0 ≤ i → i < wm.config.getModeCount →
        (wm.selectMode i).currentModeIndex = i) ∧
      (∀ kg : ℚ, 0 ≤ kg → (wm.setLoad kg).loadWeight = kg)) := by
  refine ⟨?_, ?_, ?_, ?_, ?_⟩
  · intro hact i kg
    constructor
    · unfold WashingMachine.selectMode
      split_ifs <;> rfl
    · unfold WashingMachine.setLoad
      rw [if_pos hact]
  · intro wm1 hmem
    simp only [List.mem_cons, List.mem_singleton, List.mem_nil_iff, or_false] at hmem
    rcases hmem with h | h | h | h | h | h | h | h <;> subst h
    · unfold WashingMachine.openDoor
      split
      · dsimp only
        have := smTransition_keeps { wm with door := wm.door.openDoor.2.1 } .CMD_OPEN_DOOR
        exact ⟨this.2.2.2.1, this.2.2.2.2.1⟩
      · exact ⟨rfl, rfl⟩
    · unfold WashingMachine.closeDoor
      dsimp only
      have := smTransition_keeps { wm with door := wm.door.closeDoor.2.1 } .CMD_CLOSE_DOOR
      exact ⟨this.2.2.2.1, this.2.2.2.2.1⟩
    · unfold WashingMachine.start
      split <;> exact ⟨rfl, rfl⟩
    · unfold WashingMachine.pause
      split <;> exact ⟨rfl, rfl⟩
    · rw [resume_eq]
      split
      · have h1 := startPhase_keeps (wm.smForceState wm.stateMachine.pausedFromState)
          wm.stateMachine.pausedFromState
        have h2 := smForceState_keeps wm wm.stateMachine.pausedFromState
        exact ⟨h1.2.2.2.1.trans h2.2.2.2.1, h1.2.2.2.2.1.trans h2.2.2.2.2.1⟩
      · exact ⟨rfl, rfl⟩
    · unfold WashingMachine.stop
      dsimp only
      split
      · exact ⟨rfl, rfl⟩
      · split
        · split
          · have := smForceState_keeps
              { wm with motor := wm.motor.stop, water := wm.water.stopFilling.startDraining }
              .Draining
            exact ⟨this.2.2.2.1, this.2.2.2.2.1⟩
          · have := smForceState_keeps
              { wm with motor := wm.motor.stop, water := wm.water.stopFilling,
                        door := wm.door.unlock }
              .Idle
            exact ⟨this.2.2.2.1, this.2.2.2.2.1⟩
        · exact ⟨rfl, rfl⟩
    · exact ⟨rfl, rfl⟩
    · unfold WashingMachine.clearFault
      split <;> exact ⟨rfl, rfl⟩
  · intro δ
    rw [updateSimulation_eq]
    dsimp only
    have hA : ∀ x : WashingMachine,
        ((x.advanceCycle δ).raisePhaseComplete x.stateMachine.currentState).currentModeIndex =
          x.currentModeIndex ∧
        ((x.advanceCycle δ).raisePhaseComplete x.stateMachine.currentState).loadWeight =
          x.loadWeight := by
      intro x
      obtain ⟨-, -, -, -, -, -, r7, r8, -⟩ :=
        raisePhaseComplete_parts (x.advanceCycle δ) x.stateMachine.currentState
      obtain ⟨-, -, -, -, -, -, a7, a8, -⟩ := advanceCycle_parts x δ
      exact ⟨r7.trans a7, r8.trans a8⟩
    have hD : ∀ x : WashingMachine,
        (x.drainInEmergency δ).currentModeIndex = x.currentModeIndex ∧
        (x.drainInEmergency δ).loadWeight = x.loadWeight := by
      intro x
      obtain ⟨-, -, -, -, -, -, d7, d8, -⟩ := drainInEmergency_parts x δ
      exact ⟨d7, d8⟩
    split_ifs <;>
      first
      | exact ⟨rfl, rfl⟩
      | exact hA wm
      | exact hD wm
      | exact ⟨(hD _).1.trans (hA wm).1, (hD _).2.trans (hA wm).2⟩
      | exact hD _
  · intro hq
    exact processEventsLoop_plain _ wm hq
  · intro hact
    constructor
    · intro i h0 h1
      unfold WashingMachine.selectMode
      rw [if_neg (by omega), if_neg (by simp [hact])]
    · intro kg hk
      unfold WashingMachine.setLoad
      rw [if_neg (by simp [hact]), if_neg (not_lt.mpr hk)]

/-- A concrete instance of `program_and_load_changes`: `washingMachine` rejects
both commands, `pausedMachine` accepts `selectMode(1)`, and processing the
`CMD_START` queued on `washingMachine` keeps program and load. -/
theorem program_and_load_changes_witness :
    washingMachine.selectMode 1 = washingMachine ∧
    washingMachine.setLoad 5 = washingMachine ∧
    (pausedMachine.selectMode 1).currentModeIndex = 1 ∧
    (∃ wm1, washingMachine.start.processEvents = some wm1 ∧
      wm1.currentModeIndex = washingMachine.start.currentModeIndex ∧
      wm1.loadWeight = washingMachine.start.loadWeight) :=
  ⟨((program_and_load_changes washingMachine).1 (by decide!) 1 5).1,
    ((program_and_load_changes washingMachine).1 (by decide!) 1 5).2,
    ((program_and_load_changes pausedMachine).2.2.2.2 (by decide!)).1 1 (by decide)
      (by decide!),
    (program_and_load_changes washingMachine.start).2.2.2.1 (by decide!)⟩

/-! ## Progress, emergency drain and the `Fault` state -/

/-- What the entry observer does to the water system and, on entering
`EmergencyStop`, to the motor. -/
theorem onStateEnter_water (a b : State) (wm : WashingMachine) (hs : wm.water.Sound) :
    (WashingMachine.onStateEnter a b wm).water.Sound ∧
    (WashingMachine.onStateEnter a b wm).water.eventCallback = wm.water.eventCallback ∧
    (a = .EmergencyStop →
      (WashingMachine.onStateEnter a b wm).water.inletValveOpen = false ∧
      (WashingMachine.onStateEnter a b wm).water.drainValveOpen = true ∧
      (WashingMachine.onStateEnter a b wm).motor.currentRPM = 0) := by
  cases a
  case Filling =>
    refine ⟨?_, ?_, fun h => by cases h⟩
    · exact sound_startFilling wm.water _ hs
    · show (wm.water.startFilling _).1.eventCallback = _
      rw [startFilling_eq wm.water _ hs]
  case Draining =>
    exact ⟨sound_startDraining wm.water hs, rfl, fun h => by cases h⟩
  case EmergencyStop =>
    exact ⟨sound_startDraining _ (sound_stopFilling wm.water hs), rfl, fun _ => ⟨rfl, rfl, rfl⟩⟩
  case Paused =>
    exact ⟨sound_stopFilling wm.water hs, rfl, fun h => by cases h⟩
  all_goals exact ⟨hs, rfl, fun h => by cases h⟩

/-- A `forceState` to a state other than `Fault` keeps `Steady`. -/
theorem steady_smForceState (wm : WashingMachine) (d : State) (hs : wm.Steady)
    (hd : d ≠ .Fault) : (wm.smForceState d).Steady := by
  have hk := smForceState_keeps wm d
  have hf := smForceState_frame wm d
  have hw : (wm.smForceState d).water.Sound ∧
      (wm.smForceState d).water.eventCallback = wm.water.eventCallback ∧
      (d = .EmergencyStop →
        (wm.smForceState d).water.inletValveOpen = false ∧
        (wm.smForceState d).water.drainValveOpen = true ∧
        (wm.smForceState d).motor.currentRPM = 0) := by
    rw [smForceState_eq]
    exact onStateEnter_water d _ _ hs.water
  refine ⟨?_, ?_, hw.1, hw.2.1.trans hs.callback, ?_, ?_, ?_⟩
  · rw [hk.1]; exact hs.elapsed
  · rw [hk.2.1]; exact hs.progress
  · intro hes
    rw [hf.1] at hes
    obtain ⟨h1, h2, h3⟩ := hw.2.2 hes
    exact ⟨⟨hw.1, h1, hw.2.1.trans hs.callback, fun _ => h2⟩, h3⟩
  · rw [hf.1]; exact hd
  · rw [hf.2.2.2.1]; exact hs.noFaultEvents

/-- A `transition` on an event that is not a fault event keeps `Steady`. -/
theorem steady_smTransition (wm : WashingMachine) (e : EventType) (hs : wm.Steady)
    (he : e ∉ faultEvents) : (wm.smTransition e).2.Steady := by
  rw [smTransition_eq]
  cases hst : specTable wm.stateMachine.currentState e with
  | none => exact hs
  | some d =>
    refine steady_smForceState wm d hs ?_
    intro hd
    rw [hd] at hst
    have := ((specTable_fault _ _).mp hst).2
    rw [this] at he
    exact he (by simp [faultEvents])

/-- A change of members that `Steady` does not mention. -/
theorem steady_of_same_parts (wm wm1 : WashingMachine)
    (hsm : wm1.stateMachine = wm.stateMachine) (hwater : wm1.water = wm.water)
    (hmotor : wm1.motor = wm.motor)
    (hel : wm1.cycleTimeElapsed = wm.cycleTimeElapsed ∨ wm1.cycleTimeElapsed = 0)
    (hpr : wm1.cycleProgress = wm.cycleProgress ∨ wm1.cycleProgress = 0)
    (hq : ∀ e ∈ wm1.eventEngine.eventQueue,
      e ∈ wm.eventEngine.eventQueue ∨ e.type ∉ faultEvents)
    (hs : wm.Steady) : wm1.Steady := by
  refine ⟨?_, ?_, ?_, ?_, ?_, ?_, ?_⟩
  · rcases hel with h | h <;> rw [h]
    · exact hs.elapsed
  · rcases hpr with h | h <;> rw [h]
    · exact hs.progress
    · norm_num
  · rw [hwater]; exact hs.water
  · rw [hwater]; exact hs.callback
  · rw [hsm, hwater, hmotor]; exact hs.emergency
  · rw [hsm]; exact hs.notFault
  · intro e he
    rcases hq e he with h | h
    · exact hs.noFaultEvents e h
    · exact h

/-- Queueing an event that is not a fault event keeps `Steady`. -/
theorem steady_push (wm : WashingMachine) (ev : Event) (hs : wm.Steady)
    (hev : ev.type ∉ faultEvents) :
    WashingMachine.Steady { wm with eventEngine := wm.eventEngine.pushEvent ev } := by
  refine steady_of_same_parts wm _ rfl rfl rfl (Or.inl rfl) (Or.inl rfl) ?_ hs
  intro e he
  rcases mem_push _ _ _ he with h | h
  · exact Or.inl h
  · subst h; exact Or.inr hev

/-- Handling a queued event keeps `Steady`. -/
theorem steady_handleEvent (wm wm1 : WashingMachine) (ev : Event) (rest : List Event)
    (hs : wm.Steady) (hq : wm.eventEngine.eventQueue = ev :: rest)
    (he : WashingMachine.handleEvent
      { wm with eventEngine := { wm.eventEngine with eventQueue := rest } } ev = some wm1) :
    wm1.Steady := by
  obtain ⟨i, x, rfl⟩ := handleEvent_spec _ _ _ he
  refine steady_smTransition _ _ ?_ (hs.noFaultEvents ev (by rw [hq]; exact List.mem_cons_self _ _))
  refine steady_of_same_parts wm _ rfl rfl rfl (Or.inl rfl) (Or.inl rfl) ?_ hs
  intro e hmem
  exact Or.inl (by rw [hq]; exact List.mem_cons_of_mem _ hmem)

/-- Draining the queue keeps `Steady`. -/
theorem steady_processEvents (wm wm1 : WashingMachine) (hs : wm.Steady)
    (hrun : wm.processEvents = some wm1) : wm1.Steady :=
  processEventsLoop_induct WashingMachine.Steady
    (fun a b ev rest ha hq he => steady_handleEvent a b ev rest ha hq he) _ wm wm1 hs hrun

/-- Handling events does not move water. -/
theorem processEvents_waterLevel (wm wm1 : WashingMachine)
    (hrun : wm.processEvents = some wm1) :
    wm1.water.currentLevel = wm.water.currentLevel := by
  refine processEventsLoop_induct (fun x => x.water.currentLevel = wm.water.currentLevel)
    ?_ _ wm wm1 rfl hrun
  intro a b ev rest ha hq he
  obtain ⟨i, x, rfl⟩ := handleEvent_spec _ _ _ he
  rw [(smTransition_keeps _ _).2.2.2.2.2.2]
  exact ha

/-- An `updateSimulation` with non-negative delta keeps `Steady`. -/
theorem steady_updateSimulation (wm : WashingMachine) (δ : ℚ) (hs : wm.Steady)
    (hδ : 0 ≤ δ) : (wm.updateSimulation δ).Steady := by
  obtain ⟨u1, -, -, u4, -⟩ := updateSimulation_frame wm δ
  obtain ⟨c1, c2, c3, c4⟩ := updateSimulation_cases wm δ
  have hq : ∀ e ∈ (wm.updateSimulation δ).eventEngine.eventQueue, e.type ∉ faultEvents := by
    intro e he
    rcases u4 e he with h | ⟨_, h⟩
    · exact hs.noFaultEvents e h
    · simp only [List.mem_cons, List.mem_singleton, List.mem_nil_iff, or_false] at h
      rcases h with h | h | h | h | h <;> rw [h] <;> simp [faultEvents]
  have hnf : (wm.updateSimulation δ).stateMachine.currentState ≠ .Fault := by
    rw [u1]; exact hs.notFault
  by_cases hact : wm.stateMachine.isActiveState = true
  · have hne : wm.stateMachine.currentState ≠ .EmergencyStop := by
      intro h; rw [StateMachine.isActiveState, h] at hact; exact absurd hact (by decide)
    obtain ⟨r1, -, r3, -, r5, -⟩ :=
      raisePhaseComplete_parts (wm.advanceCycle δ) wm.stateMachine.currentState
    obtain ⟨a1, -, a3, -, -, -, -, -, a9⟩ := advanceCycle_parts wm δ
    have hsu := sound_update wm.water δ hs.water hδ
    have hel : 0 ≤ wm.cycleTimeElapsed + δ := add_nonneg hs.elapsed hδ
    refine ⟨?_, ?_, ?_, ?_, ?_, hnf, hq⟩
    · rw [c1 hact, r3, a3]; exact hel
    · rw [c1 hact, r5, a9]
      split_ifs with ht hp
      · norm_num
      · exact ⟨mul_nonneg (div_nonneg hel ht.le) (by norm_num), not_lt.mp hp⟩
      · exact hs.progress
    · rw [c1 hact, r1, a1]; exact hsu.1
    · rw [c1 hact, r1, a1, hsu.2.2.1]; exact hs.callback
    · intro hes
      rw [u1] at hes
      exact absurd hes hne
  · by_cases hp : wm.stateMachine.currentState = .Paused
    · rw [c2 hp]
      have hne : wm.stateMachine.currentState ≠ .EmergencyStop := by rw [hp]; decide
      exact ⟨hs.elapsed, hs.progress, hs.water, hs.callback, fun h => absurd h hne,
        hs.notFault, hs.noFaultEvents⟩
    · by_cases he : wm.stateMachine.currentState = .EmergencyStop
      · obtain ⟨d1, d2, d3, -, d5, -⟩ := drainInEmergency_parts wm δ
        obtain ⟨hdc, hrpm⟩ := hs.emergency he
        have hstep := drain_cycle_step wm.water δ hdc hδ
        have hsu := sound_update wm.water δ hs.water hδ
        refine ⟨?_, ?_, ?_, ?_, ?_, hnf, hq⟩
        · rw [c3 he, d3]; exact hs.elapsed
        · rw [c3 he, d5]; exact hs.progress
        · rw [c3 he, d1]; exact hsu.1
        · rw [c3 he, d1, hsu.2.2.1]; exact hs.callback
        · intro _
          rw [c3 he, d1, d2]
          exact ⟨hstep.1, hrpm⟩
      · have hmem : wm.stateMachine.currentState ∈
            [State.Idle, .DoorOpen, .Ready, .Completed, .Fault] := by
          cases hst : wm.stateMachine.currentState <;>
            simp [StateMachine.isActiveState, hst] at hact hp he ⊢
        rw [c4 hmem]
        exact hs

/-- The start logic of a phase keeps `Steady` outside `EmergencyStop`. -/
theorem steady_startPhase (wm : WashingMachine) (r : State) (hs : wm.Steady)
    (hne : wm.stateMachine.currentState ≠ .EmergencyStop) : (wm.startPhase r).Steady := by
  have hk := startPhase_keeps wm r
  have hf := startPhase_frame wm r
  have hw : (wm.startPhase r).water.Sound ∧
      (wm.startPhase r).water.eventCallback = wm.water.eventCallback := by
    cases r
    case Filling =>
      exact ⟨(onStateEnter_water .Filling .Idle wm hs.water).1,
        (onStateEnter_water .Filling .Idle wm hs.water).2.1⟩
    all_goals exact ⟨hs.water, rfl⟩
  refine ⟨?_, ?_, hw.1, hw.2.trans hs.callback, ?_, ?_, ?_⟩
  · rw [hk.1]; exact hs.elapsed
  · rw [hk.2.1]; exact hs.progress
  · intro hes
    rw [hf.1] at hes
    exact absurd hes hne
  · rw [hf.1]; exact hs.notFault
  · rw [hf.2.2.1]; exact hs.noFaultEvents

/-- Every action keeps `Steady`. -/
theorem steady_step (wm wm1 : WashingMachine) (a : Action) (hc : wm.Consistent)
    (hs : wm.Steady) (hnn : a.nonNegative) (hstep : wm.step a = some wm1) : wm1.Steady := by
  have hwater : ∀ (w : WaterSystem) (x : WashingMachine), x.Steady → w.Sound →
      w.eventCallback = true → x.stateMachine.currentState ≠ .EmergencyStop →
      WashingMachine.Steady { x with water := w } := by
    intro w x hx hw hcb hne
    exact ⟨hx.elapsed, hx.progress, hw, hcb, fun h => absurd h hne, hx.notFault,
      hx.noFaultEvents⟩
  cases a with
  | tick δ =>
    simp only [WashingMachine.step, Option.map_eq_some'] at hstep
    obtain ⟨wmP, hP, rfl⟩ := hstep
    exact steady_updateSimulation wmP δ (steady_processEvents wm wmP hs hP) hnn
  | openDoor =>
    cases hstep
    unfold WashingMachine.openDoor
    split
    · exact steady_smTransition _ _
        (steady_of_same_parts wm _ rfl rfl rfl (Or.inl rfl) (Or.inl rfl)
          (fun e he => Or.inl he) hs) (by simp [faultEvents])
    · exact hs
  | closeDoor =>
    cases hstep
    exact steady_smTransition _ _
      (steady_of_same_parts wm _ rfl rfl rfl (Or.inl rfl) (Or.inl rfl)
        (fun e he => Or.inl he) hs) (by simp [faultEvents])
  | selectMode i =>
    cases hstep
    unfold WashingMachine.selectMode
    split_ifs
    · exact hs
    · exact hs
    · exact steady_push { wm with currentModeIndex := i } _
        (steady_of_same_parts wm _ rfl rfl rfl (Or.inl rfl) (Or.inl rfl)
          (fun e he => Or.inl he) hs) (by simp [faultEvents])
  | setLoad kg =>
    cases hstep
    unfold WashingMachine.setLoad
    split_ifs
    · exact hs
    · exact hs
    · exact steady_push { wm with loadWeight := kg } _
        (steady_of_same_parts wm _ rfl rfl rfl (Or.inl rfl) (Or.inl rfl)
          (fun e he => Or.inl he) hs) (by simp [faultEvents])
  | start =>
    cases hstep
    unfold WashingMachine.start
    split_ifs
    · exact hs
    · refine steady_of_same_parts wm _ rfl rfl rfl (Or.inr rfl) (Or.inr rfl) ?_ hs
      intro e he
      rcases mem_push _ _ _ he with h | h
      · exact Or.inl h
      · subst h; exact Or.inr (by simp [faultEvents])
  | pause =>
    cases hstep
    unfold WashingMachine.pause
    split_ifs
    · exact steady_push wm _ hs (by simp [faultEvents])
    · exact hs
  | resume =>
    cases hstep
    rw [resume_eq]
    split_ifs
    · have hr := hc.pausedFrom
      have hnf : wm.stateMachine.pausedFromState ≠ .Fault := by
        intro h; rw [h] at hr; exact absurd hr (by decide)
      have hne : wm.stateMachine.pausedFromState ≠ .EmergencyStop := by
        intro h; rw [h] at hr; exact absurd hr (by decide)
      refine steady_startPhase _ _ (steady_smForceState wm _ hs hnf) ?_
      rw [(smForceState_frame wm _).1]
      exact hne
    · exact hs
  | stop =>
    cases hstep
    unfold WashingMachine.stop
    dsimp only
    split_ifs with h1 h2 h3
    · exact hs
    · have hne : wm.stateMachine.currentState ≠ .EmergencyStop := by
        rcases h2 with h | h
        · intro he; rw [StateMachine.isActiveState, he] at h; exact absurd h (by decide)
        · simp only [StateMachine.getCurrentState] at h
          rw [h]; decide
      refine steady_smForceState _ _ ?_ (by decide)
      have hm : WashingMachine.Steady { wm with motor := wm.motor.stop } :=
        ⟨hs.elapsed, hs.progress, hs.water, hs.callback, fun h => absurd h hne, hs.notFault,
          hs.noFaultEvents⟩
      exact hwater _ _ (hwater _ _ hm (sound_stopFilling _ hs.water) hs.callback hne)
        (sound_startDraining _ (sound_stopFilling _ hs.water)) hs.callback hne
    · have hne : wm.stateMachine.currentState ≠ .EmergencyStop := by
        rcases h2 with h | h
        · intro he; rw [StateMachine.isActiveState, he] at h; exact absurd h (by decide)
        · simp only [StateMachine.getCurrentState] at h
          rw [h]; decide
      refine steady_smForceState _ _ ?_ (by decide)
      exact ⟨hs.elapsed, hs.progress, sound_stopFilling _ hs.water, hs.callback,
        fun h => absurd h hne, hs.notFault, hs.noFaultEvents⟩
    · exact steady_push wm _ hs (by simp [faultEvents])
  | emergencyStop =>
    cases hstep
    exact steady_push wm _ hs (by simp [faultEvents])
  | clearFault =>
    cases hstep
    unfold WashingMachine.clearFault
    split_ifs with h
    · exact absurd h hs.notFault
    · exact hs

/-- The freshly initialized machine is `Steady`. -/
theorem steady_init (configFile : Option (Option (List WashMode))) :
    (WashingMachine.new.init configFile).Steady := by
  have hw : (WashingMachine.new.init configFile).water =
      { WaterSystem.new with eventCallback := true } := by
    cases configFile <;> rfl
  have hst : (WashingMachine.new.init configFile).stateMachine.currentState = .Idle := by
    cases configFile <;> rfl
  have hq : (WashingMachine.new.init configFile).eventEngine.eventQueue = [] := by
    cases configFile <;> rfl
  have he : (WashingMachine.new.init configFile).cycleTimeElapsed = 0 := by
    cases configFile <;> rfl
  have hp : (WashingMachine.new.init configFile).cycleProgress = 0 := by
    cases configFile <;> rfl
  refine ⟨by rw [he], by rw [hp]; norm_num, ?_, by rw [hw], ?_, ?_, ?_⟩
  · rw [hw]
    constructor <;> norm_num [WaterSystem.new]
  · intro h; rw [hst] at h; cases h
  · rw [hst]; decide
  · intro e h; rw [hq] at h; cases h

/-- Every reachable state is `Steady`. -/
theorem reachable_steady (wm : WashingMachine) (hr : Reachable wm) : wm.Steady := by
  obtain ⟨configFile, actions, hnn, hrun⟩ := hr
  have h := run_induct (fun x => (x.Consistent ∧ x.EmergencyUnlocked) ∧ x.Steady)
    (fun a b act ha hn hs => ⟨inv_step a b act ha.1 hs, steady_step a b act ha.1.1 ha.2 hn hs⟩)
    actions _ wm ⟨inv_init configFile, steady_init configFile⟩ hnn hrun
  exact h.2

/-- What `getStatus` reports as remaining seconds: `none` exactly when the
rounded difference of total and elapsed time is 2^31 or more, and otherwise a
non-negative `int`. -/
theorem getStatus_remainingSeconds (wm : WashingMachine) :
    (wm.getStatus.remainingSeconds = none ↔
      2147483648 ≤ roundFloat (wm.totalCycleTime - wm.cycleTimeElapsed)) ∧
    (∀ n : Int, wm.getStatus.remainingSeconds = some n → 0 ≤ n ∧ fitsInt n) := by
  have hrem : wm.getStatus.remainingSeconds =
      if roundFloat (wm.totalCycleTime - wm.cycleTimeElapsed) > 0 then
        castToInt (roundFloat (wm.totalCycleTime - wm.cycleTimeElapsed))
      else some 0 := rfl
  rw [hrem]
  generalize roundFloat (wm.totalCycleTime - wm.cycleTimeElapsed) = r
  by_cases h : r > 0
  · rw [if_pos h]
    have hfl := truncToInt_eq_floor r h.le
    have hnn : 0 ≤ truncToInt r := truncToInt_nonneg r h.le
    have hlt : truncToInt r < 2147483648 ↔ r < 2147483648 := by
      rw [hfl, Int.floor_lt]
      norm_num
    unfold castToInt
    by_cases hf : fitsInt (truncToInt r)
    · rw [if_pos hf]
      constructor
      · constructor
        · intro hc; cases hc
        · intro hc
          exfalso
          have h1 : truncToInt r ≤ 2147483647 := hf.2
          have h2 : r < 2147483648 := hlt.mp (by omega)
          linarith
      · intro n hn
        cases hn
        exact ⟨hnn, hf⟩
    · rw [if_neg hf]
      constructor
      · constructor
        · intro _
          by_contra hc
          push_neg at hc
          have h1 : truncToInt r < 2147483648 := hlt.mpr hc
          apply hf
          constructor
          · show (-2147483648 : Int) ≤ truncToInt r
            omega
          · show truncToInt r ≤ (2147483647 : Int)
            omega
        · intro _; rfl
      · intro n hn; cases hn
  · rw [if_neg h]
    constructor
    · constructor
      · intro hc; cases hc
      · intro hc
        exfalso
        push_neg at h
        linarith
    · intro n hn
      cases hn
      exact ⟨le_rfl, by decide⟩

/-- C35, as stated, fails for the remaining seconds.  With a configuration
whose only program lasts 100000000 minutes, `start()` with 3 kg estimates a
cycle of more than 2^31 seconds; the remaining time is then no `int`, the
conversion in `getStatus` is undefined and no value is guaranteed. -/
theorem remaining_seconds_undefined :
    Reachable longCycleMachine ∧
    longCycleMachine.totalCycleTime - longCycleMachine.cycleTimeElapsed = 54000003279 / 10 ∧
    ¬ fitsInt (truncToInt
      (roundFloat (longCycleMachine.totalCycleTime - longCycleMachine.cycleTimeElapsed))) ∧
    longCycleMachine.getStatus.remainingSeconds = none := by
  refine ⟨⟨some (some [longProgram]), longCycleTrace, by decide!, by decide!⟩, by decide!,
    by decide!, by decide!⟩

/-- C35, amended: in every orchestrator state reachable by operator commands
and ticks with non-negative delta, `0 <= cycleProgress <= 100` (also as
reported by `getStatus`) and cycle elapsed time is not negative.  The remaining
seconds reported by `getStatus` are defined exactly when the remaining time,
as a `float`, is below 2^31, and where they are defined they are a
non-negative `int`. -/
theorem progress_capped (wm : WashingMachine) :
    (Reachable wm →
      0 ≤ wm.cycleProgress ∧ wm.cycleProgress ≤ 100 ∧
      0 ≤ wm.getStatus.progressPercent ∧ wm.getStatus.progressPercent ≤ 100 ∧
      0 ≤ wm.cycleTimeElapsed) ∧
    (wm.getStatus.remainingSeconds = none ↔
      2147483648 ≤ roundFloat (wm.totalCycleTime - wm.cycleTimeElapsed)) ∧
    (∀ n : Int, wm.getStatus.remainingSeconds = some n → 0 ≤ n ∧ fitsInt n) := by
  refine ⟨?_, (getStatus_remainingSeconds wm).1, (getStatus_remainingSeconds wm).2⟩
  intro hr
  have hs := reachable_steady wm hr
  exact ⟨hs.progress.1, hs.progress.2, hs.progress.1, hs.progress.2, hs.elapsed⟩

/-- A concrete instance of `progress_capped`: `washingMachine` is reachable,
and its remaining seconds are a non-negative `int`. -/
theorem progress_capped_witness :
    Reachable washingMachine ∧
    0 ≤ washingMachine.cycleProgress ∧ washingMachine.cycleProgress ≤ 100 ∧
    washingMachine.getStatus.remainingSeconds = some 1133 ∧ (0 : Int) ≤ 1133 :=
  have hr : Reachable washingMachine := ⟨none, washingTrace, by decide!, by decide!⟩
  ⟨hr, ((progress_capped washingMachine).1 hr).1, ((progress_capped washingMachine).1 hr).2.1,
    by decide!, ((progress_capped washingMachine).2.2 1133 (by decide!)).1⟩

/-- C36: take a reachable orchestrator state and a tick with non-negative
delta whose `processEvents` leaves the machine in `EmergencyStop`.  Then the tick
stays in `EmergencyStop`; the water level after it is the level before minus
`15 * delta`, clamped at 0; the motor is at 0 RPM and is not touched; and
`updateSimulation` unlocks the door exactly when the level after the tick is 0,
leaving the door as it is while there is water. -/
theorem emergency_drains_and_unlocks (wm wm1 : WashingMachine) (δ : ℚ)
    (hr : Reachable wm) (hδ : 0 ≤ δ) (hP : wm.processEvents = some wm1)
    (hes : wm1.stateMachine.currentState = .EmergencyStop) :
    wm.step (.tick δ) = some (wm1.updateSimulation δ) ∧
    (wm1.updateSimulation δ).stateMachine.currentState = .EmergencyStop ∧
    wm1.water.currentLevel = wm.water.currentLevel ∧
    (wm1.updateSimulation δ).water.currentLevel = max 0 (wm.water.currentLevel - 15 * δ) ∧
    wm1.motor.currentRPM = 0 ∧ (wm1.updateSimulation δ).motor = wm1.motor ∧
    (wm1.updateSimulation δ).door =
      (if (wm1.updateSimulation δ).water.currentLevel = 0 then wm1.door.unlock
        else wm1.door) := by
  have hs1 := steady_processEvents wm wm1 (reachable_steady wm hr) hP
  obtain ⟨hdc, hrpm⟩ := hs1.emergency hes
  have hlev := processEvents_waterLevel wm wm1 hP
  have hu := (updateSimulation_cases wm1 δ).2.2.1 hes
  obtain ⟨d1, d2, -, -, -, -, -, -, d9⟩ := drainInEmergency_parts wm1 δ
  obtain ⟨s1, -, s3, s4⟩ := drain_cycle_step wm1.water δ hdc hδ
  have hnew : (wm1.water.update δ).1.currentLevel = max 0 (wm1.water.currentLevel - 15 * δ) := by
    by_cases hpos : 0 < wm1.water.currentLevel
    · exact s4 hpos
    · rw [s3 hpos]
      have h0 : wm1.water.currentLevel = 0 := le_antisymm (not_lt.mp hpos) hs1.water.level
      rw [h0]
      exact (max_eq_left (by linarith)).symm
  have hge : 0 ≤ (wm1.water.update δ).1.currentLevel := s1.sound.level
  refine ⟨?_, ?_, hlev, ?_, hrpm, ?_, ?_⟩
  · simp only [WashingMachine.step, hP, Option.map_some']
  · rw [(updateSimulation_frame wm1 δ).1]; exact hes
  · rw [hu, d1, hnew, hlev]
  · rw [hu, d2]
  · rw [hu, d9, d1]
    by_cases hz : (wm1.water.update δ).1.currentLevel = 0
    · rw [if_pos ⟨hz.le, hrpm⟩, if_pos hz]
    · rw [if_neg (fun h => hz (le_antisymm h.1 hge)), if_neg hz]

/-- A concrete instance of `emergency_drains_and_unlocks`:
`drainingEmergencyMachine` holds 9.25 l; after 0.5 s it holds 1.75 l and the
door is still locked; after 1 s it is empty and the door is unlocked. -/
theorem emergency_drains_and_unlocks_witness :
    Reachable drainingEmergencyMachine ∧
    drainingEmergencyMachine.water.currentLevel = 37 / 4 ∧
    drainingEmergencyMachine.door.locked = true ∧
    (drainingEmergencyMachine.updateSimulation (1 / 2)).water.currentLevel = 7 / 4 ∧
    (drainingEmergencyMachine.updateSimulation (1 / 2)).door.locked = true ∧
    (drainingEmergencyMachine.updateSimulation 1).water.currentLevel = 0 ∧
    (drainingEmergencyMachine.updateSimulation 1).door.locked = false := by
  have hr : Reachable drainingEmergencyMachine :=
    ⟨none, drainingEmergencyTrace, by decide!, by decide!⟩
  have h1 := emergency_drains_and_unlocks drainingEmergencyMachine drainingEmergencyMachine
    (1 / 2) hr (by norm_num) (by decide!) (by decide!)
  have h2 := emergency_drains_and_unlocks drainingEmergencyMachine drainingEmergencyMachine
    1 hr (by norm_num) (by decide!) (by decide!)
  refine ⟨hr, by decide!, by decide!, ?_, ?_, ?_, ?_⟩
  · rw [h1.2.2.2.1]; decide!
  · rw [h1.2.2.2.2.2.2]; decide!
  · rw [h2.2.2.2.1]; decide!
  · rw [h2.2.2.2.2.2.2]; decide!

/-- C37 (the code at a failing input): after `drainingEmergencyTrace` the
machine is in `EmergencyStop` with 9.25 l in the drum and the door locked; the
operator calls `stop()`, and the next tick takes the `CMD_STOP` edge to `Idle`.
The machine is then in a safe-to-open state with the door closed and locked and
the water still in the drum; `openDoor()` is refused, and a later tick changes
nothing. -/
theorem idle_with_locked_door :
    (∀ a ∈ lockedIdleTrace, a.nonNegative) ∧
    (((WashingMachine.new.init none).run drainingEmergencyTrace).map fun wm =>
        (wm.stateMachine.currentState, wm.door.getStatus, wm.water.currentLevel,
          wm.eventEngine.eventQueue.map Event.getType)) =
      some (.EmergencyStop, .ClosedLocked, 37 / 4, []) ∧
    (((WashingMachine.new.init none).run lockedIdleTrace).map fun wm =>
        (wm.stateMachine.currentState, wm.stateMachine.isSafeToOpenDoor, wm.door.getStatus,
          wm.door.canOpen, wm.water.currentLevel, wm.openDoor.door.getStatus)) =
      some (.Idle, true, .ClosedLocked, false, 37 / 4, .ClosedLocked) ∧
    (((WashingMachine.new.init none).run (lockedIdleTrace ++ [.tick 10, .openDoor])).map
      fun wm => (wm.stateMachine.currentState, wm.door.getStatus, wm.water.currentLevel)) =
      some (.Idle, .ClosedLocked, 37 / 4) := by
  refine ⟨by decide!, by decide!, by decide!, by decide!⟩

/-- C38: `autoReplenish` always reports success and `startFilling` never
passes an event to the callback; the only table row into `Fault` is
`Filling: FAULT_WATER_UNAVAILABLE`; and in every reachable orchestrator state
the operating state is not `Fault`, no fault event is queued and the
remembered paused-from state (the target of the `forceState` in `resume`) is
not `Fault`. -/
theorem fault_unreachable :
    (∀ w : WaterSystem, w.autoReplenish.1 = true) ∧
    (∀ (w : WaterSystem) (targetLiters : ℚ), (w.startFilling targetLiters).2 = []) ∧
    (∀ (s d : State) (e : EventType), specTable s e = some d → d = .Fault →
      s = .Filling ∧ e = .FAULT_WATER_UNAVAILABLE) ∧
    (∀ wm : WashingMachine, Reachable wm →
      wm.stateMachine.currentState ≠ .Fault ∧
      (∀ e ∈ wm.eventEngine.eventQueue, e.type ∉ faultEvents) ∧
      wm.stateMachine.pausedFromState ≠ .Fault) := by
  refine ⟨fun _ => rfl, startFilling_events, ?_, ?_⟩
  · intro s d e h hd
    rw [hd] at h
    exact (specTable_fault s e).mp h
  · intro wm hr
    have hs := reachable_steady wm hr
    have hc := (reachable_inv wm hr).1
    refine ⟨hs.notFault, hs.noFaultEvents, ?_⟩
    intro h
    have := hc.pausedFrom
    rw [h] at this
    exact absurd this (by decide)

/-- A concrete instance of `fault_unreachable`: `washingMachine`. -/
theorem fault_unreachable_witness :
    Reachable washingMachine ∧ washingMachine.stateMachine.currentState ≠ .Fault :=
  have hr : Reachable washingMachine := ⟨none, washingTrace, by decide!, by decide!⟩
  ⟨hr, (fault_unreachable.2.2.2 washingMachine hr).1⟩

/-! ## Recovery from the emergency stop -/

/-- Entering `Idle` changes nothing but the state machine. -/
theorem smForceState_idle_door (wm : WashingMachine) :
    (wm.smForceState .Idle).door = wm.door := by
  rw [smForceState_eq]
  rfl

/-- In `Idle` and `EmergencyStop`, an event that is no operator command, or
`CMD_STOP`, leaves the machine in `Idle` or `EmergencyStop`; `CMD_STOP` leaves it
in `Idle`; the door is not touched. -/
theorem recover_step (wm : WashingMachine) (t : EventType)
    (ht : t ∉ operatorCommands ∨ t = .CMD_STOP)
    (hs : wm.stateMachine.currentState = .Idle ∨
      wm.stateMachine.currentState = .EmergencyStop) :
    (wm.smTransition t).2.door = wm.door ∧
    ((wm.smTransition t).2.stateMachine.currentState = .Idle ∨
      ((wm.smTransition t).2.stateMachine.currentState = .EmergencyStop ∧
        wm.stateMachine.currentState = .EmergencyStop ∧ t ≠ .CMD_STOP)) := by
  rw [smTransition_eq]
  rcases hs with hs | hs
  · have hnone : specTable .Idle t = none := by
      rcases ht with ht | ht
      · revert ht; cases t <;> decide
      · rw [ht]; rfl
    rw [hs, hnone]
    exact ⟨rfl, Or.inl hs⟩
  · rw [hs]
    by_cases h1 : t = .CMD_STOP
    · rw [h1]
      exact ⟨smForceState_idle_door wm, Or.inl (smForceState_frame wm .Idle).1⟩
    · by_cases h2 : t = .SYS_DRAIN_COMPLETE
      · rw [h2]
        exact ⟨smForceState_idle_door wm, Or.inl (smForceState_frame wm .Idle).1⟩
      · have hnone : specTable .EmergencyStop t = none := by
          rcases ht with ht | ht
          · revert ht h1 h2; cases t <;> decide
          · exact absurd ht h1
        rw [hnone]
        exact ⟨rfl, Or.inr ⟨hs, rfl, h1⟩⟩

/-- A queue of events that are no operator commands, with `CMD_STOP` somewhere
in it if the machine is still in `EmergencyStop`, is processed to the end and
leaves the machine in `Idle`, door untouched. -/
theorem recover_loop (fuel : Nat) :
    ∀ wm : WashingMachine,
      wm.eventEngine.eventQueue.length ≤ fuel →
      (∀ e ∈ wm.eventEngine.eventQueue, e.type ∉ operatorCommands ∨ e.type = .CMD_STOP) →
      (wm.stateMachine.currentState = .Idle ∨
        (wm.stateMachine.currentState = .EmergencyStop ∧
          ∃ e ∈ wm.eventEngine.eventQueue, e.type = .CMD_STOP)) →
      ∃ wm1, WashingMachine.processEventsLoop fuel wm = some wm1 ∧
        wm1.stateMachine.currentState = .Idle ∧ wm1.door = wm.door ∧
        wm1.eventEngine.eventQueue = [] := by
  induction fuel with
  | zero =>
    intro wm hlen _ hs
    have hq : wm.eventEngine.eventQueue = [] := List.length_eq_zero.mp (Nat.le_zero.mp hlen)
    rcases hs with hs | ⟨_, e, he, _⟩
    · exact ⟨wm, rfl, hs, rfl, hq⟩
    · rw [hq] at he; cases he
  | succ n ih =>
    intro wm hlen hq hs
    unfold WashingMachine.processEventsLoop
    cases hqueue : wm.eventEngine.eventQueue with
    | nil =>
      rcases hs with hs | ⟨_, e, he, _⟩
      · refine ⟨wm, ?_, hs, rfl, hqueue⟩
        simp [EventEngine.hasEvents, hqueue]
      · rw [hqueue] at he; cases he
    | cons ev rest =>
      have hev := hq ev (by rw [hqueue]; exact List.mem_cons_self _ _)
      have h1 : ev.type ≠ .CMD_SELECT_MODE := by
        rcases hev with h | h
        · intro hc; rw [hc] at h; exact h (by decide)
        · rw [h]; decide
      have h2 : ev.type ≠ .CMD_SET_LOAD := by
        rcases hev with h | h
        · intro hc; rw [hc] at h; exact h (by decide)
        · rw [h]; decide
      simp only [EventEngine.hasEvents, EventEngine.popEvent, hqueue, List.isEmpty_cons,
        Bool.not_false, if_true]
      rw [handleEvent_plain _ ev h1 h2]
      simp only [Option.some_bind]
      have hstate : WashingMachine.stateMachine
          { wm with eventEngine := { wm.eventEngine with eventQueue := rest } } =
          wm.stateMachine := rfl
      have hs0 : wm.stateMachine.currentState = .Idle ∨
          wm.stateMachine.currentState = .EmergencyStop := by
        rcases hs with hs | ⟨hs, _⟩
        · exact Or.inl hs
        · exact Or.inr hs
      obtain ⟨hdoor, hnext⟩ := recover_step
        { wm with eventEngine := { wm.eventEngine with eventQueue := rest } } ev.type hev hs0
      have hee := smTransition_eventEngine
        { wm with eventEngine := { wm.eventEngine with eventQueue := rest } } ev.type
      have hrest : (WashingMachine.smTransition
          { wm with eventEngine := { wm.eventEngine with eventQueue := rest } }
          ev.type).2.eventEngine.eventQueue = rest := by rw [hee]
      have hlen1 : rest.length ≤ n := by
        rw [hqueue] at hlen
        simpa using hlen
      obtain ⟨wm1, r1, r2, r3, r4⟩ := ih
        (WashingMachine.smTransition
          { wm with eventEngine := { wm.eventEngine with eventQueue := rest } } ev.type).2
        (by rw [hrest]; exact hlen1)
        (by
          rw [hrest]
          intro e he
          exact hq e (by rw [hqueue]; exact List.mem_cons_of_mem _ he))
        (by
          rcases hnext with h | ⟨h, hes, hne⟩
          · exact Or.inl h
          · refine Or.inr ⟨h, ?_⟩
            rw [hrest]
            rcases hs with hs | ⟨_, e, he, het⟩
            · rw [hstate, hs] at hes; cases hes
            · rw [hqueue] at he
              rcases List.mem_cons.mp he with he | he
              · rw [he] at het; exact absurd het hne
              · exact ⟨e, he, het⟩)
      exact ⟨wm1, r1, r2, r3.trans hdoor, r4⟩

/-- C16 (amended): for every reachable orchestrator state in `EmergencyStop`
with water level 0 and motor RPM 0 in which no operator command is pending,
`stop()` followed by `processEvents` returns and leaves the machine in `Idle`
with the queue empty.  Neither call touches the door; it is unlocked because
in a reachable state in `EmergencyStop` with the drum empty and the motor at
rest it already is (the tick that found the drum empty unlocked it).  Events
that are no operator commands may be pending, such as the `SYS_DRAIN_COMPLETE`
the water system reports when the drum runs empty. -/
theorem stop_recovers_from_emergency (wm : WashingMachine) (hr : Reachable wm)
    (hes : wm.stateMachine.currentState = .EmergencyStop)
    (hlevel : wm.water.currentLevel = 0) (hrpm : wm.motor.currentRPM = 0)
    (hqueue : ∀ e ∈ wm.eventEngine.eventQueue, e.type ∉ operatorCommands) :
    wm.door.locked = false ∧
    wm.stop.door = wm.door ∧
    ∃ wm1, wm.stop.processEvents = some wm1 ∧
      wm1.stateMachine.currentState = .Idle ∧
      wm1.door.locked = false ∧
      wm1.door = wm.door ∧
      wm1.eventEngine.eventQueue = [] := by
  have hunlocked : wm.door.locked = false :=
    (reachable_inv wm hr).2 hes (le_of_eq hlevel) hrpm
  have hstop : wm.stop =
      { wm with eventEngine := wm.eventEngine.pushEventType .CMD_STOP } := by
    unfold WashingMachine.stop
    simp [StateMachine.getCurrentState, StateMachine.isActiveState, hes]
  have hq : wm.stop.eventEngine.eventQueue =
      wm.eventEngine.eventQueue ++ [{ type := .CMD_STOP, data := .none }] := by
    rw [hstop]
    simp [EventEngine.pushEventType, EventEngine.pushEvent]
  have hd : wm.stop.door = wm.door := by rw [hstop]
  have hst : wm.stop.stateMachine.currentState = .EmergencyStop := by rw [hstop]; exact hes
  obtain ⟨wm1, r1, r2, r3, r4⟩ := recover_loop wm.stop.eventEngine.eventQueue.length wm.stop
    le_rfl
    (by
      intro e he
      rw [hq] at he
      rcases List.mem_append.mp he with he | he
      · exact Or.inl (hqueue e he)
      · rw [List.mem_singleton.mp he]; exact Or.inr rfl)
    (Or.inr ⟨hst, { type := .CMD_STOP, data := .none }, by rw [hq]; simp, rfl⟩)
  refine ⟨hunlocked, hd, wm1, r1, r2, ?_, r3.trans hd, r4⟩
  rw [r3, hd]
  exact hunlocked

/-- A concrete instance of `stop_recovers_from_emergency`: the machine after
`drainedEmergencyTrace`, where `SYS_DRAIN_COMPLETE` is pending. -/
theorem stop_recovers_from_emergency_witness :
    Reachable drainedEmergencyMachine ∧
    drainedEmergencyMachine.stateMachine.currentState = .EmergencyStop ∧
    drainedEmergencyMachine.water.currentLevel = 0 ∧
    drainedEmergencyMachine.motor.currentRPM = 0 ∧
    drainedEmergencyMachine.eventEngine.eventQueue.map Event.getType =
      [.SYS_DRAIN_COMPLETE] ∧
    ∃ wm1, drainedEmergencyMachine.stop.processEvents = some wm1 ∧
      wm1.stateMachine.currentState = .Idle ∧
      wm1.door.locked = false ∧
      wm1.door = drainedEmergencyMachine.door ∧
      wm1.eventEngine.eventQueue = [] :=
  have hr : Reachable drainedEmergencyMachine :=
    ⟨none, drainedEmergencyTrace, by decide!, by decide!⟩
  ⟨hr, by decide!, by decide!, by decide!, by decide!,
    (stop_recovers_from_emergency drainedEmergencyMachine hr (by decide!) (by decide!)
      (by decide!) (by decide!)).2.2⟩

end Washer
